import Mathlib

/-!
Verification of the Telegram VPN-subscription backend (uskoritel-interneta-back).

This file shallowly embeds the parts of the TypeScript source that the audited
claims are about:

* the shared date helpers (src/shared: parseDateOnly, addMonths, formatDateOnly),
  modelled over a civil-calendar date structure; JavaScript Date values in this
  code base are always UTC midnights, so a date is a (year, month, day) triple
  and the getTime comparison is comparison of civil day numbers;
* the user ledger (src/services/telegramUserService.ts) over a list-of-rows
  store mirroring the Supabase users table, with conditional updates modelled
  exactly as the .eq / .gte filters of the source;
* the pricing catalog (src/services/subscriptionPricingService.ts);
* the callback / command / invoice-payload parsers
  (src/controllers/entities/telegram-callback and telegram-command);
* the webhook dispatcher (src/controllers/features/telegram/
  telegramWebhookController.ts) with the chat transport abstracted as an
  effect log, each send/answer/edit returning an ok flag from the environment,
  and store outages modelled by per-table failure flags.

Monetary amounts are rationals; Math.round(x) is modelled as round x = ⌊x + 1/2⌋,
which is the JavaScript semantics, so roundUsd is exact 2-decimal rounding.
-/

namespace Uskoritel

/-! ### Civil dates

JavaScript Date values occurring in this code base are always UTC midnights
(every constructor call is followed by setUTCHours(0,0,0,0) or comes from
parseDateOnly). A date is therefore modelled as a civil (year, month, day)
triple with month in 1..12, and getTime-based comparisons become comparisons
of the civil day number. -/

structure CivilDate where
  year : Nat
  month : Nat
  day : Nat
deriving DecidableEq, Repr

def isLeapYear (y : Nat) : Bool :=
  (y % 4 == 0 && y % 100 != 0) || y % 400 == 0

def daysInMonth (y : Nat) (m : Nat) : Nat :=
  match m with
  | 2 => if isLeapYear y then 29 else 28
  | 4 => 30
  | 6 => 30
  | 9 => 30
  | 11 => 30
  | _ => 31

def ValidDate (d : CivilDate) : Prop :=
  1 ≤ d.month ∧ d.month ≤ 12 ∧ 1 ≤ d.day ∧ d.day ≤ daysInMonth d.year d.month

instance (d : CivilDate) : Decidable (ValidDate d) := by
  unfold ValidDate; infer_instance

def daysInYear (y : Nat) : Nat := if isLeapYear y then 366 else 365

/-- Days strictly before year y (proleptic Gregorian, counting from year 0). -/
def daysBeforeYear (y : Nat) : Nat :=
  365 * y + (y + 3) / 4 - (y + 99) / 100 + (y + 399) / 400

set_option maxHeartbeats 1000000 in
theorem daysBeforeYear_succ (y : Nat) :
    daysBeforeYear (y + 1) = daysBeforeYear y + daysInYear y := by
  unfold daysBeforeYear daysInYear
  cases hly : isLeapYear y with
  | true =>
    rw [if_pos rfl]
    have hc : (y % 4 = 0 ∧ ¬y % 100 = 0) ∨ y % 400 = 0 := by
      simpa [isLeapYear] using hly
    rcases hc with ⟨h4, h100⟩ | h400 <;> omega
  | false =>
    rw [if_neg (by simp)]
    have hc : ¬((y % 4 = 0 ∧ ¬y % 100 = 0) ∨ y % 400 = 0) := by
      simpa [isLeapYear] using hly
    push_neg at hc
    obtain ⟨h1, h400⟩ := hc
    by_cases h4 : y % 4 = 0
    · have h100 : y % 100 = 0 := h1 h4
      omega
    · omega

/-- Days of year y strictly before month m (m is 1-based). -/
def daysBeforeMonth (y m : Nat) : Nat :=
  (match m with
   | 0 => 0
   | 1 => 0
   | 2 => 31
   | 3 => 59
   | 4 => 90
   | 5 => 120
   | 6 => 151
   | 7 => 181
   | 8 => 212
   | 9 => 243
   | 10 => 273
   | 11 => 304
   | _ => 334) + (if 3 ≤ m ∧ isLeapYear y then 1 else 0)

/-- Civil day number of a date; getTime() of the corresponding UTC midnight is
86400000 times this (up to a constant offset), so comparisons of getTime values
in the source are comparisons of day numbers. -/
def dayNumber (d : CivilDate) : Nat :=
  daysBeforeYear d.year + daysBeforeMonth d.year d.month + (d.day - 1)

/-- Model of currentUntil.getTime() > today.getTime() in the source. -/
def dateAfter (a b : CivilDate) : Bool := dayNumber b < dayNumber a

/-- The civil first day of the month following (y, m). -/
def nextMonth (y m : Nat) : Nat × Nat :=
  if m = 12 then (y + 1, 1) else (y, m + 1)

/-- Shared date helper addMonths (src/shared): result.setUTCMonth(getUTCMonth() + months).
The ECMAScript semantics resolves the month total into year/month and lets an
out-of-range day roll over into the following month (e.g. Jan 31 + 1 month =
Mar 2/3). For valid input dates the overflow is at most 3 days, so a single
carry into the next month is exact. -/
def addMonths (d : CivilDate) (months : Nat) : CivilDate :=
  let t := (d.month - 1) + months
  let y := d.year + t / 12
  let m := t % 12 + 1
  if d.day ≤ daysInMonth y m then ⟨y, m, d.day⟩
  else ⟨(nextMonth y m).1, (nextMonth y m).2, d.day - daysInMonth y m⟩

/-- Shared date helper addDays.
Modelled from the spec: the implementation of addDays is not among the source
files (telegramUserService imports it from ../shared, whose date module in the
snapshot only contains parseDateOnly, addMonths and formatDateOnly); the spec
uses it only as plain calendar day addition (trial expiry = now + 3 days). -/
def addDays (d : CivilDate) (n : Nat) : CivilDate :=
  Nat.rec d (fun _ p =>
    if p.day < daysInMonth p.year p.month then ⟨p.year, p.month, p.day + 1⟩
    else ⟨(nextMonth p.year p.month).1, (nextMonth p.year p.month).2, 1⟩) n

/-! ### Decimal digits and JavaScript number-to-string conversion -/

def decChar (d : Nat) : Char := Char.ofNat (48 + d)

def charToDigit (c : Char) : Option Nat :=
  if 48 ≤ c.toNat ∧ c.toNat ≤ 57 then some (c.toNat - 48) else none

/-- Little-endian decimal digits by fuelled division, so the kernel can
evaluate them; the fuel n covers every division chain from n. -/
def digitsRevAux : Nat → Nat → List Nat
  | 0, _ => []
  | fuel + 1, n => if n = 0 then [] else n % 10 :: digitsRevAux fuel (n / 10)

def natDigitsRev (n : Nat) : List Nat := digitsRevAux n n

/-- Decimal digit characters of a natural number, most significant first:
the String(n) / JSON.stringify(n) rendering of an integer-valued number. -/
def natChars (n : Nat) : List Char :=
  if n = 0 then [Char.ofNat 48] else ((natDigitsRev n).map decChar).reverse

/-- String(i) for a JavaScript integer-valued number. -/
def intChars (i : Int) : List Char :=
  if i < 0 then Char.ofNat 45 :: natChars i.natAbs else natChars i.natAbs

def jsStringOfNat (n : Nat) : String := ⟨natChars n⟩

def jsStringOfInt (i : Int) : String := ⟨intChars i⟩

/-- Value of a big-endian list of decimal digit values. -/
def valOfDigits (l : List Nat) : Nat := l.foldl (fun a d => a * 10 + d) 0

/-- Left-pad a digit string to two characters: String(x).padStart(2, "0") for
the one- or two-digit numbers produced by formatDateOnly. -/
def pad2 (l : List Char) : List Char :=
  if l.length = 1 then Char.ofNat 48 :: l else l

/-- Shared date helper formatDateOnly: String(year) - padded month - padded day. -/
def formatChars (d : CivilDate) : List Char :=
  natChars d.year ++ Char.ofNat 45 :: (pad2 (natChars d.month) ++ Char.ofNat 45 :: pad2 (natChars d.day))

def formatDateOnly (d : CivilDate) : String := ⟨formatChars d⟩

def isDigitChar (c : Char) : Bool := (charToDigit c).isSome

/-- Shared date helper parseDateOnly: new Date(value + "T00:00:00Z"), which for
the date-only strings this system stores applies the ECMAScript ISO parse:
exactly YYYY-MM-DD with all fields numeric and the month and day in calendar
range, anything else giving an invalid date (modelled as none). -/
def parseDateChars (l : List Char) : Option CivilDate :=
  match l with
  | [y1, y2, y3, y4, h1, m1, m2, h2, d1, d2] =>
    (charToDigit y1).bind fun a =>
    (charToDigit y2).bind fun b =>
    (charToDigit y3).bind fun c =>
    (charToDigit y4).bind fun d =>
    (charToDigit m1).bind fun e =>
    (charToDigit m2).bind fun f =>
    (charToDigit d1).bind fun g =>
    (charToDigit d2).bind fun h =>
    if h1 = Char.ofNat 45 ∧ h2 = Char.ofNat 45 then
      let year := ((a * 10 + b) * 10 + c) * 10 + d
      let month := e * 10 + f
      let day := g * 10 + h
      if 1 ≤ month ∧ month ≤ 12 ∧ 1 ≤ day ∧ day ≤ daysInMonth year month then
        some ⟨year, month, day⟩
      else none
    else none
  | _ => none

def parseDateOnly (s : String) : Option CivilDate := parseDateChars s.data

/-! ### Money

Monetary amounts are modelled as rationals. Math.round(x) in JavaScript is
⌊x + 1/2⌋, which is Mathlib's round on ℚ. -/

/-- roundUsd from telegramUserService: Math.round(value * 100) / 100. -/
def roundUsd (q : ℚ) : ℚ := (round (q * 100) : ℤ) / 100

/-- An amount representable with two decimal places (an integer number of
cents), which is the form every stored monetary value has. -/
def IsCents (q : ℚ) : Prop := ∃ n : ℤ, q = (n : ℚ) / 100

theorem roundUsd_of_isCents {q : ℚ} (h : IsCents q) : roundUsd q = q := by
  obtain ⟨n, rfl⟩ := h
  unfold roundUsd
  have h100 : ((n : ℚ) / 100) * 100 = (n : ℚ) := by field_simp
  rw [h100, round_intCast]

theorem isCents_sub {a b : ℚ} (ha : IsCents a) (hb : IsCents b) : IsCents (a - b) := by
  obtain ⟨n, rfl⟩ := ha
  obtain ⟨m, rfl⟩ := hb
  exact ⟨n - m, by push_cast; ring⟩

theorem isCents_add {a b : ℚ} (ha : IsCents a) (hb : IsCents b) : IsCents (a + b) := by
  obtain ⟨n, rfl⟩ := ha
  obtain ⟨m, rfl⟩ := hb
  exact ⟨n + m, by push_cast; ring⟩

theorem isCents_roundUsd (q : ℚ) : IsCents (roundUsd q) := ⟨round (q * 100), rfl⟩

/-! ### Lemmas about decimal renderings -/

theorem charToDigit_decChar {d : Nat} (h : d < 10) : charToDigit (decChar d) = some d := by
  interval_cases d <;> rfl

/-- Big-endian decimal digit values of n, as rendered by String(n). -/
def digitsBE (n : Nat) : List Nat :=
  if n = 0 then [0] else (Nat.digits 10 n).reverse

theorem digitsRevAux_eq {fuel n : Nat} (h : n ≤ fuel) :
    digitsRevAux fuel n = Nat.digits 10 n := by
  induction fuel generalizing n with
  | zero =>
    have h0 : n = 0 := by omega
    subst h0
    simp [digitsRevAux]
  | succ f ih =>
    by_cases h0 : n = 0
    · subst h0
      simp [digitsRevAux]
    · have hdiv : n / 10 < n := Nat.div_lt_self (Nat.pos_of_ne_zero h0) (by norm_num)
      rw [show digitsRevAux (f + 1) n = n % 10 :: digitsRevAux f (n / 10) from by
        simp [digitsRevAux, h0]]
      rw [ih (by omega)]
      rw [Nat.digits_def' (by norm_num : (1 : ℕ) < 10) (Nat.pos_of_ne_zero h0)]

theorem natDigitsRev_eq_digits (n : Nat) : natDigitsRev n = Nat.digits 10 n :=
  digitsRevAux_eq (Nat.le_refl n)

theorem natChars_eq_map (n : Nat) : natChars n = (digitsBE n).map decChar := by
  unfold natChars digitsBE
  by_cases h : n = 0
  · simp [h]; rfl
  · simp [h, natDigitsRev_eq_digits, List.map_reverse]

theorem digitsBE_lt_ten (n : Nat) : ∀ d ∈ digitsBE n, d < 10 := by
  intro d hd
  unfold digitsBE at hd
  by_cases h : n = 0
  · simp [h] at hd; omega
  · simp [h, List.mem_reverse] at hd
    exact Nat.digits_lt_base (by norm_num) hd

theorem foldl_digits_eq (l : List Nat) (a : Nat) :
    l.foldl (fun a d => a * 10 + d) a = a * 10 ^ l.length + Nat.ofDigits 10 l.reverse := by
  induction l generalizing a with
  | nil => simp [Nat.ofDigits]
  | cons d t ih =>
    simp only [List.foldl_cons, List.reverse_cons, List.length_cons]
    rw [ih, Nat.ofDigits_append]
    simp [Nat.ofDigits, pow_succ]
    ring

theorem valOfDigits_digitsBE (n : Nat) : valOfDigits (digitsBE n) = n := by
  unfold valOfDigits digitsBE
  by_cases h : n = 0
  · simp [h]
  · simp only [h, if_false]
    rw [foldl_digits_eq, List.reverse_reverse, Nat.ofDigits_digits]
    simp

theorem digitsBE_ne_nil (n : Nat) : digitsBE n ≠ [] := by
  unfold digitsBE
  by_cases h : n = 0
  · simp [h]
  · simp [h, Nat.digits_ne_nil_iff_ne_zero.mpr h]

theorem digitsBE_length_le {n k : Nat} (h : n < 10 ^ k) (hk : 1 ≤ k) :
    (digitsBE n).length ≤ k := by
  unfold digitsBE
  by_cases h0 : n = 0
  · simpa [h0] using hk
  · simp only [h0, if_false, List.length_reverse]
    by_contra hlen
    push_neg at hlen
    have h10 : (10 : Nat) ^ (Nat.digits 10 n).length ≤ 10 * n :=
      Nat.base_pow_length_digits_le 10 n (by norm_num) h0
    have : (10 : Nat) ^ (k + 1) ≤ 10 ^ (Nat.digits 10 n).length :=
      Nat.pow_le_pow_right (by norm_num) hlen
    have hpow : (10 : Nat) ^ (k + 1) = 10 * 10 ^ k := by ring
    omega

theorem digitsBE_length_ge {n k : Nat} (h : 10 ^ k ≤ n) :
    k + 1 ≤ (digitsBE n).length := by
  have h0 : n ≠ 0 := by
    have h1 : 1 ≤ (10 : Nat) ^ k := Nat.one_le_pow _ _ (by norm_num)
    omega
  unfold digitsBE
  simp only [h0, if_false, List.length_reverse]
  have := @Nat.lt_base_pow_length_digits 10 n (by norm_num)
  by_contra hlen
  push_neg at hlen
  have : n < 10 ^ k := lt_of_lt_of_le this (Nat.pow_le_pow_right (by norm_num) (by omega))
  omega

theorem digitsBE_four {n : Nat} (h1 : 1000 ≤ n) (h2 : n ≤ 9999) :
    ∃ a b c d, digitsBE n = [a, b, c, d] ∧ ((a * 10 + b) * 10 + c) * 10 + d = n ∧
      a < 10 ∧ b < 10 ∧ c < 10 ∧ d < 10 := by
  have hlen : (digitsBE n).length = 4 := by
    have hle : (digitsBE n).length ≤ 4 := digitsBE_length_le (by omega) (by omega)
    have hge : 3 + 1 ≤ (digitsBE n).length := digitsBE_length_ge (by omega)
    omega
  obtain ⟨a, b, c, d, habcd⟩ : ∃ a b c d, digitsBE n = [a, b, c, d] := by
    match hl : digitsBE n with
    | [a, b, c, d] => exact ⟨a, b, c, d, rfl⟩
    | [] | [_] | [_, _] | [_, _, _] => rw [hl] at hlen; simp at hlen
    | _ :: _ :: _ :: _ :: _ :: _ => rw [hl] at hlen; simp at hlen
  have hval := valOfDigits_digitsBE n
  rw [habcd] at hval
  unfold valOfDigits at hval
  simp only [List.foldl_cons, List.foldl_nil] at hval
  have hmem := digitsBE_lt_ten n
  rw [habcd] at hmem
  refine ⟨a, b, c, d, habcd, by omega, ?_, ?_, ?_, ?_⟩ <;>
    [exact hmem a (by simp); exact hmem b (by simp); exact hmem c (by simp);
      exact hmem d (by simp)]

theorem pad2_natChars {n : Nat} (h2 : n ≤ 99) :
    ∃ e f, pad2 (natChars n) = [decChar e, decChar f] ∧ e * 10 + f = n ∧
      e < 10 ∧ f < 10 := by
  have hpos : 1 ≤ (digitsBE n).length := by
    rcases hl : digitsBE n with _ | ⟨a, t⟩
    · exact absurd hl (digitsBE_ne_nil n)
    · simp
  have hlen : (digitsBE n).length = 1 ∨ (digitsBE n).length = 2 := by
    have hle : (digitsBE n).length ≤ 2 := digitsBE_length_le (by omega) (by omega)
    omega
  have hval := valOfDigits_digitsBE n
  have hmem := digitsBE_lt_ten n
  rw [natChars_eq_map]
  rcases hlen with hlen | hlen
  · obtain ⟨a, ha⟩ : ∃ a, digitsBE n = [a] := by
      match hl : digitsBE n with
      | [a] => exact ⟨a, rfl⟩
      | [] | _ :: _ :: _ => rw [hl] at hlen; simp at hlen
    rw [ha] at hval hmem
    unfold valOfDigits at hval
    simp only [List.foldl_cons, List.foldl_nil] at hval
    refine ⟨0, a, ?_, by omega, by omega, hmem a (by simp)⟩
    simp [ha, pad2, decChar]
  · obtain ⟨a, b, hab⟩ : ∃ a b, digitsBE n = [a, b] := by
      match hl : digitsBE n with
      | [a, b] => exact ⟨a, b, rfl⟩
      | [] | [_] | _ :: _ :: _ :: _ => rw [hl] at hlen; simp at hlen
    rw [hab] at hval hmem
    unfold valOfDigits at hval
    simp only [List.foldl_cons, List.foldl_nil] at hval
    refine ⟨a, b, ?_, by omega, hmem a (by simp), hmem b (by simp)⟩
    simp [hab, pad2]

/-- formatDateOnly renders a valid date with a four-digit year back into the
shape parseDateOnly accepts, and parsing returns the same civil date: the
persistence round-trip for subscription expiry dates. -/
theorem daysInMonth_le_31 (y m : Nat) : daysInMonth y m ≤ 31 := by
  unfold daysInMonth
  split <;> first | omega | (split_ifs <;> omega)

theorem daysInMonth_ge_28 (y m : Nat) : 28 ≤ daysInMonth y m := by
  unfold daysInMonth
  split <;> first | omega | (split_ifs <;> omega)

theorem parseDateChars_formatChars {d : CivilDate} (hv : ValidDate d)
    (hy1 : 1000 ≤ d.year) (hy2 : d.year ≤ 9999) :
    parseDateChars (formatChars d) = some d := by
  obtain ⟨hm1, hm2, hd1, hd2⟩ := hv
  obtain ⟨a, b, c, e, hy, hyval, ha, hb, hc, he⟩ := digitsBE_four hy1 hy2
  have hdim : daysInMonth d.year d.month ≤ 31 := daysInMonth_le_31 d.year d.month
  obtain ⟨m1, m2, hm, hmval, hm1lt, hm2lt⟩ := pad2_natChars (n := d.month) (by omega)
  obtain ⟨e1, e2, hd, hdval, he1lt, he2lt⟩ := pad2_natChars (n := d.day) (by omega)
  have hchars : formatChars d =
      [decChar a, decChar b, decChar c, decChar e, Char.ofNat 45, decChar m1, decChar m2,
        Char.ofNat 45, decChar e1, decChar e2] := by
    unfold formatChars
    rw [natChars_eq_map, hy, hm, hd]
    simp
  rw [hchars]
  simp only [parseDateChars]
  rw [charToDigit_decChar ha, charToDigit_decChar hb, charToDigit_decChar hc,
    charToDigit_decChar he, charToDigit_decChar hm1lt, charToDigit_decChar hm2lt,
    charToDigit_decChar he1lt, charToDigit_decChar he2lt]
  simp only [Option.some_bind, and_self, if_true]
  simp only [hyval, hmval, hdval]
  rw [if_pos ⟨hm1, hm2, hd1, hd2⟩]

/-- Round-trip of the stored expiry string through formatDateOnly and
parseDateOnly. -/
theorem parseDateOnly_formatDateOnly {d : CivilDate} (hv : ValidDate d)
    (hy1 : 1000 ≤ d.year) (hy2 : d.year ≤ 9999) :
    parseDateOnly (formatDateOnly d) = some d :=
  parseDateChars_formatChars hv hy1 hy2

/-! ### Calendar arithmetic lemmas -/

theorem addMonths_valid {d : CivilDate} (hv : ValidDate d) (n : Nat) :
    ValidDate (addMonths d n) := by
  obtain ⟨hm1, hm2, hd1, hd2⟩ := hv
  have hday31 : d.day ≤ 31 := le_trans hd2 (daysInMonth_le_31 _ _)
  unfold addMonths
  set t := (d.month - 1) + n with ht
  set y := d.year + t / 12 with hyy
  set m := t % 12 + 1 with hmm
  have hmrange : 1 ≤ m ∧ m ≤ 12 := by
    constructor
    · omega
    · have : t % 12 < 12 := Nat.mod_lt _ (by norm_num)
      omega
  by_cases hcase : d.day ≤ daysInMonth y m
  · rw [if_pos hcase]
    exact ⟨hmrange.1, hmrange.2, hd1, hcase⟩
  · rw [if_neg hcase]
    push_neg at hcase
    have h28 := daysInMonth_ge_28 y m
    have hnext2 : 1 ≤ (nextMonth y m).2 ∧ (nextMonth y m).2 ≤ 12 := by
      unfold nextMonth
      split_ifs <;> simp
      omega
    have h28n := daysInMonth_ge_28 (nextMonth y m).1 (nextMonth y m).2
    refine ⟨hnext2.1, hnext2.2, ?_, ?_⟩
    · show 1 ≤ d.day - daysInMonth y m
      omega
    · show d.day - daysInMonth y m ≤ daysInMonth (nextMonth y m).1 (nextMonth y m).2
      omega

/-- First day-of-epoch number of month (y, m). -/
def firstOfMonth (y m : Nat) : Nat := daysBeforeYear y + daysBeforeMonth y m

theorem daysBeforeMonth_succ {y m : Nat} (h1 : 1 ≤ m) (h11 : m ≤ 11) :
    daysBeforeMonth y (m + 1) = daysBeforeMonth y m + daysInMonth y m := by
  interval_cases m <;>
    rcases hb : isLeapYear y <;>
      simp [daysBeforeMonth, daysInMonth, hb]

theorem daysBeforeMonth_year_end (y : Nat) :
    daysBeforeMonth y 12 + daysInMonth y 12 = daysInYear y := by
  rcases hb : isLeapYear y <;> simp [daysBeforeMonth, daysInMonth, daysInYear, hb]

theorem firstOfMonth_nextMonth {y m : Nat} (h1 : 1 ≤ m) (h12 : m ≤ 12) :
    firstOfMonth (nextMonth y m).1 (nextMonth y m).2 =
      firstOfMonth y m + daysInMonth y m := by
  unfold nextMonth firstOfMonth
  by_cases hm : m = 12
  · subst hm
    rw [if_pos rfl]
    show daysBeforeYear (y + 1) + daysBeforeMonth (y + 1) 1 = _
    have hz : daysBeforeMonth (y + 1) 1 = 0 := by simp [daysBeforeMonth]
    rw [hz, daysBeforeYear_succ]
    have := daysBeforeMonth_year_end y
    omega
  · rw [if_neg hm]
    show daysBeforeYear y + daysBeforeMonth y (m + 1) = _
    have := @daysBeforeMonth_succ y m h1 (by omega)
    omega

/-- Absolute month index: firstOfMonth at month number i counted from year 0. -/
def monthIndexStart (i : Nat) : Nat := firstOfMonth (i / 12) (i % 12 + 1)

theorem monthIndexStart_succ (i : Nat) :
    monthIndexStart (i + 1) = monthIndexStart i + daysInMonth (i / 12) (i % 12 + 1) := by
  unfold monthIndexStart
  by_cases h : i % 12 = 11
  · have hdiv : (i + 1) / 12 = i / 12 + 1 := by omega
    have hmod : (i + 1) % 12 = 0 := by omega
    rw [hdiv, hmod, h]
    have hnext := @firstOfMonth_nextMonth (i / 12) 12 (by omega) (by omega)
    unfold nextMonth at hnext
    rw [if_pos rfl] at hnext
    exact hnext
  · have hmod12 : i % 12 < 12 := Nat.mod_lt _ (by norm_num)
    have hdiv : (i + 1) / 12 = i / 12 := by omega
    have hmod : (i + 1) % 12 = i % 12 + 1 := by omega
    rw [hdiv, hmod]
    have hnext := firstOfMonth_nextMonth (y := i / 12) (m := i % 12 + 1) (by omega) (by omega)
    unfold nextMonth at hnext
    rw [if_neg (by omega)] at hnext
    exact hnext

theorem monthIndexStart_add_ge (i n : Nat) :
    monthIndexStart i + 28 * n ≤ monthIndexStart (i + n) := by
  induction n with
  | zero => simp
  | succ k ih =>
    have hstep := monthIndexStart_succ (i + k)
    have h28 := daysInMonth_ge_28 ((i + k) / 12) ((i + k) % 12 + 1)
    have heq : i + (k + 1) = i + k + 1 := by omega
    rw [heq]
    omega

theorem firstOfMonth_as_index {y m : Nat} (h1 : 1 ≤ m) (h12 : m ≤ 12) :
    firstOfMonth y m = monthIndexStart (12 * y + (m - 1)) := by
  unfold monthIndexStart
  have hdiv : (12 * y + (m - 1)) / 12 = y := by omega
  have hmod : (12 * y + (m - 1)) % 12 = m - 1 := by omega
  rw [hdiv, hmod]
  congr 1
  omega

/-- The day number of addMonths d n is the start of the target month plus the
original day-of-month, in both the plain and the day-overflow case. -/
theorem dayNumber_addMonths {d : CivilDate} (hv : ValidDate d) (n : Nat) :
    dayNumber (addMonths d n) =
      monthIndexStart (12 * d.year + (d.month - 1) + n) + d.day - 1 := by
  obtain ⟨hm1, hm2, hd1, hd2⟩ := hv
  unfold addMonths
  set t := (d.month - 1) + n with ht
  set y := d.year + t / 12 with hyy
  set m := t % 12 + 1 with hmm
  have hmrange : 1 ≤ m ∧ m ≤ 12 := by
    constructor
    · omega
    · have : t % 12 < 12 := Nat.mod_lt _ (by norm_num)
      omega
  have hidx : firstOfMonth y m = monthIndexStart (12 * d.year + (d.month - 1) + n) := by
    rw [firstOfMonth_as_index hmrange.1 hmrange.2]
    congr 1
    omega
  by_cases hcase : d.day ≤ daysInMonth y m
  · rw [if_pos hcase]
    unfold dayNumber
    show daysBeforeYear y + daysBeforeMonth y m + (d.day - 1) = _
    unfold firstOfMonth at hidx
    omega
  · rw [if_neg hcase]
    push_neg at hcase
    unfold dayNumber
    show daysBeforeYear (nextMonth y m).1 + daysBeforeMonth (nextMonth y m).1 (nextMonth y m).2 +
        (d.day - daysInMonth y m - 1) = _
    have hnext := @firstOfMonth_nextMonth y m hmrange.1 hmrange.2
    unfold firstOfMonth at hnext hidx
    omega

theorem dayNumber_lt_addMonths {d : CivilDate} (hv : ValidDate d) {n : Nat} (hn : 1 ≤ n) :
    dayNumber d < dayNumber (addMonths d n) := by
  obtain ⟨hm1, hm2, hd1, hd2⟩ := hv
  rw [dayNumber_addMonths ⟨hm1, hm2, hd1, hd2⟩ n]
  have hfi := firstOfMonth_as_index (y := d.year) (m := d.month) hm1 hm2
  unfold firstOfMonth at hfi
  have hbase : dayNumber d = monthIndexStart (12 * d.year + (d.month - 1)) + d.day - 1 := by
    unfold dayNumber
    omega
  have hmono := monthIndexStart_add_ge (12 * d.year + (d.month - 1)) n
  omega

theorem dayNumber_le_addMonths {d : CivilDate} (hv : ValidDate d) (n : Nat) :
    dayNumber d ≤ dayNumber (addMonths d n) := by
  rcases Nat.eq_zero_or_pos n with h | h
  · subst h
    obtain ⟨hm1, hm2, hd1, hd2⟩ := hv
    rw [dayNumber_addMonths ⟨hm1, hm2, hd1, hd2⟩ 0]
    simp only [Nat.add_zero]
    have hfi := firstOfMonth_as_index (y := d.year) (m := d.month) hm1 hm2
    unfold firstOfMonth at hfi
    unfold dayNumber
    omega
  · exact le_of_lt (dayNumber_lt_addMonths hv h)

/-! ### A small JSON reader

parseJsonSafe (src/shared/lib: JSON.parse wrapped in try/catch, returning null
on failure) is modelled by a recursive-descent reader over the character list.
Escape sequences inside strings and fractional/exponent number forms are not
modelled (the reader rejects them); no payload built by this repository
contains either, and every use in this file applies the same reader on both
sides of a comparison. -/

inductive JsonValue where
  | jnull
  | jbool (b : Bool)
  | jnum (n : Int)
  | jstr (s : List Char)
  | jarr (elems : List JsonValue)
  | jobj (fields : List (List Char × JsonValue))

def isWsChar (c : Char) : Bool :=
  c.toNat = 32 ∨ c.toNat = 9 ∨ c.toNat = 10 ∨ c.toNat = 13

def skipWs : List Char → List Char
  | [] => []
  | c :: cs => if isWsChar c then skipWs cs else c :: cs

/-- Body of a JSON string after the opening quote: the characters up to the
closing quote. A backslash is rejected (escapes are not modelled). -/
def readStringBody : List Char → Option (List Char × List Char)
  | [] => none
  | c :: cs =>
    if c.toNat = 34 then some ([], cs)
    else if c.toNat = 92 then none
    else (readStringBody cs).map fun p => (c :: p.1, p.2)

def takeDigits : List Char → List Nat × List Char
  | [] => ([], [])
  | c :: cs =>
    match charToDigit c with
    | some d =>
      let p := takeDigits cs
      (d :: p.1, p.2)
    | none => ([], c :: cs)

def readNumber (l : List Char) : Option (Int × List Char) :=
  match l with
  | [] => none
  | c :: cs =>
    if c.toNat = 45 then
      let p := takeDigits cs
      if p.1.isEmpty then none else some (-(valOfDigits p.1 : Int), p.2)
    else
      let p := takeDigits l
      if p.1.isEmpty then none else some ((valOfDigits p.1 : Int), p.2)

def expectChars : List Char → List Char → Option (List Char)
  | [], l => some l
  | p :: ps, c :: cs => if c = p then expectChars ps cs else none
  | _ :: _, [] => none

mutual

def readJsonValue : Nat → List Char → Option (JsonValue × List Char)
  | 0, _ => none
  | fuel + 1, l =>
    match skipWs l with
    | [] => none
    | c :: cs =>
      if c.toNat = 34 then (readStringBody cs).map fun p => (.jstr p.1, p.2)
      else if c.toNat = 123 then readJsonMembers fuel true cs
      else if c.toNat = 91 then readJsonElems fuel true cs
      else if c.toNat = 116 then (expectChars [Char.ofNat 114, Char.ofNat 117, Char.ofNat 101] cs).map
        fun r => (.jbool true, r)
      else if c.toNat = 102 then
        (expectChars [Char.ofNat 97, Char.ofNat 108, Char.ofNat 115, Char.ofNat 101] cs).map
          fun r => (.jbool false, r)
      else if c.toNat = 110 then (expectChars [Char.ofNat 117, Char.ofNat 108, Char.ofNat 108] cs).map
        fun r => (.jnull, r)
      else (readNumber (c :: cs)).map fun p => (.jnum p.1, p.2)

def readJsonMembers : Nat → Bool → List Char → Option (JsonValue × List Char)
  | 0, _, _ => none
  | fuel + 1, allowEnd, l =>
    match skipWs l with
    | [] => none
    | c :: cs =>
      if c.toNat = 125 ∧ allowEnd then some (.jobj [], cs)
      else if c.toNat = 34 then
        (readStringBody cs).bind fun pk =>
        match skipWs pk.2 with
        | [] => none
        | c2 :: cs2 =>
          if c2.toNat = 58 then
            (readJsonValue fuel cs2).bind fun pv =>
            match skipWs pv.2 with
            | [] => none
            | c3 :: cs3 =>
              if c3.toNat = 44 then
                (readJsonMembers fuel false cs3).bind fun pm =>
                match pm.1 with
                | .jobj fields => some (.jobj ((pk.1, pv.1) :: fields), pm.2)
                | _ => none
              else if c3.toNat = 125 then some (.jobj [(pk.1, pv.1)], cs3)
              else none
          else none
      else none

def readJsonElems : Nat → Bool → List Char → Option (JsonValue × List Char)
  | 0, _, _ => none
  | fuel + 1, allowEnd, l =>
    match skipWs l with
    | [] => none
    | c :: cs =>
      if c.toNat = 93 ∧ allowEnd then some (.jarr [], cs)
      else
        (readJsonValue fuel (c :: cs)).bind fun pv =>
        match skipWs pv.2 with
        | [] => none
        | c2 :: cs2 =>
          if c2.toNat = 44 then
            (readJsonElems fuel false cs2).bind fun pe =>
            match pe.1 with
            | .jarr elems => some (.jarr (pv.1 :: elems), pe.2)
            | _ => none
          else if c2.toNat = 93 then some (.jarr [pv.1], cs2)
          else none

end

def parseJsonChars (l : List Char) : Option JsonValue :=
  match readJsonValue (l.length + 1) l with
  | some (v, rest) => if (skipWs rest).isEmpty then some v else none
  | none => none

/-- parseJsonSafe from the shared lib: JSON.parse returning null on failure. -/
def parseJsonSafe (s : String) : Option JsonValue := parseJsonChars s.data

/-! ### Invoice payloads (src/controllers/entities/telegram-callback) -/

/-- The tgId schema regex of the callback entities: one of 1-9 followed by at
most 19 further digits. -/
def isTgIdChars (l : List Char) : Bool :=
  match l with
  | [] => false
  | c :: cs => (49 ≤ c.toNat && c.toNat ≤ 57) && cs.all isDigitChar && cs.length ≤ 19

inductive SubscriptionInvoicePayload where
  | subscription (months : Nat) (tgId : String)
  | gift (months : Nat) (tgId : String) (recipientTgId : String)
deriving DecidableEq, Repr

def SubscriptionInvoicePayload.months : SubscriptionInvoicePayload → Nat
  | .subscription m _ => m
  | .gift m _ _ => m

def SubscriptionInvoicePayload.tgId : SubscriptionInvoicePayload → String
  | .subscription _ t => t
  | .gift _ t _ => t

/-- Zod subscriptionPlanMonthsSchema: z.number().int().positive(). The reader
only produces integer numbers, matching that JSON.parse output failing .int()
is rejected just as a non-integer literal is here. -/
def zodPositiveInt (v : JsonValue) : Option Nat :=
  match v with
  | .jnum n => if 0 < n then some n.toNat else none
  | _ => none

/-- Zod tgIdSchema: z.string().regex of isTgIdChars. -/
def zodTgId (v : JsonValue) : Option String :=
  match v with
  | .jstr s => if isTgIdChars s then some ⟨s⟩ else none
  | _ => none

/-- Zod object field access: unknown keys are ignored, a required key is looked
up by name. -/
def jsonField (fields : List (List Char × JsonValue)) (name : List Char) : Option JsonValue :=
  (fields.find? fun p => p.1 = name).map fun p => p.2

/-- The invoicePayloadSchema discriminated union on action. -/
def decodeInvoicePayload (v : JsonValue) : Option SubscriptionInvoicePayload :=
  match v with
  | .jobj fields =>
    match jsonField fields ("action".data) with
    | some (.jstr a) =>
      if a = ("subscription".data) then
        (jsonField fields ("months".data)).bind fun mv =>
        (zodPositiveInt mv).bind fun m =>
        (jsonField fields ("tgId".data)).bind fun tv =>
        (zodTgId tv).map fun t => .subscription m t
      else if a = ("gift".data) then
        (jsonField fields ("months".data)).bind fun mv =>
        (zodPositiveInt mv).bind fun m =>
        (jsonField fields ("tgId".data)).bind fun tv =>
        (zodTgId tv).bind fun t =>
        (jsonField fields ("recipientTgId".data)).bind fun rv =>
        (zodTgId rv).map fun r => .gift m t r
      else none
    | _ => none
  | _ => none

/-- parseSubscriptionInvoicePayload: parseJsonSafe then the zod schema. -/
def parseSubscriptionInvoicePayload (s : String) : Option SubscriptionInvoicePayload :=
  (parseJsonSafe s).bind decodeInvoicePayload

/-- Characters of JSON.stringify of a quoted string field value. -/
def jsonQuote (s : List Char) : List Char :=
  Char.ofNat 34 :: s ++ [Char.ofNat 34]

/-- buildSubscriptionInvoicePayload: the JSON.stringify output of the object
literal with keys action, months, tgId in that order. -/
def buildSubscriptionInvoicePayloadChars (tgId : Int) (months : Nat) : List Char :=
  Char.ofNat 123 :: (jsonQuote ("action".data) ++ Char.ofNat 58 :: jsonQuote ("subscription".data) ++
    Char.ofNat 44 :: jsonQuote ("months".data) ++ Char.ofNat 58 :: natChars months ++
    Char.ofNat 44 :: jsonQuote ("tgId".data) ++ Char.ofNat 58 :: jsonQuote (intChars tgId)) ++
    [Char.ofNat 125]

def buildSubscriptionInvoicePayload (tgId : Int) (months : Nat) : String :=
  ⟨buildSubscriptionInvoicePayloadChars tgId months⟩

/-- buildGiftInvoicePayload: keys action, months, tgId, recipientTgId. -/
def buildGiftInvoicePayloadChars (tgId : Int) (recipientTgId : String) (months : Nat) : List Char :=
  Char.ofNat 123 :: (jsonQuote ("action".data) ++ Char.ofNat 58 :: jsonQuote ("gift".data) ++
    Char.ofNat 44 :: jsonQuote ("months".data) ++ Char.ofNat 58 :: natChars months ++
    Char.ofNat 44 :: jsonQuote ("tgId".data) ++ Char.ofNat 58 :: jsonQuote (intChars tgId) ++
    Char.ofNat 44 :: jsonQuote ("recipientTgId".data) ++ Char.ofNat 58 :: jsonQuote recipientTgId.data) ++
    [Char.ofNat 125]

def buildGiftInvoicePayload (tgId : Int) (recipientTgId : String) (months : Nat) : String :=
  ⟨buildGiftInvoicePayloadChars tgId recipientTgId months⟩

/-! ### Reader lemmas for the payload round-trip -/

def jsonPlainChar (c : Char) : Bool := c.toNat != 34 && c.toNat != 92

def headNotDigit : List Char → Bool
  | [] => true
  | c :: _ => !(isDigitChar c)

theorem decChar_toNat {d : Nat} (h : d < 10) : (decChar d).toNat = 48 + d := by
  interval_cases d <;> rfl

theorem isDigitChar_decChar {d : Nat} (h : d < 10) : isDigitChar (decChar d) = true := by
  interval_cases d <;> rfl

theorem skipWs_cons {c : Char} (h : isWsChar c = false) (l : List Char) :
    skipWs (c :: l) = c :: l := by
  simp [skipWs, h]

theorem readStringBody_safe {s : List Char} (h : s.all jsonPlainChar = true)
    (rest : List Char) :
    readStringBody (s ++ Char.ofNat 34 :: rest) = some (s, rest) := by
  induction s with
  | nil => rfl
  | cons c cs ih =>
    simp only [List.all_cons, Bool.and_eq_true] at h
    have hc : (c.toNat = 34) = False ∧ (c.toNat = 92) = False := by
      unfold jsonPlainChar at h
      constructor <;> simp only [eq_iff_iff, iff_false] <;> intro hcc <;>
        simp [hcc] at h
    simp only [List.cons_append, readStringBody, hc.1, hc.2, if_false, List.append_eq]
    rw [ih h.2]
    rfl

theorem takeDigits_map_append {ds : List Nat} (h : ∀ d ∈ ds, d < 10)
    {rest : List Char} (hr : headNotDigit rest = true) :
    takeDigits (ds.map decChar ++ rest) = (ds, rest) := by
  induction ds with
  | nil =>
    cases rest with
    | nil => rfl
    | cons c cs =>
      simp only [headNotDigit, isDigitChar] at hr
      have hnone : charToDigit c = none := by
        cases hcd : charToDigit c with
        | none => rfl
        | some d => rw [hcd] at hr; simp at hr
      simp [takeDigits, hnone]
  | cons d ds ih =>
    have hd : d < 10 := h d (by simp)
    have hcd : charToDigit (decChar d) = some d := charToDigit_decChar hd
    have ihh := ih fun x hx => h x (by simp [hx])
    simp only [List.map_cons, List.cons_append, takeDigits, hcd, List.append_eq]
    rw [ihh]

theorem readNumber_natChars (n : Nat) {rest : List Char} (hr : headNotDigit rest = true) :
    readNumber (natChars n ++ rest) = some ((n : Int), rest) := by
  have hmem := digitsBE_lt_ten n
  obtain ⟨d, ds, hds⟩ : ∃ d ds, digitsBE n = d :: ds := by
    cases hl : digitsBE n with
    | nil => exact absurd hl (digitsBE_ne_nil n)
    | cons d ds => exact ⟨d, ds, rfl⟩
  have hd : d < 10 := by
    apply hmem
    rw [hds]
    simp
  have htake : takeDigits ((d :: ds).map decChar ++ rest) = (d :: ds, rest) := by
    apply takeDigits_map_append _ hr
    intro x hx
    apply hmem
    rw [hds]
    exact hx
  have hne45 : ((decChar d).toNat = 45) = False := by
    rw [decChar_toNat hd]
    simp only [eq_iff_iff, iff_false]
    omega
  rw [natChars_eq_map, hds]
  simp only [List.map_cons, List.cons_append, readNumber, hne45, if_false]
  rw [show decChar d :: (ds.map decChar ++ rest) = (d :: ds).map decChar ++ rest from by simp]
  rw [htake]
  simp only [List.isEmpty_cons, Bool.false_eq_true, if_false]
  have hval := valOfDigits_digitsBE n
  rw [hds] at hval
  rw [hval]

theorem readJsonValue_str (fuel : Nat) {s : List Char} (hs : s.all jsonPlainChar = true)
    (rest : List Char) :
    readJsonValue (fuel + 1) (Char.ofNat 34 :: (s ++ Char.ofNat 34 :: rest)) =
      some (.jstr s, rest) := by
  have h1 := skipWs_cons (c := Char.ofNat 34) (by decide) (s ++ Char.ofNat 34 :: rest)
  simp only [readJsonValue, h1,
    eq_true (show ((Char.ofNat 34).toNat = 34) from by decide), if_true]
  rw [readStringBody_safe hs]
  rfl

theorem readJsonValue_num (fuel : Nat) (n : Nat) {rest : List Char}
    (hr : headNotDigit rest = true) :
    readJsonValue (fuel + 1) (natChars n ++ rest) = some (.jnum n, rest) := by
  have hmem := digitsBE_lt_ten n
  obtain ⟨d, ds, hds⟩ : ∃ d ds, digitsBE n = d :: ds := by
    cases hl : digitsBE n with
    | nil => exact absurd hl (digitsBE_ne_nil n)
    | cons d ds => exact ⟨d, ds, rfl⟩
  have hd : d < 10 := by
    apply hmem
    rw [hds]
    simp
  have hnum := readNumber_natChars n hr
  rw [natChars_eq_map, hds] at hnum ⊢
  simp only [List.map_cons, List.cons_append] at hnum ⊢
  have hws : isWsChar (decChar d) = false := by
    unfold isWsChar
    rw [decChar_toNat hd]
    simp only [decide_eq_false_iff_not]
    push_neg
    omega
  have h1 := skipWs_cons (c := decChar d) hws (ds.map decChar ++ rest)
  simp only [readJsonValue, h1]
  have hne : ∀ k : Nat, k ≠ 48 + d → ((decChar d).toNat = k) = False := by
    intro k hk
    rw [decChar_toNat hd]
    simp only [eq_iff_iff, iff_false]
    omega
  simp only [hne 34 (by omega), hne 123 (by omega), hne 91 (by omega), hne 116 (by omega),
    hne 102 (by omega), hne 110 (by omega), if_false]
  rw [hnum]
  rfl

theorem readJsonMembers_last (fuel : Nat) (ae : Bool) {k : List Char}
    (hk : k.all jsonPlainChar = true) {allrest rest : List Char} {v : JsonValue}
    (hv : readJsonValue fuel allrest = some (v, Char.ofNat 125 :: rest)) :
    readJsonMembers (fuel + 1) ae
      (Char.ofNat 34 :: (k ++ Char.ofNat 34 :: Char.ofNat 58 :: allrest)) =
      some (.jobj [(k, v)], rest) := by
  have h1 := skipWs_cons (c := Char.ofNat 34) (by decide)
    (k ++ Char.ofNat 34 :: Char.ofNat 58 :: allrest)
  have h2 := skipWs_cons (c := Char.ofNat 58) (by decide) allrest
  have h3 := skipWs_cons (c := Char.ofNat 125) (by decide) rest
  simp only [readJsonMembers, h1]
  rw [if_neg (by simp)]
  simp only [eq_true (show ((Char.ofNat 34).toNat = 34) from by decide), if_true]
  rw [readStringBody_safe hk]
  simp only [Option.some_bind, h2,
    eq_true (show ((Char.ofNat 58).toNat = 58) from by decide), if_true]
  rw [hv]
  simp only [Option.some_bind, h3,
    eq_false (show ((Char.ofNat 125).toNat = 44) -> False from by decide),
    eq_true (show ((Char.ofNat 125).toNat = 125) from by decide), if_true, if_false]

theorem readJsonMembers_cons (fuel : Nat) (ae : Bool) {k : List Char}
    (hk : k.all jsonPlainChar = true) {allrest rest rest2 : List Char} {v : JsonValue}
    {fields : List (List Char × JsonValue)}
    (hv : readJsonValue fuel allrest = some (v, Char.ofNat 44 :: rest))
    (hm : readJsonMembers fuel false rest = some (.jobj fields, rest2)) :
    readJsonMembers (fuel + 1) ae
      (Char.ofNat 34 :: (k ++ Char.ofNat 34 :: Char.ofNat 58 :: allrest)) =
      some (.jobj ((k, v) :: fields), rest2) := by
  have h1 := skipWs_cons (c := Char.ofNat 34) (by decide)
    (k ++ Char.ofNat 34 :: Char.ofNat 58 :: allrest)
  have h2 := skipWs_cons (c := Char.ofNat 58) (by decide) allrest
  have h3 := skipWs_cons (c := Char.ofNat 44) (by decide) rest
  simp only [readJsonMembers, h1]
  rw [if_neg (by simp)]
  simp only [eq_true (show ((Char.ofNat 34).toNat = 34) from by decide), if_true]
  rw [readStringBody_safe hk]
  simp only [Option.some_bind, h2,
    eq_true (show ((Char.ofNat 58).toNat = 58) from by decide), if_true]
  rw [hv]
  simp only [Option.some_bind, h3,
    eq_true (show ((Char.ofNat 44).toNat = 44) from by decide), if_true]
  rw [hm]
  simp only [Option.some_bind]

theorem readJsonValue_obj (fuel : Nat) (rest : List Char) :
    readJsonValue (fuel + 1) (Char.ofNat 123 :: rest) = readJsonMembers fuel true rest := by
  have h1 := skipWs_cons (c := Char.ofNat 123) (by decide) rest
  simp only [readJsonValue, h1,
    eq_false (show ((Char.ofNat 123).toNat = 34) -> False from by decide),
    eq_true (show ((Char.ofNat 123).toNat = 123) from by decide), if_true, if_false]

theorem jsonPlainChar_decChar {d : Nat} (h : d < 10) : jsonPlainChar (decChar d) = true := by
  interval_cases d <;> rfl

theorem natChars_all_plain (n : Nat) : (natChars n).all jsonPlainChar = true := by
  rw [natChars_eq_map, List.all_eq_true]
  intro c hc
  obtain ⟨d, hd, rfl⟩ := List.mem_map.mp hc
  exact jsonPlainChar_decChar (digitsBE_lt_ten n d hd)

theorem natChars_all_digit (n : Nat) : (natChars n).all isDigitChar = true := by
  rw [natChars_eq_map, List.all_eq_true]
  intro c hc
  obtain ⟨d, hd, rfl⟩ := List.mem_map.mp hc
  exact isDigitChar_decChar (digitsBE_lt_ten n d hd)

theorem digitsBE_head_ne_zero {n : Nat} (h : n ≠ 0) {d : Nat} {ds : List Nat}
    (hds : digitsBE n = d :: ds) : d ≠ 0 := by
  unfold digitsBE at hds
  rw [if_neg h] at hds
  have hlast := Nat.getLast_digit_ne_zero 10 h
  have hho : (Nat.digits 10 n).getLast? = some d := by
    rw [← List.head?_reverse, hds]
    rfl
  rw [List.getLast?_eq_getLast _ (Nat.digits_ne_nil_iff_ne_zero.mpr h), Option.some_inj] at hho
  rw [← hho]
  exact hlast

theorem isTgIdChars_natChars {n : Nat} (h1 : 1 ≤ n) (h2 : n < 10 ^ 20) :
    isTgIdChars (natChars n) = true := by
  obtain ⟨d, ds, hds⟩ : ∃ d ds, digitsBE n = d :: ds := by
    cases hl : digitsBE n with
    | nil => exact absurd hl (digitsBE_ne_nil n)
    | cons d ds => exact ⟨d, ds, rfl⟩
  have hd10 : d < 10 := digitsBE_lt_ten n d (by rw [hds]; simp)
  have hd0 : d ≠ 0 := digitsBE_head_ne_zero (by omega) hds
  have hlen : (digitsBE n).length ≤ 20 := digitsBE_length_le h2 (by omega)
  rw [natChars_eq_map, hds]
  simp only [List.map_cons, isTgIdChars, Bool.and_eq_true, decide_eq_true_eq]
  refine ⟨⟨⟨?_, ?_⟩, ?_⟩, ?_⟩
  · rw [decChar_toNat hd10]; omega
  · rw [decChar_toNat hd10]; omega
  · rw [List.all_eq_true]
    intro c hc
    obtain ⟨x, hx, rfl⟩ := List.mem_map.mp hc
    exact isDigitChar_decChar (digitsBE_lt_ten n x (by rw [hds]; simp [hx]))
  · rw [hds] at hlen
    simp only [List.length_cons] at hlen
    simp only [List.length_map]
    omega

theorem intChars_of_pos {i : Int} (h : 0 < i) : intChars i = natChars i.natAbs := by
  unfold intChars
  rw [if_neg (by omega)]

theorem headNotDigit_44 (l : List Char) : headNotDigit (Char.ofNat 44 :: l) = true := by
  simp only [headNotDigit]
  decide

/-- Parsing the built subscription payload gives back months and the payer id:
the round-trip for the subscription action, for every Telegram user id (a
positive integer of at most 20 digits) and positive month count. -/
theorem parse_build_subscription (t : Int) (m : Nat) (ht1 : 0 < t) (ht2 : t < 10 ^ 20)
    (hm : 0 < m) :
    parseSubscriptionInvoicePayload (buildSubscriptionInvoicePayload t m) =
      some (.subscription m (jsStringOfInt t)) := by
  have hcast : ((t.natAbs : Int)) = t := Int.natAbs_of_nonneg (by omega)
  have hn1 : 1 ≤ t.natAbs := by omega
  have hn2 : t.natAbs < 10 ^ 20 := by
    have h : ((t.natAbs : Int)) < (10 : Int) ^ 20 := by rw [hcast]; exact ht2
    exact_mod_cast h
  have hInt : intChars t = natChars t.natAbs := intChars_of_pos ht1
  have hplain := natChars_all_plain t.natAbs
  have hreg := isTgIdChars_natChars hn1 hn2
  set M2 : List Char := Char.ofNat 34 :: ("tgId".data ++ Char.ofNat 34 :: Char.ofNat 58 ::
    Char.ofNat 34 :: (natChars t.natAbs ++ Char.ofNat 34 :: Char.ofNat 125 :: [])) with hM2
  set M1 : List Char := Char.ofNat 34 :: ("months".data ++ Char.ofNat 34 :: Char.ofNat 58 ::
    (natChars m ++ Char.ofNat 44 :: M2)) with hM1
  set M0 : List Char := Char.ofNat 34 :: ("action".data ++ Char.ofNat 34 :: Char.ofNat 58 ::
    Char.ofNat 34 :: ("subscription".data ++ Char.ofNat 34 :: Char.ofNat 44 :: M1)) with hM0
  have hshape : buildSubscriptionInvoicePayloadChars t m = Char.ofNat 123 :: M0 := by
    rw [hM0, hM1, hM2]
    simp [buildSubscriptionInvoicePayloadChars, jsonQuote, hInt]
  have hRead : ∀ f : Nat, readJsonValue (f + 6) (Char.ofNat 123 :: M0) =
      some (.jobj [("action".data, .jstr ("subscription".data)),
        ("months".data, .jnum (m : Int)), ("tgId".data, .jstr (natChars t.natAbs))], []) := by
    intro f
    have Vtg := readJsonValue_str (f + 1) hplain (Char.ofNat 125 :: [])
    have Mtg := readJsonMembers_last (f + 2) false (k := "tgId".data) (by decide) Vtg
    have Vm := @readJsonValue_num (f + 2) m (Char.ofNat 44 :: M2) (headNotDigit_44 M2)
    have Mm := readJsonMembers_cons (f + 3) false (k := "months".data) (by decide) Vm Mtg
    have Va := readJsonValue_str (f + 3) (s := "subscription".data) (by decide)
      (Char.ofNat 44 :: M1)
    have Ma := readJsonMembers_cons (f + 4) true (k := "action".data) (by decide) Va Mm
    have V := readJsonValue_obj (f + 5) M0
    rw [show f + 6 = (f + 5) + 1 from rfl, V]
    exact Ma
  have hdata : (buildSubscriptionInvoicePayload t m).data = Char.ofNat 123 :: M0 := hshape
  unfold parseSubscriptionInvoicePayload parseJsonSafe parseJsonChars
  rw [hdata]
  obtain ⟨f, hf⟩ : ∃ f, (Char.ofNat 123 :: M0).length + 1 = f + 6 := by
    refine ⟨(Char.ofNat 123 :: M0).length - 5, ?_⟩
    have h5 : 5 ≤ (Char.ofNat 123 :: M0).length := by
      rw [hM0]
      simp
    omega
  rw [hf, hRead f]
  simp only [skipWs, List.isEmpty_nil, if_true, Option.some_bind]
  have hmz : (0 : Int) < ((m : Nat) : Int) := by exact_mod_cast hm
  simp +decide only [decodeInvoicePayload, jsonField, List.find?, Option.map_some,
    Option.some_bind, zodPositiveInt, zodTgId, hreg, eq_true hmz, if_true,
    decide_true_eq_true, decide_false_eq_false, Option.map_some',
    Int.toNat_natCast, jsStringOfInt, hInt]

theorem isDigitChar_toNat {c : Char} (h : isDigitChar c = true) :
    48 ≤ c.toNat ∧ c.toNat ≤ 57 := by
  unfold isDigitChar charToDigit at h
  by_cases hc : 48 ≤ c.toNat ∧ c.toNat ≤ 57
  · exact hc
  · rw [if_neg hc] at h
    simp at h

theorem tgIdChars_plain {l : List Char} (h : isTgIdChars l = true) :
    l.all jsonPlainChar = true := by
  cases l with
  | nil => simp [isTgIdChars] at h
  | cons c cs =>
    simp only [isTgIdChars, Bool.and_eq_true, decide_eq_true_eq] at h
    obtain ⟨⟨⟨h1, h2⟩, hall⟩, _⟩ := h
    rw [List.all_cons, Bool.and_eq_true]
    constructor
    · unfold jsonPlainChar
      simp only [Bool.and_eq_true, bne_iff_ne, ne_eq]
      omega
    · rw [List.all_eq_true] at hall ⊢
      intro x hx
      have := isDigitChar_toNat (hall x hx)
      unfold jsonPlainChar
      simp only [Bool.and_eq_true, bne_iff_ne, ne_eq]
      omega

/-- Parsing the built gift payload gives back months, the payer id and the
recipient id: the round-trip for the gift action. -/
theorem parse_build_gift (t : Int) (m : Nat) (r : String) (ht1 : 0 < t)
    (ht2 : t < 10 ^ 20) (hm : 0 < m) (hr : isTgIdChars r.data = true) :
    parseSubscriptionInvoicePayload (buildGiftInvoicePayload t r m) =
      some (.gift m (jsStringOfInt t) r) := by
  have hcast : ((t.natAbs : Int)) = t := Int.natAbs_of_nonneg (by omega)
  have hn1 : 1 ≤ t.natAbs := by omega
  have hn2 : t.natAbs < 10 ^ 20 := by
    have h : ((t.natAbs : Int)) < (10 : Int) ^ 20 := by rw [hcast]; exact ht2
    exact_mod_cast h
  have hInt : intChars t = natChars t.natAbs := intChars_of_pos ht1
  have hplain := natChars_all_plain t.natAbs
  have hrplain := tgIdChars_plain hr
  have hreg := isTgIdChars_natChars hn1 hn2
  set M3 : List Char := Char.ofNat 34 :: ("recipientTgId".data ++ Char.ofNat 34 :: Char.ofNat 58 ::
    Char.ofNat 34 :: (r.data ++ Char.ofNat 34 :: Char.ofNat 125 :: [])) with hM3
  set M2 : List Char := Char.ofNat 34 :: ("tgId".data ++ Char.ofNat 34 :: Char.ofNat 58 ::
    Char.ofNat 34 :: (natChars t.natAbs ++ Char.ofNat 34 :: Char.ofNat 44 :: M3)) with hM2
  set M1 : List Char := Char.ofNat 34 :: ("months".data ++ Char.ofNat 34 :: Char.ofNat 58 ::
    (natChars m ++ Char.ofNat 44 :: M2)) with hM1
  set M0 : List Char := Char.ofNat 34 :: ("action".data ++ Char.ofNat 34 :: Char.ofNat 58 ::
    Char.ofNat 34 :: ("gift".data ++ Char.ofNat 34 :: Char.ofNat 44 :: M1)) with hM0
  have hshape : buildGiftInvoicePayloadChars t r m = Char.ofNat 123 :: M0 := by
    rw [hM0, hM1, hM2, hM3]
    simp [buildGiftInvoicePayloadChars, jsonQuote, hInt]
  have hRead : ∀ f : Nat, readJsonValue (f + 7) (Char.ofNat 123 :: M0) =
      some (.jobj [("action".data, .jstr ("gift".data)),
        ("months".data, .jnum (m : Int)), ("tgId".data, .jstr (natChars t.natAbs)),
        ("recipientTgId".data, .jstr r.data)], []) := by
    intro f
    have Vr := readJsonValue_str (f + 1) hrplain (Char.ofNat 125 :: [])
    have Mr := readJsonMembers_last (f + 2) false (k := "recipientTgId".data) (by decide) Vr
    have Vtg := readJsonValue_str (f + 2) hplain (Char.ofNat 44 :: M3)
    have Mtg := readJsonMembers_cons (f + 3) false (k := "tgId".data) (by decide) Vtg Mr
    have Vm := @readJsonValue_num (f + 3) m (Char.ofNat 44 :: M2) (headNotDigit_44 M2)
    have Mm := readJsonMembers_cons (f + 4) false (k := "months".data) (by decide) Vm Mtg
    have Va := readJsonValue_str (f + 4) (s := "gift".data) (by decide) (Char.ofNat 44 :: M1)
    have Ma := readJsonMembers_cons (f + 5) true (k := "action".data) (by decide) Va Mm
    have V := readJsonValue_obj (f + 6) M0
    rw [show f + 7 = (f + 6) + 1 from rfl, V]
    exact Ma
  have hdata : (buildGiftInvoicePayload t r m).data = Char.ofNat 123 :: M0 := hshape
  unfold parseSubscriptionInvoicePayload parseJsonSafe parseJsonChars
  rw [hdata]
  obtain ⟨f, hf⟩ : ∃ f, (Char.ofNat 123 :: M0).length + 1 = f + 7 := by
    refine ⟨(Char.ofNat 123 :: M0).length - 6, ?_⟩
    have h6 : 6 ≤ (Char.ofNat 123 :: M0).length := by
      rw [hM0]
      simp
    omega
  rw [hf, hRead f]
  simp only [skipWs, List.isEmpty_nil, if_true, Option.some_bind]
  have hmz : (0 : Int) < ((m : Nat) : Int) := by exact_mod_cast hm
  simp +decide only [decodeInvoicePayload, jsonField, List.find?, Option.map_some,
    Option.some_bind, zodPositiveInt, zodTgId, hreg, hr, eq_true hmz, if_true, if_false,
    decide_true_eq_true, decide_false_eq_false, Option.map_some',
    Int.toNat_natCast, jsStringOfInt, hInt]

/-- C7: for every payer id (a positive integer of at most 20 digits, the form
the schema regex admits), every positive month count, and every recipient id
accepted by the tgId schema, parseSubscriptionInvoicePayload inverts
buildSubscriptionInvoicePayload and buildGiftInvoicePayload, returning exactly
the original action, months and tgId (plus recipientTgId for gifts). -/
theorem payload_build_parse_round_trip (t : Int) (m : Nat) (r : String)
    (ht1 : 0 < t) (ht2 : t < 10 ^ 20) (hm : 0 < m) (hr : isTgIdChars r.data = true) :
    parseSubscriptionInvoicePayload (buildSubscriptionInvoicePayload t m) =
      some (.subscription m (jsStringOfInt t)) ∧
    parseSubscriptionInvoicePayload (buildGiftInvoicePayload t r m) =
      some (.gift m (jsStringOfInt t) r) :=
  ⟨parse_build_subscription t m ht1 ht2 hm, parse_build_gift t m r ht1 ht2 hm hr⟩

/-- Witness for C7 at tgId 12345, months 3, recipient id 888. -/
theorem payload_build_parse_round_trip_witness :
    (0 : Int) < 12345 ∧ (12345 : Int) < 10 ^ 20 ∧ 0 < 3 ∧
      isTgIdChars ("888" : String).data = true ∧
    (parseSubscriptionInvoicePayload (buildSubscriptionInvoicePayload 12345 3) =
      some (.subscription 3 (jsStringOfInt 12345)) ∧
    parseSubscriptionInvoicePayload (buildGiftInvoicePayload 12345 "888" 3) =
      some (.gift 3 (jsStringOfInt 12345) "888")) :=
  ⟨by norm_num, by norm_num, by norm_num, by decide,
    payload_build_parse_round_trip 12345 3 "888" (by norm_num) (by norm_num) (by norm_num)
      (by decide)⟩

/-! ### User ledger data model (src/services/telegramUserService.ts)

The Supabase users table is a list of rows; select by tg_id is filter plus
maybeSingle/single exactly as the source chains .eq / .gte / .maybeSingle /
.single, and an update applies its field changes to every row matching the
filter, returning the updated rows for the trailing .select. The generated
internal_uuid column is not modelled (no logic reads it). -/

inductive SubStatus where
  | live
  | ending
deriving DecidableEq, Repr

structure TelegramReferralEntry where
  tgId : String
  tgLogin : Option String
  tgNickname : Option String
  numberOfPurchase : Nat
deriving DecidableEq, Repr

structure TelegramReferredBy where
  tgId : String
  tgNickname : Option String
  referDate : String
deriving DecidableEq, Repr

structure TelegramGift where
  giftedByTgId : String
  giftedByTgName : Option String
  timeAmountGifted : Nat
  dateOfGift : String
deriving DecidableEq, Repr

structure TelegramUserRecord where
  tg_nickname : Option String
  tg_id : String
  subscription_active : Bool
  subscription_status : Option SubStatus
  subscription_untill : Option String
  traffic_consumed_mb : ℚ
  number_of_connections : Nat
  number_of_connections_last_month : Nat
  number_of_referals : Nat
  earned_money : ℚ
  refferals_data : List TelegramReferralEntry
  reffered_by : Option TelegramReferredBy
  gifts : List TelegramGift
deriving DecidableEq, Repr

abbrev Store : Type := List TelegramUserRecord

/-- Well-formed users table: the unique key tg_id names each row, and each
row's tg_id field is the key it is stored under. -/
def WfStore (st : Store) : Prop := (st.map fun r => r.tg_id).Nodup

instance (st : Store) : Decidable (WfStore st) := by
  unfold WfStore; infer_instance

def dbFilterByTgId (st : Store) (id : String) : List TelegramUserRecord :=
  st.filter fun r => r.tg_id = id

/-- Supabase maybeSingle: none for no row, the row for one, an error for more. -/
def maybeSingle {α : Type} : List α → Except String (Option α)
  | [] => .ok none
  | [a] => .ok (some a)
  | _ => .error "multiple rows returned"

/-- Supabase single: exactly one row or an error. -/
def dbSingle {α : Type} : List α → Except String α
  | [a] => .ok a
  | _ => .error "expected exactly one row"

/-- An update with filter p applied to the table; the second component is the
list of updated rows the trailing .select returns. -/
def dbUpdateWhere (st : Store) (p : TelegramUserRecord → Bool)
    (f : TelegramUserRecord → TelegramUserRecord) : Store × List TelegramUserRecord :=
  (st.map fun r => if p r then f r else r, (st.filter p).map f)

def getTelegramUserByTgId (st : Store) (tgId : String) :
    Except String (Option TelegramUserRecord) :=
  maybeSingle (dbFilterByTgId st tgId)

def updateTelegramNicknameIfChanged (st : Store) (tgId : String)
    (currentNickname incomingNickname : Option String) : Store :=
  if incomingNickname = none ∨ incomingNickname = currentNickname then st
  else (dbUpdateWhere st (fun r => r.tg_id = tgId)
    (fun r => { r with tg_nickname := incomingNickname })).1

structure EnsureTelegramUserInput where
  tgId : String
  tgNickname : Option String
  referredBy : Option TelegramReferredBy := none
deriving Repr

/-- The row the users insert creates: 3-day trial, phase ending, active, all
counters at their column defaults. -/
def trialUserRow (today : CivilDate) (input : EnsureTelegramUserInput) : TelegramUserRecord :=
  { tg_nickname := input.tgNickname
    tg_id := input.tgId
    subscription_active := true
    subscription_status := some .ending
    subscription_untill := some (formatDateOnly (addDays today 3))
    traffic_consumed_mb := 0
    number_of_connections := 0
    number_of_connections_last_month := 0
    number_of_referals := 0
    earned_money := 0
    refferals_data := []
    reffered_by := input.referredBy
    gifts := [] }

/-- ensureTelegramUser: get-or-create. On an existing user the nickname is
refreshed when changed and the row re-read; on a missing user the trial row is
inserted, a unique-key conflict (code 23505) being answered by re-reading. -/
def ensureTelegramUser (today : CivilDate) (st : Store) (input : EnsureTelegramUserInput) :
    Except String ((TelegramUserRecord × Bool) × Store) := do
  let existingUser ← getTelegramUserByTgId st input.tgId
  match existingUser with
  | some u =>
    let st1 := updateTelegramNicknameIfChanged st input.tgId u.tg_nickname input.tgNickname
    let refreshedUser ← getTelegramUserByTgId st1 input.tgId
    match refreshedUser with
    | none => .error "Telegram user disappeared after update."
    | some u2 => .ok ((u2, false), st1)
  | none =>
    if (dbFilterByTgId st input.tgId).isEmpty then
      let row := trialUserRow today input
      .ok ((row, true), st ++ [row])
    else do
      let concurrentUser ← getTelegramUserByTgId st input.tgId
      match concurrentUser with
      | some u => .ok ((u, false), st)
      | none => .error "Failed to create Telegram user."

inductive MenuSubscriptionStatus where
  | active
  | trial
  | expired
  | unknown
deriving DecidableEq, Repr

def mapTelegramUserToMenuSubscriptionStatus (u : TelegramUserRecord) :
    MenuSubscriptionStatus :=
  if u.subscription_status = some .live then .active
  else if u.subscription_status = some .ending then .trial
  else if u.subscription_active then .active
  else .expired

/-- The base date of a subscription extension: the stored expiry when it parses
and is strictly in the future, today otherwise. -/
def subscriptionBaseDate (today : CivilDate) (u : TelegramUserRecord) : CivilDate :=
  match u.subscription_untill with
  | none => today
  | some s =>
    match parseDateOnly s with
    | none => today
    | some cu => if dateAfter cu today then cu else today

/-- activateTelegramSubscription: ensure the user, extend the expiry from
max(today, current expiry) by the month count, set phase live and active. -/
def activateTelegramSubscription (today : CivilDate) (st : Store)
    (tgId : String) (tgNickname : Option String) (months : Nat) :
    Except String (TelegramUserRecord × Store) := do
  if months = 0 then .error "Invalid subscription months value." else
  let ensured ← ensureTelegramUser today st { tgId := tgId, tgNickname := tgNickname }
  let currentUser := ensured.1.1
  let st1 := ensured.2
  let newUntil := formatDateOnly (addMonths (subscriptionBaseDate today currentUser) months)
  let updated := dbUpdateWhere st1 (fun r => r.tg_id = tgId) fun r =>
    { r with
      subscription_active := true
      subscription_status := some SubStatus.live
      subscription_untill := some newUntil }
  let row ← dbSingle updated.2
  .ok (row, updated.1)

/-- activateTelegramSubscriptionFromBalance: the same extension plus a debit of
amountUsd, guarded twice: a pre-check on the read balance and the conditional
update keyed on earned_money ≥ amount at the row. -/
def activateTelegramSubscriptionFromBalance (today : CivilDate) (st : Store)
    (tgId : String) (tgNickname : Option String) (months : Nat) (amountUsd : ℚ) :
    Except String (TelegramUserRecord × Store) := do
  if months = 0 then .error "Invalid subscription months value." else
  if amountUsd ≤ 0 then .error "Invalid amountUsd value." else
  let ensured ← ensureTelegramUser today st { tgId := tgId, tgNickname := tgNickname }
  let currentUser := ensured.1.1
  let st1 := ensured.2
  let nextEarnedMoney := roundUsd (currentUser.earned_money - amountUsd)
  if nextEarnedMoney < 0 then .error "INSUFFICIENT_REFERRAL_BALANCE" else
  let newUntil := formatDateOnly (addMonths (subscriptionBaseDate today currentUser) months)
  let updated := dbUpdateWhere st1
    (fun r => r.tg_id = tgId ∧ amountUsd ≤ r.earned_money) fun r =>
    { r with
      subscription_active := true
      subscription_status := some SubStatus.live
      subscription_untill := some newUntil
      earned_money := nextEarnedMoney }
  let row ← maybeSingle updated.2
  match row with
  | none => .error "INSUFFICIENT_REFERRAL_BALANCE"
  | some u => .ok (u, updated.1)

structure ApplyReferralRewardResult where
  applied : Bool
  referrerTgId : Option String
  rewardAmountUsd : ℚ
  rewardPercent : ℚ
  referralPurchaseCount : Nat
deriving DecidableEq, Repr

def noReward (referrer : Option String) : ApplyReferralRewardResult :=
  { applied := false, referrerTgId := referrer, rewardAmountUsd := 0, rewardPercent := 0,
    referralPurchaseCount := 0 }

/-- The a ?? b nullish coalescing of two nullable strings. -/
def jsCoalesce (a b : Option String) : Option String :=
  match a with
  | some x => some x
  | none => b

/-- applyReferralRewardForPurchase: no-op without a referrer or on self-referral;
otherwise pays 20% of the amount on the payer's first recorded purchase in the
referrer's list and 10% afterwards, upserting the list entry by payer id. -/
def applyReferralRewardForPurchase (st : Store) (payerTgId : String)
    (payerTgNickname : Option String) (purchaseAmountUsd : ℚ) :
    Except String (ApplyReferralRewardResult × Store) := do
  if purchaseAmountUsd ≤ 0 then .ok (noReward none, st) else
  let payerOpt ← getTelegramUserByTgId st payerTgId
  match payerOpt with
  | none => .ok (noReward none, st)
  | some payer =>
  match payer.reffered_by with
  | none => .ok (noReward none, st)
  | some rb =>
  let referrerTgId := rb.tgId
  if referrerTgId = payer.tg_id then .ok (noReward (some referrerTgId), st) else
  let referrerOpt ← getTelegramUserByTgId st referrerTgId
  match referrerOpt with
  | none => .ok (noReward (some referrerTgId), st)
  | some referrer =>
  let existingEntryIndex := referrer.refferals_data.findIdx? fun e => e.tgId = payer.tg_id
  let currentPurchaseCount :=
    match existingEntryIndex with
    | some i =>
      match referrer.refferals_data.get? i with
      | some e => e.numberOfPurchase
      | none => 0
    | none => 0
  let nextPurchaseCount := currentPurchaseCount + 1
  let rewardPercent : ℚ := if currentPurchaseCount = 0 then 1 / 5 else 1 / 10
  let rewardAmountUsd := roundUsd (purchaseAmountUsd * rewardPercent)
  let nextEntry : TelegramReferralEntry :=
    { tgId := payer.tg_id
      tgLogin := jsCoalesce payer.tg_nickname payerTgNickname
      tgNickname := jsCoalesce payerTgNickname payer.tg_nickname
      numberOfPurchase := nextPurchaseCount }
  let nextReferralsData :=
    match existingEntryIndex with
    | some i => referrer.refferals_data.set i nextEntry
    | none => referrer.refferals_data ++ [nextEntry]
  let nextEarnedMoney := roundUsd (referrer.earned_money + rewardAmountUsd)
  let updated := dbUpdateWhere st (fun r => r.tg_id = referrer.tg_id) fun r =>
    { r with
      earned_money := nextEarnedMoney
      number_of_referals := nextReferralsData.length
      refferals_data := nextReferralsData }
  let result : ApplyReferralRewardResult :=
    { applied := true
      referrerTgId := some referrer.tg_id
      rewardAmountUsd := rewardAmountUsd
      rewardPercent := rewardPercent
      referralPurchaseCount := nextPurchaseCount }
  .ok (result, updated.1)

structure AddTelegramGiftInput where
  recipientTgId : String
  recipientTgNickname : Option String
  giftedByTgId : String
  giftedByTgName : Option String
  timeAmountGifted : Nat
  setReferredByWhenUserCreated : Option TelegramReferredBy := none
deriving Repr

/-- addTelegramGift: ensure the recipient exists (possibly creating it with a
referrer link), append the gift dated today, persist the list. -/
def addTelegramGift (today : CivilDate) (st : Store) (input : AddTelegramGiftInput) :
    Except String (TelegramUserRecord × Store) := do
  if input.timeAmountGifted = 0 then .error "Invalid timeAmountGifted value." else
  let ensured ← ensureTelegramUser today st
    { tgId := input.recipientTgId, tgNickname := input.recipientTgNickname,
      referredBy := input.setReferredByWhenUserCreated }
  let nextGift : TelegramGift :=
    { giftedByTgId := input.giftedByTgId
      giftedByTgName := input.giftedByTgName
      timeAmountGifted := input.timeAmountGifted
      dateOfGift := formatDateOnly today }
  let nextGifts := ensured.1.1.gifts ++ [nextGift]
  let updated := dbUpdateWhere ensured.2 (fun r => r.tg_id = input.recipientTgId)
    (fun r => { r with gifts := nextGifts })
  let row ← dbSingle updated.2
  .ok (row, updated.1)

/-- activateTelegramGift: GIFT_NOT_FOUND when the index is outside the current
list, otherwise activate the subscription for the gift's months and remove the
index from the list. -/
def activateTelegramGift (today : CivilDate) (st : Store)
    (tgId : String) (tgNickname : Option String) (giftIndex : Nat) :
    Except String ((TelegramGift × TelegramUserRecord) × Store) := do
  let userOpt ← getTelegramUserByTgId st tgId
  match userOpt with
  | none => .error "Telegram user not found for gift activation."
  | some user =>
  match user.gifts.get? giftIndex with
  | none => .error "GIFT_NOT_FOUND"
  | some gift => do
    let activated ← activateTelegramSubscription today st tgId tgNickname gift.timeAmountGifted
    let nextGifts := user.gifts.eraseIdx giftIndex
    let updated := dbUpdateWhere activated.2 (fun r => r.tg_id = tgId)
      (fun r => { r with gifts := nextGifts })
    let row ← dbSingle updated.2
    .ok ((gift, row), updated.1)

/-! ### Pricing catalog (src/services/subscriptionPricingService.ts) -/

structure SubscriptionPrice where
  months : Nat
  stars : Nat
  usdt : ℚ
  rubles : Nat
deriving DecidableEq, Repr

abbrev Catalog : Type := List SubscriptionPrice

/-- listSubscriptionPrices: all rows (the months ordering of the source query
does not affect any verified property). -/
def listSubscriptionPrices (catalog : Catalog) : List SubscriptionPrice := catalog

/-- getSubscriptionPriceByMonths: eq filter on months plus maybeSingle. -/
def getSubscriptionPriceByMonths (catalog : Catalog) (months : Nat) :
    Except String (Option SubscriptionPrice) :=
  maybeSingle (catalog.filter fun p => p.months = months)

/-- hasAccessToServers (controllers/entities): active flag or live/ending status. -/
def hasAccessToServers (subscriptionStatus : Option SubStatus) (subscriptionActive : Bool) :
    Bool :=
  subscriptionActive || subscriptionStatus = some .live || subscriptionStatus = some .ending

/-! ### Store plumbing lemmas -/

theorem maybeSingle_ok_some {α : Type} {l : List α} {u : α} :
    maybeSingle l = .ok (some u) ↔ l = [u] := by
  match l with
  | [] => simp [maybeSingle]
  | [a] =>
    constructor
    · intro h
      simp only [maybeSingle, Except.ok.injEq, Option.some.injEq] at h
      rw [h]
    · intro h
      rw [List.cons.injEq] at h
      rw [h.1]
      rfl
  | a :: b :: t => simp [maybeSingle]

theorem dbSingle_ok {α : Type} {l : List α} {u : α} :
    dbSingle l = .ok u ↔ l = [u] := by
  match l with
  | [] => simp [dbSingle]
  | [a] =>
    constructor
    · intro h
      simp only [dbSingle, Except.ok.injEq] at h
      rw [h]
    · intro h
      rw [List.cons.injEq] at h
      rw [h.1]
      rfl
  | a :: b :: t => simp [dbSingle]

theorem tgId_of_filter_single {st : Store} {id : String} {u : TelegramUserRecord}
    (h : dbFilterByTgId st id = [u]) : u.tg_id = id := by
  have hmem : u ∈ dbFilterByTgId st id := by rw [h]; simp
  have := List.of_mem_filter hmem
  simpa using this

theorem dbFilterByTgId_update {st : Store} {id : String}
    {p : TelegramUserRecord → Bool} {f : TelegramUserRecord → TelegramUserRecord}
    (hf : ∀ r, (f r).tg_id = r.tg_id) :
    dbFilterByTgId (dbUpdateWhere st p f).1 id =
      (dbFilterByTgId st id).map fun r => if p r then f r else r := by
  unfold dbFilterByTgId dbUpdateWhere
  induction st with
  | nil => rfl
  | cons r t ih =>
    simp only [List.map_cons, List.filter_cons]
    by_cases hp : p r
    · by_cases hid : r.tg_id = id
      · simp [hp, hid, hf r, ih]
      · simp [hp, hid, hf r, ih]
    · by_cases hid : r.tg_id = id
      · simp [hp, hid, ih]
      · simp [hp, hid, ih]

theorem dbFilterByTgId_update_other {st : Store} {tgId id2 : String}
    {p : TelegramUserRecord → Bool} {f : TelegramUserRecord → TelegramUserRecord}
    (hf : ∀ r, (f r).tg_id = r.tg_id) (hp : ∀ r, p r = true → r.tg_id = tgId)
    (hne : id2 ≠ tgId) :
    dbFilterByTgId (dbUpdateWhere st p f).1 id2 = dbFilterByTgId st id2 := by
  rw [dbFilterByTgId_update hf]
  unfold dbFilterByTgId
  induction st with
  | nil => rfl
  | cons r t ih =>
    simp only [List.filter_cons]
    by_cases hid : r.tg_id = id2
    · have hpr : p r = false := by
        by_contra hc
        rw [Bool.not_eq_false] at hc
        exact hne ((hid.symm.trans (hp r hc)).symm ▸ rfl)
      simp [hid, hpr, ih]
    · simp [hid, ih]

theorem wfStore_update {st : Store} {p : TelegramUserRecord → Bool}
    {f : TelegramUserRecord → TelegramUserRecord}
    (hf : ∀ r, (f r).tg_id = r.tg_id) (hwf : WfStore st) :
    WfStore (dbUpdateWhere st p f).1 := by
  unfold WfStore dbUpdateWhere at *
  have hmap : ((st.map fun r => if p r then f r else r).map fun r => r.tg_id) =
      st.map fun r => r.tg_id := by
    rw [List.map_map]
    apply List.map_congr_left
    intro r _
    by_cases hp : p r <;> simp [hp, hf r]
  rwa [hmap]

theorem filterByTgId_and (st : Store) (id : String) (q : TelegramUserRecord → Prop)
    [DecidablePred q] :
    (st.filter fun r => decide (r.tg_id = id ∧ q r)) =
      (dbFilterByTgId st id).filter fun r => decide (q r) := by
  unfold dbFilterByTgId
  induction st with
  | nil => rfl
  | cons r t ih =>
    simp only [List.filter_cons]
    by_cases h1 : r.tg_id = id
    · by_cases h2 : q r
      · simp [h1, h2, ih, Bool.and_comm]
      · simp [h1, h2, ih, Bool.and_comm]
    · simp [h1, ih, Bool.and_comm]

/-- The record an ensure call on an existing user returns: the row with the
nickname refreshed when a different one arrives. -/
def refreshNickname (u : TelegramUserRecord) (nick : Option String) : TelegramUserRecord :=
  if nick = none ∨ nick = u.tg_nickname then u else { u with tg_nickname := nick }

theorem refreshNickname_fields (u : TelegramUserRecord) (nick : Option String) :
    (refreshNickname u nick).tg_id = u.tg_id ∧
    (refreshNickname u nick).subscription_active = u.subscription_active ∧
    (refreshNickname u nick).subscription_status = u.subscription_status ∧
    (refreshNickname u nick).subscription_untill = u.subscription_untill ∧
    (refreshNickname u nick).earned_money = u.earned_money ∧
    (refreshNickname u nick).refferals_data = u.refferals_data ∧
    (refreshNickname u nick).reffered_by = u.reffered_by ∧
    (refreshNickname u nick).gifts = u.gifts := by
  unfold refreshNickname
  by_cases h : nick = none ∨ nick = u.tg_nickname <;> simp [h]

/-- Running ensureTelegramUser on a store that already holds the user only
refreshes the nickname: the call reports created = false, returns the row with
the refreshed nickname, and leaves every other row unchanged. -/
theorem ensure_existing {today : CivilDate} {st : Store} {tgId : String}
    {nick : Option String} {rb : Option TelegramReferredBy} {u : TelegramUserRecord}
    (hwf : WfStore st) (hu : dbFilterByTgId st tgId = [u]) :
    ∃ st1, ensureTelegramUser today st { tgId := tgId, tgNickname := nick, referredBy := rb } =
        .ok ((refreshNickname u nick, false), st1) ∧
      WfStore st1 ∧
      dbFilterByTgId st1 tgId = [refreshNickname u nick] ∧
      (∀ id2, id2 ≠ tgId → dbFilterByTgId st1 id2 = dbFilterByTgId st id2) := by
  have hid := tgId_of_filter_single hu
  have hget : getTelegramUserByTgId st tgId = .ok (some u) := by
    unfold getTelegramUserByTgId
    rw [hu]
    rfl
  unfold ensureTelegramUser
  rw [hget]
  simp only [bind, Except.bind]
  by_cases hcond : nick = none ∨ nick = u.tg_nickname
  · have hst1 : updateTelegramNicknameIfChanged st tgId u.tg_nickname nick = st := by
      unfold updateTelegramNicknameIfChanged
      rw [if_pos hcond]
    have hrefresh : refreshNickname u nick = u := by
      unfold refreshNickname
      rw [if_pos hcond]
    refine ⟨st, ?_, hwf, by rw [hrefresh]; exact hu, fun id2 _ => rfl⟩
    rw [hst1, hrefresh]
    unfold getTelegramUserByTgId
    rw [hu]
    rfl
  · have hf : ∀ r : TelegramUserRecord, ({ r with tg_nickname := nick }).tg_id = r.tg_id :=
      fun r => rfl
    have hp : ∀ r : TelegramUserRecord, (decide (r.tg_id = tgId)) = true → r.tg_id = tgId :=
      fun r h => of_decide_eq_true h
    have hst1 : updateTelegramNicknameIfChanged st tgId u.tg_nickname nick =
        (dbUpdateWhere st (fun r => r.tg_id = tgId) fun r => { r with tg_nickname := nick }).1 := by
      unfold updateTelegramNicknameIfChanged
      rw [if_neg hcond]
    have hfilter1 : dbFilterByTgId
        (dbUpdateWhere st (fun r => r.tg_id = tgId) fun r => { r with tg_nickname := nick }).1
        tgId = [refreshNickname u nick] := by
      rw [dbFilterByTgId_update hf, hu]
      simp only [List.map_cons, List.map_nil]
      rw [if_pos (by simp [hid])]
      unfold refreshNickname
      rw [if_neg hcond]
    have hrefresh : refreshNickname u nick = { u with tg_nickname := nick } := by
      unfold refreshNickname
      rw [if_neg hcond]
    refine ⟨(dbUpdateWhere st (fun r => r.tg_id = tgId) fun r =>
        { r with tg_nickname := nick }).1,
      ?_, wfStore_update hf hwf, hfilter1, ?_⟩
    · rw [hst1]
      unfold getTelegramUserByTgId
      rw [hfilter1, hrefresh]
      rfl
    · intro id2 hne
      exact dbFilterByTgId_update_other hf hp hne

/-- The stored expiry as a date: none when the column is null or the stored
string does not parse. -/
def currentExpiryDate (u : TelegramUserRecord) : Option CivilDate :=
  match u.subscription_untill with
  | none => none
  | some s => parseDateOnly s

theorem subscriptionBaseDate_refresh (today : CivilDate) (u : TelegramUserRecord)
    (nick : Option String) :
    subscriptionBaseDate today (refreshNickname u nick) = subscriptionBaseDate today u := by
  unfold subscriptionBaseDate
  rw [(refreshNickname_fields u nick).2.2.2.1]

theorem subscriptionBaseDate_of_future {today : CivilDate} {u : TelegramUserRecord}
    {cu : CivilDate} (h : currentExpiryDate u = some cu)
    (hfut : dayNumber today < dayNumber cu) :
    subscriptionBaseDate today u = cu := by
  unfold currentExpiryDate at h
  unfold subscriptionBaseDate
  cases hs : u.subscription_untill with
  | none => rw [hs] at h; exact absurd h (by simp)
  | some s =>
    rw [hs] at h
    have h2 : parseDateOnly s = some cu := h
    show (match parseDateOnly s with
      | none => today
      | some cu => if dateAfter cu today = true then cu else today) = cu
    rw [h2]
    show (if dateAfter cu today = true then cu else today) = cu
    rw [if_pos]
    unfold dateAfter
    exact decide_eq_true hfut

theorem subscriptionBaseDate_of_past {today : CivilDate} {u : TelegramUserRecord}
    (h : currentExpiryDate u = none ∨
      ∃ cu, currentExpiryDate u = some cu ∧ dayNumber cu ≤ dayNumber today) :
    subscriptionBaseDate today u = today := by
  unfold currentExpiryDate at h
  unfold subscriptionBaseDate
  cases hs : u.subscription_untill with
  | none => rfl
  | some s =>
    rw [hs] at h
    have h2 : parseDateOnly s = none ∨
        ∃ cu, parseDateOnly s = some cu ∧ dayNumber cu ≤ dayNumber today := h
    show (match parseDateOnly s with
      | none => today
      | some cu => if dateAfter cu today = true then cu else today) = today
    cases hp : parseDateOnly s with
    | none => rfl
    | some cu =>
      rw [hp] at h2
      rcases h2 with h2 | ⟨cu2, hcu2, hle⟩
      · exact absurd h2 (by simp)
      · rw [Option.some_inj] at hcu2
        subst hcu2
        show (if dateAfter cu today = true then cu else today) = today
        rw [if_neg]
        unfold dateAfter
        simp only [decide_eq_true_eq]
        omega

/-- Reading back the single updated row of an update keyed on tg_id. -/
theorem dbUpdateWhere_rows_single {st : Store} {id : String} {u : TelegramUserRecord}
    (f : TelegramUserRecord → TelegramUserRecord) (hu : dbFilterByTgId st id = [u]) :
    (dbUpdateWhere st (fun r => r.tg_id = id) f).2 = [f u] := by
  show (st.filter fun r => decide (r.tg_id = id)).map f = [f u]
  rw [show (st.filter fun r => decide (r.tg_id = id)) = dbFilterByTgId st id from rfl, hu]
  rfl

theorem dbUpdateWhere_read_single {st : Store} {id : String} {u : TelegramUserRecord}
    {f : TelegramUserRecord → TelegramUserRecord} (hf : ∀ r, (f r).tg_id = r.tg_id)
    (hu : dbFilterByTgId st id = [u]) :
    dbFilterByTgId (dbUpdateWhere st (fun r => r.tg_id = id) f).1 id = [f u] := by
  rw [dbFilterByTgId_update hf, hu]
  simp only [List.map_cons, List.map_nil]
  rw [if_pos (by simp [tgId_of_filter_single hu])]

/-- The successful result of activateTelegramSubscription on a user row read
as u: the row with phase live, active set and the recomputed expiry. -/
theorem activateSubscription_ok {today : CivilDate} {st : Store} {tgId : String}
    {nick : Option String} {months : Nat} {u : TelegramUserRecord}
    (hwf : WfStore st) (hu : dbFilterByTgId st tgId = [u]) (hm : 0 < months) :
    ∃ st1, activateTelegramSubscription today st tgId nick months =
        .ok ({ refreshNickname u nick with
          subscription_active := true
          subscription_status := some SubStatus.live
          subscription_untill :=
            some (formatDateOnly (addMonths (subscriptionBaseDate today u) months)) }, st1) ∧
      WfStore st1 ∧
      dbFilterByTgId st1 tgId = [{ refreshNickname u nick with
        subscription_active := true
        subscription_status := some SubStatus.live
        subscription_untill :=
          some (formatDateOnly (addMonths (subscriptionBaseDate today u) months)) }] ∧
      (∀ id2, id2 ≠ tgId → dbFilterByTgId st1 id2 = dbFilterByTgId st id2) := by
  obtain ⟨st1, hens, hwf1, hfil1, hother⟩ :=
    @ensure_existing today st tgId nick none u hwf hu
  have hid := tgId_of_filter_single hu
  unfold activateTelegramSubscription
  rw [if_neg (by omega)]
  rw [hens]
  simp only [bind, Except.bind]
  rw [subscriptionBaseDate_refresh]
  rw [dbUpdateWhere_rows_single _ hfil1]
  simp only [dbSingle]
  have hf : ∀ r : TelegramUserRecord,
      (({ r with
          subscription_active := true
          subscription_status := some SubStatus.live
          subscription_untill :=
            some (formatDateOnly
              (addMonths (subscriptionBaseDate today u) months)) } :
        TelegramUserRecord)).tg_id = r.tg_id := fun r => rfl
  have hp : ∀ r : TelegramUserRecord, (decide (r.tg_id = tgId)) = true → r.tg_id = tgId :=
    fun r h => of_decide_eq_true h
  refine ⟨_, rfl, wfStore_update hf hwf1, ?_, ?_⟩
  · exact dbUpdateWhere_read_single hf hfil1
  · intro id2 hne
    rw [dbFilterByTgId_update_other hf hp hne]
    exact hother id2 hne

/-- C8: for every stored user and positive month count, the activation sets the
new expiry to the current expiry plus the month count when that expiry is in
the future, and to today plus the month count when the expiry is absent or not
in the future; it also sets the phase to live and the active flag. -/
theorem activateSubscription_extends_expiry (today : CivilDate) (st : Store) (tgId : String)
    (nick : Option String) (months : Nat) (u : TelegramUserRecord)
    (hwf : WfStore st) (hu : dbFilterByTgId st tgId = [u]) (hm : 0 < months) :
    ∃ r st1, activateTelegramSubscription today st tgId nick months = .ok (r, st1) ∧
      r.subscription_active = true ∧
      r.subscription_status = some SubStatus.live ∧
      (∀ cu, currentExpiryDate u = some cu → dayNumber today < dayNumber cu →
        r.subscription_untill = some (formatDateOnly (addMonths cu months))) ∧
      ((currentExpiryDate u = none ∨
          ∃ cu, currentExpiryDate u = some cu ∧ dayNumber cu ≤ dayNumber today) →
        r.subscription_untill = some (formatDateOnly (addMonths today months))) := by
  obtain ⟨st1, hok, _, _, _⟩ := activateSubscription_ok hwf hu hm
  refine ⟨_, st1, hok, rfl, rfl, ?_, ?_⟩
  · intro cu hcu hfut
    show some (formatDateOnly (addMonths (subscriptionBaseDate today u) months)) = _
    rw [subscriptionBaseDate_of_future hcu hfut]
  · intro hpast
    show some (formatDateOnly (addMonths (subscriptionBaseDate today u) months)) = _
    rw [subscriptionBaseDate_of_past hpast]

/-! ### Referral reward iteration (C4) -/

theorem findIdx?_none {α : Type} {p : α → Bool} {l : List α}
    (hl : ∀ x ∈ l, p x = false) : l.findIdx? p = none := by
  induction l with
  | nil => rfl
  | cons a t ih =>
    rw [List.findIdx?_cons, if_neg (by simp [hl a (by simp)]), List.findIdx?_succ,
      ih fun x hx => hl x (by simp [hx])]
    rfl

theorem findIdx?_append_single {α : Type} {p : α → Bool} {l : List α}
    (hl : ∀ x ∈ l, p x = false) {e : α} (he : p e = true) :
    (l ++ [e]).findIdx? p = some l.length := by
  induction l with
  | nil => simp [List.findIdx?_cons, he]
  | cons a t ih =>
    rw [List.cons_append, List.findIdx?_cons, if_neg (by simp [hl a (by simp)]),
      List.findIdx?_succ, ih fun x hx => hl x (by simp [hx])]
    rfl

theorem set_append_single {α : Type} (l : List α) (e e' : α) :
    (l ++ [e]).set l.length e' = l ++ [e'] := by
  induction l with
  | nil => rfl
  | cons a t ih => simp [List.set_cons_succ, ih]

/-- The referral-list entry the reward upsert writes for the payer. -/
def rewardEntry (payer : TelegramUserRecord) (nick : Option String) (k : Nat) :
    TelegramReferralEntry :=
  { tgId := payer.tg_id
    tgLogin := jsCoalesce payer.tg_nickname nick
    tgNickname := jsCoalesce nick payer.tg_nickname
    numberOfPurchase := k }

/-- The referrer row after the k-th reward for a payer that was not yet listed. -/
def rewardedReferrer (referrer payer : TelegramUserRecord) (nick : Option String)
    (a : ℚ) (k : Nat) : TelegramUserRecord :=
  { referrer with
    earned_money := referrer.earned_money + roundUsd (a * (1 / 5)) +
      (k - 1 : Nat) * roundUsd (a * (1 / 10))
    number_of_referals := referrer.refferals_data.length + 1
    refferals_data := referrer.refferals_data ++ [rewardEntry payer nick k] }

/-- The store after n successful reward applications for the same purchase. -/
def iterReferralReward (payerTgId : String) (nick : Option String) (a : ℚ) :
    Nat → Store → Store
  | 0, st => st
  | n + 1, st =>
    match applyReferralRewardForPurchase (iterReferralReward payerTgId nick a n st)
        payerTgId nick a with
    | .ok p => p.2
    | .error _ => iterReferralReward payerTgId nick a n st

theorem isCents_nat_mul (n : ℕ) {q : ℚ} (h : IsCents q) : IsCents ((n : ℚ) * q) := by
  obtain ⟨m, rfl⟩ := h
  exact ⟨(n : ℤ) * m, by push_cast; ring⟩

/-- A reward application on a store whose referrer list holds no entry for the
payer: the first purchase pays 20% and appends a count-1 entry. -/
theorem applyReward_first {st : Store} {payerTgId : String} {nick : Option String} {a : ℚ}
    {P R : TelegramUserRecord} {rb : TelegramReferredBy}
    (ha : ¬a ≤ 0)
    (hP : dbFilterByTgId st payerTgId = [P])
    (hrb : P.reffered_by = some rb)
    (hne : ¬rb.tgId = P.tg_id)
    (hR : dbFilterByTgId st rb.tgId = [R])
    (hnew : ∀ e ∈ R.refferals_data, (decide (e.tgId = P.tg_id)) = false) :
    applyReferralRewardForPurchase st payerTgId nick a =
      .ok ({ applied := true
             referrerTgId := some R.tg_id
             rewardAmountUsd := roundUsd (a * (1 / 5))
             rewardPercent := 1 / 5
             referralPurchaseCount := 1 },
           (dbUpdateWhere st (fun r => r.tg_id = R.tg_id) fun r =>
             { r with
               earned_money := roundUsd (R.earned_money + roundUsd (a * (1 / 5)))
               number_of_referals := R.refferals_data.length + 1
               refferals_data := R.refferals_data ++ [rewardEntry P nick 1] }).1) := by
  have hfind : (R.refferals_data.findIdx? fun e => e.tgId = P.tg_id) = none :=
    findIdx?_none hnew
  have hgetP : getTelegramUserByTgId st payerTgId = .ok (some P) := by
    unfold getTelegramUserByTgId; rw [hP]; rfl
  have hgetR : getTelegramUserByTgId st rb.tgId = .ok (some R) := by
    unfold getTelegramUserByTgId; rw [hR]; rfl
  unfold applyReferralRewardForPurchase
  rw [if_neg ha]
  simp only [bind, Except.bind, hgetP, hgetR, hrb, if_neg hne, hfind, rewardEntry,
    List.length_append, List.length_cons, List.length_nil, if_true, Nat.zero_add,
    Nat.add_zero]

/-- A reward application on a store whose referrer list already ends with a
count-k entry for the payer: a repeat purchase pays 10% and bumps the count. -/
theorem applyReward_repeat {st : Store} {payerTgId : String} {nick : Option String} {a : ℚ}
    {P R : TelegramUserRecord} {rb : TelegramReferredBy}
    {D : List TelegramReferralEntry} {k : Nat}
    (ha : ¬a ≤ 0)
    (hP : dbFilterByTgId st payerTgId = [P])
    (hrb : P.reffered_by = some rb)
    (hne : ¬rb.tgId = P.tg_id)
    (hR : dbFilterByTgId st rb.tgId = [R])
    (hk : k ≠ 0)
    (hD : ∀ e ∈ D, (decide (e.tgId = P.tg_id)) = false)
    (hdata : R.refferals_data = D ++ [rewardEntry P nick k]) :
    applyReferralRewardForPurchase st payerTgId nick a =
      .ok ({ applied := true
             referrerTgId := some R.tg_id
             rewardAmountUsd := roundUsd (a * (1 / 10))
             rewardPercent := 1 / 10
             referralPurchaseCount := k + 1 },
           (dbUpdateWhere st (fun r => r.tg_id = R.tg_id) fun r =>
             { r with
               earned_money := roundUsd (R.earned_money + roundUsd (a * (1 / 10)))
               number_of_referals := D.length + 1
               refferals_data := D ++ [rewardEntry P nick (k + 1)] }).1) := by
  have hfind : (R.refferals_data.findIdx? fun e => e.tgId = P.tg_id) = some D.length := by
    rw [hdata]
    exact findIdx?_append_single hD (by simp [rewardEntry])
  have hget : R.refferals_data.get? D.length = some (rewardEntry P nick k) := by
    rw [hdata, List.get?_eq_getElem?]
    exact List.getElem?_concat_length D (rewardEntry P nick k)
  have hset : R.refferals_data.set D.length (rewardEntry P nick (k + 1)) =
      D ++ [rewardEntry P nick (k + 1)] := by
    rw [hdata, set_append_single]
  have hgetP : getTelegramUserByTgId st payerTgId = .ok (some P) := by
    unfold getTelegramUserByTgId; rw [hP]; rfl
  have hgetR : getTelegramUserByTgId st rb.tgId = .ok (some R) := by
    unfold getTelegramUserByTgId; rw [hR]; rfl
  unfold applyReferralRewardForPurchase
  rw [if_neg ha]
  simp only [bind, Except.bind, hgetP, hgetR, hrb, if_neg hne, hfind, hget]
  have hentry : (rewardEntry P nick k).numberOfPurchase = k := rfl
  simp only [hentry, if_neg hk]
  have hnext : ({ tgId := P.tg_id
                  tgLogin := jsCoalesce P.tg_nickname nick
                  tgNickname := jsCoalesce nick P.tg_nickname
                  numberOfPurchase := k + 1 } : TelegramReferralEntry) =
      rewardEntry P nick (k + 1) := rfl
  simp only [hnext, hset, List.length_append, List.length_cons, List.length_nil]

theorem rewardedReferrer_first {R P : TelegramUserRecord} {nick : Option String} {a : ℚ}
    (hcents : IsCents R.earned_money) :
    ({ R with
       earned_money := roundUsd (R.earned_money + roundUsd (a * (1 / 5)))
       number_of_referals := R.refferals_data.length + 1
       refferals_data := R.refferals_data ++ [rewardEntry P nick 1] } :
      TelegramUserRecord) = rewardedReferrer R P nick a 1 := by
  unfold rewardedReferrer
  simp only [TelegramUserRecord.mk.injEq, and_true, true_and]
  rw [roundUsd_of_isCents (isCents_add hcents (isCents_roundUsd _))]
  norm_num

theorem rewardedReferrer_next {R P : TelegramUserRecord} {nick : Option String} {a : ℚ}
    (hcents : IsCents R.earned_money) (k : Nat) :
    ({ rewardedReferrer R P nick a (k + 1) with
       earned_money := roundUsd ((rewardedReferrer R P nick a (k + 1)).earned_money +
         roundUsd (a * (1 / 10)))
       number_of_referals := R.refferals_data.length + 1
       refferals_data := R.refferals_data ++ [rewardEntry P nick (k + 2)] } :
      TelegramUserRecord) = rewardedReferrer R P nick a (k + 2) := by
  unfold rewardedReferrer
  simp only [TelegramUserRecord.mk.injEq, and_true, true_and]
  rw [roundUsd_of_isCents (isCents_add (isCents_add (isCents_add hcents
    (isCents_roundUsd _)) (isCents_nat_mul _ (isCents_roundUsd _))) (isCents_roundUsd _))]
  push_cast [Nat.add_sub_cancel]
  ring

/-- The three store facts preserved by each successful reward application:
well-formedness, the untouched payer row, and the rewritten referrer row. -/
theorem reward_store_next {st : Store} {payerTgId rid : String}
    {P R' Rnew : TelegramUserRecord} (f : TelegramUserRecord → TelegramUserRecord)
    (hf : ∀ r, (f r).tg_id = r.tg_id)
    (hwf : WfStore st) (hP : dbFilterByTgId st payerTgId = [P])
    (hR : dbFilterByTgId st rid = [R'])
    (hne : ¬rid = payerTgId)
    (hfR : f R' = Rnew) :
    WfStore (dbUpdateWhere st (fun r => r.tg_id = R'.tg_id) f).1 ∧
    dbFilterByTgId (dbUpdateWhere st (fun r => r.tg_id = R'.tg_id) f).1 payerTgId = [P] ∧
    dbFilterByTgId (dbUpdateWhere st (fun r => r.tg_id = R'.tg_id) f).1 rid = [Rnew] := by
  have hRid : R'.tg_id = rid := tgId_of_filter_single hR
  have hp : ∀ r : TelegramUserRecord, (decide (r.tg_id = R'.tg_id)) = true →
      r.tg_id = R'.tg_id := fun r h => of_decide_eq_true h
  refine ⟨wfStore_update hf hwf, ?_, ?_⟩
  · rw [dbFilterByTgId_update_other hf hp (by rw [hRid]; exact fun h => hne h.symm)]
    exact hP
  · rw [← hfR, ← hRid]
    exact dbUpdateWhere_read_single hf (by rw [hRid]; exact hR)

/-- Invariant of the iterated reward: the payer row survives unchanged and the
referrer row carries the accumulated credit and the count-n entry. -/
theorem iterReferralReward_invariant {st : Store} {payerTgId : String} {nick : Option String}
    {a : ℚ} {P R : TelegramUserRecord} {rb : TelegramReferredBy}
    (hwf : WfStore st)
    (hP : dbFilterByTgId st payerTgId = [P])
    (hrb : P.reffered_by = some rb)
    (hne : ¬rb.tgId = P.tg_id)
    (hR : dbFilterByTgId st rb.tgId = [R])
    (hnew : ∀ e ∈ R.refferals_data, (decide (e.tgId = P.tg_id)) = false)
    (ha : ¬a ≤ 0) (hcents : IsCents R.earned_money) :
    ∀ n, WfStore (iterReferralReward payerTgId nick a n st) ∧
      dbFilterByTgId (iterReferralReward payerTgId nick a n st) payerTgId = [P] ∧
      dbFilterByTgId (iterReferralReward payerTgId nick a n st) rb.tgId =
        [if n = 0 then R else rewardedReferrer R P nick a n] := by
  have hPid : P.tg_id = payerTgId := tgId_of_filter_single hP
  have hnep : ¬rb.tgId = payerTgId := by rw [← hPid]; exact hne
  intro n
  induction n with
  | zero => exact ⟨hwf, hP, by rw [if_pos rfl]; exact hR⟩
  | succ m ih =>
    obtain ⟨ihwf, ihP, ihR⟩ := ih
    match m with
    | 0 =>
      rw [if_pos rfl] at ihR
      have hstep := @applyReward_first (iterReferralReward payerTgId nick a 0 st)
        payerTgId nick a P R rb ha ihP hrb hne ihR hnew
      have hiter : iterReferralReward payerTgId nick a 1 st =
          (dbUpdateWhere (iterReferralReward payerTgId nick a 0 st)
            (fun r => r.tg_id = R.tg_id) fun r =>
            { r with
              earned_money := roundUsd (R.earned_money + roundUsd (a * (1 / 5)))
              number_of_referals := R.refferals_data.length + 1
              refferals_data := R.refferals_data ++ [rewardEntry P nick 1] }).1 := by
        show (match applyReferralRewardForPurchase (iterReferralReward payerTgId nick a 0 st)
            payerTgId nick a with
          | .ok p => p.2
          | .error _ => iterReferralReward payerTgId nick a 0 st) = _
        rw [hstep]
      obtain ⟨h1, h2, h3⟩ := reward_store_next
        (fun r =>
          { r with
            earned_money := roundUsd (R.earned_money + roundUsd (a * (1 / 5)))
            number_of_referals := R.refferals_data.length + 1
            refferals_data := R.refferals_data ++ [rewardEntry P nick 1] })
        (fun r => rfl) ihwf ihP ihR hnep (rewardedReferrer_first hcents)
      rw [hiter]
      exact ⟨h1, h2, by rw [if_neg (Nat.one_ne_zero)]; exact h3⟩
    | k + 1 =>
      rw [if_neg (Nat.succ_ne_zero k)] at ihR
      have hdata : (rewardedReferrer R P nick a (k + 1)).refferals_data =
          R.refferals_data ++ [rewardEntry P nick (k + 1)] := rfl
      have hstep := applyReward_repeat ha ihP hrb hne ihR (Nat.succ_ne_zero k) hnew hdata
      have hRe : (rewardedReferrer R P nick a (k + 1)).earned_money =
          R.earned_money + roundUsd (a * (1 / 5)) +
            ((k + 1 - 1 : Nat) : ℚ) * roundUsd (a * (1 / 10)) := rfl
      have hiter : iterReferralReward payerTgId nick a (k + 2) st =
          (dbUpdateWhere (iterReferralReward payerTgId nick a (k + 1) st)
            (fun r => r.tg_id = (rewardedReferrer R P nick a (k + 1)).tg_id) fun r =>
            { r with
              earned_money := roundUsd ((rewardedReferrer R P nick a (k + 1)).earned_money +
                roundUsd (a * (1 / 10)))
              number_of_referals := R.refferals_data.length + 1
              refferals_data := R.refferals_data ++ [rewardEntry P nick (k + 1 + 1)] }).1 := by
        show (match applyReferralRewardForPurchase
            (iterReferralReward payerTgId nick a (k + 1) st) payerTgId nick a with
          | .ok p => p.2
          | .error _ => iterReferralReward payerTgId nick a (k + 1) st) = _
        rw [hstep]
      obtain ⟨h1, h2, h3⟩ := reward_store_next
        (fun r =>
          { r with
            earned_money := roundUsd ((rewardedReferrer R P nick a (k + 1)).earned_money +
              roundUsd (a * (1 / 10)))
            number_of_referals := R.refferals_data.length + 1
            refferals_data := R.refferals_data ++ [rewardEntry P nick (k + 1 + 1)] })
        (fun r => rfl) ihwf ihP ihR hnep (rewardedReferrer_next hcents k)
      rw [hiter]
      exact ⟨h1, h2, by rw [if_neg (Nat.succ_ne_zero (k + 1))]; exact h3⟩

/-- C4: for every payer whose referrer exists in the store and is not the
payer, the N-th call of applyReferralRewardForPurchase for that payer succeeds
with purchase count N in the result and in the referrer's stored entry for the
payer, crediting round2 of 20% of the amount exactly when N = 1 and of 10%
when N > 1 — the 20% tier is never paid more than once for the same payer. -/
theorem applyReferralReward_nth {st : Store} {payerTgId : String} {nick : Option String}
    {a : ℚ} {P R : TelegramUserRecord} {rb : TelegramReferredBy}
    (hwf : WfStore st)
    (hP : dbFilterByTgId st payerTgId = [P])
    (hrb : P.reffered_by = some rb)
    (hne : ¬rb.tgId = P.tg_id)
    (hR : dbFilterByTgId st rb.tgId = [R])
    (hnew : ∀ e ∈ R.refferals_data, (decide (e.tgId = P.tg_id)) = false)
    (ha : ¬a ≤ 0) (hcents : IsCents R.earned_money)
    (N : Nat) (hN : 0 < N) :
    ∃ st1,
      applyReferralRewardForPurchase (iterReferralReward payerTgId nick a (N - 1) st)
          payerTgId nick a =
        .ok ({ applied := true
               referrerTgId := some R.tg_id
               rewardAmountUsd := roundUsd (a * (if N = 1 then 1 / 5 else 1 / 10))
               rewardPercent := if N = 1 then 1 / 5 else 1 / 10
               referralPurchaseCount := N }, st1) ∧
      dbFilterByTgId st1 rb.tgId = [rewardedReferrer R P nick a N] ∧
      (rewardedReferrer R P nick a N).refferals_data =
        R.refferals_data ++ [rewardEntry P nick N] := by
  have hPid : P.tg_id = payerTgId := tgId_of_filter_single hP
  have hnep : ¬rb.tgId = payerTgId := by rw [← hPid]; exact hne
  match N, hN with
  | k + 1, _ =>
    obtain ⟨ihwf, ihP, ihR⟩ :=
      @iterReferralReward_invariant st payerTgId nick a P R rb hwf hP hrb hne hR hnew
        ha hcents k
    match k with
    | 0 =>
      rw [if_pos rfl] at ihR
      have hstep := @applyReward_first (iterReferralReward payerTgId nick a 0 st)
        payerTgId nick a P R rb ha ihP hrb hne ihR hnew
      obtain ⟨h1, h2, h3⟩ := reward_store_next
        (fun r =>
          { r with
            earned_money := roundUsd (R.earned_money + roundUsd (a * (1 / 5)))
            number_of_referals := R.refferals_data.length + 1
            refferals_data := R.refferals_data ++ [rewardEntry P nick 1] })
        (fun r => rfl) ihwf ihP ihR hnep (rewardedReferrer_first hcents)
      refine ⟨_, ?_, h3, rfl⟩
      simp only [Nat.add_sub_cancel, if_pos rfl]
      exact hstep
    | j + 1 =>
      rw [if_neg (Nat.succ_ne_zero j)] at ihR
      have hdata : (rewardedReferrer R P nick a (j + 1)).refferals_data =
          R.refferals_data ++ [rewardEntry P nick (j + 1)] := rfl
      have hstep := applyReward_repeat ha ihP hrb hne ihR (Nat.succ_ne_zero j) hnew hdata
      obtain ⟨h1, h2, h3⟩ := reward_store_next
        (fun r =>
          { r with
            earned_money := roundUsd ((rewardedReferrer R P nick a (j + 1)).earned_money +
              roundUsd (a * (1 / 10)))
            number_of_referals := R.refferals_data.length + 1
            refferals_data := R.refferals_data ++ [rewardEntry P nick (j + 1 + 1)] })
        (fun r => rfl) ihwf ihP ihR hnep (rewardedReferrer_next hcents j)
      refine ⟨_, ?_, h3, rfl⟩
      simp only [Nat.add_sub_cancel, if_neg (show ¬j + 1 + 1 = 1 by omega)]
      exact hstep

/-- Sample payer row for evaluating the referral-reward theorem. -/
def c4Payer : TelegramUserRecord :=
  { tg_nickname := some "payer"
    tg_id := "10"
    subscription_active := true
    subscription_status := some .ending
    subscription_untill := none
    traffic_consumed_mb := 0
    number_of_connections := 0
    number_of_connections_last_month := 0
    number_of_referals := 0
    earned_money := 0
    refferals_data := []
    reffered_by := some { tgId := "20", tgNickname := none, referDate := "2024-01-01" }
    gifts := [] }

/-- Sample referrer row for evaluating the referral-reward theorem. -/
def c4Referrer : TelegramUserRecord :=
  { tg_nickname := some "ref"
    tg_id := "20"
    subscription_active := false
    subscription_status := none
    subscription_untill := none
    traffic_consumed_mb := 0
    number_of_connections := 0
    number_of_connections_last_month := 0
    number_of_referals := 0
    earned_money := 0
    refferals_data := []
    reffered_by := none
    gifts := [] }

def c4SampleStore : Store := [c4Payer, c4Referrer]

/-- Witness: the second reward call for the sample payer pays the 10% tier and
stores purchase count 2. -/
theorem applyReferralReward_nth_witness :
    ∃ st1,
      applyReferralRewardForPurchase
          (iterReferralReward "10" none 10 (2 - 1) c4SampleStore) "10" none 10 =
        .ok ({ applied := true
               referrerTgId := some c4Referrer.tg_id
               rewardAmountUsd := roundUsd (10 * (if 2 = 1 then 1 / 5 else 1 / 10))
               rewardPercent := if 2 = 1 then 1 / 5 else 1 / 10
               referralPurchaseCount := 2 }, st1) ∧
      dbFilterByTgId st1 "20" = [rewardedReferrer c4Referrer c4Payer none 10 2] ∧
      (rewardedReferrer c4Referrer c4Payer none 10 2).refferals_data =
        c4Referrer.refferals_data ++ [rewardEntry c4Payer none 2] :=
  @applyReferralReward_nth c4SampleStore "10" none 10 c4Payer c4Referrer
    ⟨"20", none, "2024-01-01"⟩ (by decide) (by decide) rfl (by decide) (by decide)
    (by simp [c4Referrer]) (by norm_num) ⟨0, by norm_num [c4Referrer]⟩ 2 (by decide)

/-- Sample user for evaluating the subscription-extension theorem. -/
def c8User : TelegramUserRecord :=
  { tg_nickname := some "sub"
    tg_id := "30"
    subscription_active := true
    subscription_status := some .live
    subscription_untill := some "2024-03-15"
    traffic_consumed_mb := 0
    number_of_connections := 0
    number_of_connections_last_month := 0
    number_of_referals := 0
    earned_money := 0
    refferals_data := []
    reffered_by := none
    gifts := [] }

/-- Witness: activating 2 months on the sample user with a future expiry. -/
theorem activateSubscription_extends_expiry_witness :
    ∃ r st1, activateTelegramSubscription ⟨2024, 2, 1⟩ [c8User] "30" none 2 = .ok (r, st1) ∧
      r.subscription_active = true ∧
      r.subscription_status = some SubStatus.live ∧
      (∀ cu, currentExpiryDate c8User = some cu → dayNumber ⟨2024, 2, 1⟩ < dayNumber cu →
        r.subscription_untill = some (formatDateOnly (addMonths cu 2))) ∧
      ((currentExpiryDate c8User = none ∨
          ∃ cu, currentExpiryDate c8User = some cu ∧
            dayNumber cu ≤ dayNumber ⟨2024, 2, 1⟩) →
        r.subscription_untill = some (formatDateOnly (addMonths ⟨2024, 2, 1⟩ 2))) :=
  activateSubscription_extends_expiry ⟨2024, 2, 1⟩ [c8User] "30" none 2 c8User
    (by decide) (by decide) (by decide)

/-! ### Gift activation (C5) -/

/-- C5 (amended): gift activation fails GIFT_NOT_FOUND exactly when the index
falls outside the user's current gift list; an in-bounds index — stale or not —
activates whatever gift currently occupies that slot and removes it, with no
check that it is the gift the caller selected. -/
theorem activateTelegramGift_spec (today : CivilDate) (st : Store) (tgId : String)
    (nick : Option String) (giftIndex : Nat) {u : TelegramUserRecord}
    (hwf : WfStore st) (hu : dbFilterByTgId st tgId = [u]) :
    (u.gifts.get? giftIndex = none →
      activateTelegramGift today st tgId nick giftIndex = .error "GIFT_NOT_FOUND") ∧
    (∀ g, u.gifts.get? giftIndex = some g → 0 < g.timeAmountGifted →
      ∃ r st1, activateTelegramGift today st tgId nick giftIndex = .ok ((g, r), st1) ∧
        r.gifts = u.gifts.eraseIdx giftIndex ∧
        WfStore st1 ∧ dbFilterByTgId st1 tgId = [r]) := by
  have hget : getTelegramUserByTgId st tgId = .ok (some u) := by
    unfold getTelegramUserByTgId; rw [hu]; rfl
  constructor
  · intro hnone
    unfold activateTelegramGift
    simp only [bind, Except.bind, hget, hnone]
  · intro g hg hmg
    obtain ⟨st1, hok, hwf1, hfil1, hother⟩ :=
      @activateSubscription_ok today st tgId nick g.timeAmountGifted u hwf hu hmg
    unfold activateTelegramGift
    simp only [bind, Except.bind, hget, hg, hok]
    rw [dbUpdateWhere_rows_single _ hfil1]
    simp only [dbSingle]
    have hf : ∀ r : TelegramUserRecord,
        (({ r with gifts := u.gifts.eraseIdx giftIndex } : TelegramUserRecord)).tg_id
          = r.tg_id := fun r => rfl
    refine ⟨_, _, rfl, rfl, wfStore_update hf hwf1, ?_⟩
    exact dbUpdateWhere_read_single hf hfil1

/-- Sample gifts and gift holder for the stale-index scenario. -/
def c5g1 : TelegramGift :=
  { giftedByTgId := "40", giftedByTgName := none, timeAmountGifted := 1,
    dateOfGift := "2024-01-02" }

def c5g3 : TelegramGift :=
  { giftedByTgId := "41", giftedByTgName := none, timeAmountGifted := 3,
    dateOfGift := "2024-01-03" }

def c5g6 : TelegramGift :=
  { giftedByTgId := "42", giftedByTgName := none, timeAmountGifted := 6,
    dateOfGift := "2024-01-04" }

def c5User : TelegramUserRecord :=
  { tg_nickname := some "gifted"
    tg_id := "50"
    subscription_active := false
    subscription_status := none
    subscription_untill := none
    traffic_consumed_mb := 0
    number_of_connections := 0
    number_of_connections_last_month := 0
    number_of_referals := 0
    earned_money := 0
    refferals_data := []
    reffered_by := none
    gifts := [c5g1, c5g3, c5g6] }

/-- C5 counterexample: index 1 initially names the 3-month gift; after
activating index 0 removes the first gift, re-using the stale index 1 does not
fail GIFT_NOT_FOUND — it silently activates the 6-month gift instead. -/
theorem activateTelegramGift_stale_counterexample :
    c5User.gifts.get? 1 = some c5g3 ∧
    ∃ r1 st1,
      activateTelegramGift ⟨2024, 1, 10⟩ [c5User] "50" none 0 = .ok ((c5g1, r1), st1) ∧
      ∃ r2 st2,
        activateTelegramGift ⟨2024, 1, 10⟩ st1 "50" none 1 = .ok ((c5g6, r2), st2) ∧
        ¬c5g6 = c5g3 := by
  refine ⟨by decide, ?_⟩
  obtain ⟨r1, st1, hok1, hg1, hwf1, hfil1⟩ :=
    (@activateTelegramGift_spec ⟨2024, 1, 10⟩ [c5User] "50" none 0 c5User
      (by decide) (by decide)).2 c5g1 (by decide) (by decide)
  obtain ⟨r2, st2, hok2, hg2, hwf2, hfil2⟩ :=
    (@activateTelegramGift_spec ⟨2024, 1, 10⟩ st1 "50" none 1 r1 hwf1 hfil1).2 c5g6
      (by rw [hg1]; decide) (by decide)
  exact ⟨r1, st1, hok1, r2, st2, hok2, by decide⟩

/-- Witness: the spec theorem evaluated on the sample holder: index 3 is out
of bounds and fails GIFT_NOT_FOUND. -/
theorem activateTelegramGift_spec_witness :
    (c5User.gifts.get? 3 = none →
      activateTelegramGift ⟨2024, 1, 10⟩ [c5User] "50" none 3 =
        .error "GIFT_NOT_FOUND") ∧
    (∀ g, c5User.gifts.get? 3 = some g → 0 < g.timeAmountGifted →
      ∃ r st1, activateTelegramGift ⟨2024, 1, 10⟩ [c5User] "50" none 3 =
          .ok ((g, r), st1) ∧
        r.gifts = c5User.gifts.eraseIdx 3 ∧
        WfStore st1 ∧ dbFilterByTgId st1 "50" = [r]) :=
  @activateTelegramGift_spec ⟨2024, 1, 10⟩ [c5User] "50" none 3 c5User
    (by decide) (by decide)

/-! ### Telegram command parsing (src/controllers/entities/telegram-command)

Strings are handled as character lists so every definition evaluates in the
kernel. JavaScript's trim, toLowerCase and the \s and \w regex classes cover
some non-ASCII code points; the inputs this parser receives are ASCII command
lines, and the model fixes the ASCII meaning of those classes. -/

/-- The \s class (and String.prototype.trim) on ASCII: space and the C0 white
space controls TAB..CR. -/
def jsWhitespace (c : Char) : Bool := c.toNat = 32 || (9 ≤ c.toNat && c.toNat ≤ 13)

def jsTrim (l : List Char) : List Char :=
  ((l.dropWhile jsWhitespace).reverse.dropWhile jsWhitespace).reverse

def toLowerChar (c : Char) : Char :=
  if 65 ≤ c.toNat ∧ c.toNat ≤ 90 then Char.ofNat (c.toNat + 32) else c

/-- The regex \w class: [A-Za-z0-9_]. -/
def isWordChar (c : Char) : Bool :=
  isDigitChar c || (97 ≤ c.toNat && c.toNat ≤ 122) ||
    (65 ≤ c.toNat && c.toNat ≤ 90) || c.toNat = 95

/-- One step of splitting on whitespace runs (split(/\s+/u) plus the
non-empty filter): fold from the right collecting maximal non-space runs. -/
def wsFold (c : Char) (acc : List Char × List (List Char)) :
    List Char × List (List Char) :=
  if jsWhitespace c then ([], if acc.1.isEmpty then acc.2 else acc.1 :: acc.2)
  else (c :: acc.1, acc.2)

def wsTokens (l : List Char) : List (List Char) :=
  let r := l.foldr wsFold ([], [])
  if r.1.isEmpty then r.2 else r.1 :: r.2

/-- [a-z_] of the command regex under the i flag. -/
def commandCoreChar (c : Char) : Bool :=
  (97 ≤ c.toNat && c.toNat ≤ 122) || (65 ≤ c.toNat && c.toNat ≤ 90) || c.toNat = 95

/-- [a-z0-9_] of the bot-mention group under the i flag. -/
def mentionChar (c : Char) : Bool := commandCoreChar c || isDigitChar c

/-- The anchored match of /^\/([a-z_]+)(?:@([a-z0-9_]{3,}))?$/iu on a token:
the command body and the optional bot mention. -/
def execCommandMatch (t : List Char) : Option (List Char × Option (List Char)) :=
  match t with
  | [] => none
  | c :: rest =>
    if c.toNat = 47 then
      let core := rest.takeWhile commandCoreChar
      if core.isEmpty then none
      else
        match rest.drop core.length with
        | [] => some (core, none)
        | a :: ms =>
          if a.toNat = 64 && 3 ≤ ms.length && ms.all mentionChar then
            some (core, some ms)
          else none
    else none

/-- suspiciousCommandPattern alternative 1 keywords. -/
def suspKeywords : List (List Char) :=
  ["id".data, "user_id".data, "chat_id".data, "admin_id".data, "target_id".data,
    "uid".data]

def boundaryBefore (prev : Option Char) : Bool :=
  match prev with
  | none => true
  | some c => !isWordChar c

/-- \b after a digit run: end of input or a non-word character. -/
def afterDigitsBoundary : List Char → Bool
  | [] => true
  | c :: _ => !isWordChar c

/-- \b(?:id|user_id|chat_id|admin_id|target_id|uid)\s*[:=]\s*\d+\b matched at
the head of the (lowercased) input; the leading boundary is the caller's. -/
def matchIdAssign (l : List Char) : Bool :=
  suspKeywords.any fun kw =>
    kw.isPrefixOf l &&
      (match (l.drop kw.length).dropWhile jsWhitespace with
       | c :: r2 =>
         (c.toNat = 58 || c.toNat = 61) &&
           (let r3 := r2.dropWhile jsWhitespace
            let ds := r3.takeWhile isDigitChar
            !ds.isEmpty && afterDigitsBoundary (r3.drop ds.length))
       | [] => false)

/-- \b\d{8,}\b matched at the head; the leading boundary is the caller's. -/
def matchBigNum (l : List Char) : Bool :=
  let ds := l.takeWhile isDigitChar
  8 ≤ ds.length && afterDigitsBoundary (l.drop ds.length)

/-- Unanchored scan of suspiciousCommandPattern over a lowercased input,
tracking the previous character for the word boundaries. -/
def suspiciousScan : Option Char → List Char → Bool
  | _, [] => false
  | prev, c :: rest =>
    (boundaryBefore prev && (matchIdAssign (c :: rest) || matchBigNum (c :: rest))) ||
      ("tg://user?id=".data.isPrefixOf (c :: rest)) ||
      suspiciousScan (some c) rest

def suspiciousCommandTest (l : List Char) : Bool :=
  suspiciousScan none (l.map toLowerChar)

structure ParsedTelegramCommand where
  command : Option String
  argument : Option String
  isSuspicious : Bool
  reason : Option String := none
deriving DecidableEq, Repr

/-- ^ref_[1-9]\d{0,19}$ for the /start payload. -/
def isRefArgument (arg : List Char) : Bool :=
  match arg with
  | r :: e :: f :: u :: rest =>
    r.toNat = 114 && e.toNat = 101 && f.toNat = 102 && u.toNat = 95 && isTgIdChars rest
  | _ => false

/-- Drop one leading @ (replace(/^@/u, "")). -/
def stripAtSign (l : List Char) : List Char :=
  match l with
  | c :: rest => if c.toNat = 64 then rest else l
  | [] => []

/-- getTelegramCommand (src/controllers/entities/telegram-command). -/
def getTelegramCommand (text : Option String) (botUsername : Option String) :
    ParsedTelegramCommand :=
  match text with
  | none => { command := none, argument := none, isSuspicious := false }
  | some t =>
    let normalizedText := jsTrim t.data
    let startsWithSlash : Bool :=
      match normalizedText with | c :: _ => c.toNat = 47 | [] => false
    if !startsWithSlash then
      { command := none, argument := none, isSuspicious := false }
    else if 128 < normalizedText.length then
      { command := none, argument := none, isSuspicious := true
        reason := some "Potential ID injection payload detected." }
    else
      let tokens := wsTokens normalizedText
      let firstToken := tokens.headD []
      match execCommandMatch firstToken with
      | none =>
        { command := none, argument := none, isSuspicious := true
          reason := some "Malformed Telegram command." }
      | some (core, mention) =>
        if 2 < tokens.length then
          { command := none, argument := none, isSuspicious := true
            reason := some "Too many command arguments." }
        else
          let botMention := (mention.getD []).map toLowerChar
          let expectedBotUsername :=
            (stripAtSign (botUsername.getD "").data).map toLowerChar
          if !botMention.isEmpty && !expectedBotUsername.isEmpty &&
              botMention ≠ expectedBotUsername then
            { command := none, argument := none, isSuspicious := false
              reason := some "Command is addressed to a different bot." }
          else
            let normalizedCommand := Char.ofNat 47 :: core.map toLowerChar
            let argument : Option (List Char) :=
              if tokens.length = 2 then some (tokens.getD 1 []) else none
            match argument with
            | some arg =>
              if ¬(normalizedCommand = "/start".data) then
                { command := none, argument := none, isSuspicious := true
                  reason := some "Command arguments are blocked for security." }
              else if ¬(isRefArgument arg = true) then
                { command := none, argument := none, isSuspicious := true
                  reason := some "Unsupported /start payload." }
              else
                { command := some ⟨normalizedCommand⟩, argument := some ⟨arg⟩
                  isSuspicious := false }
            | none =>
              if suspiciousCommandTest normalizedText then
                { command := none, argument := none, isSuspicious := true
                  reason := some "Potential ID injection payload detected." }
              else
                { command := some ⟨normalizedCommand⟩, argument := none
                  isSuspicious := false }

/-- substring containment (String.prototype.includes). -/
def containsSub (pat : List Char) : List Char → Bool
  | [] => pat.isEmpty
  | c :: rest => pat.isPrefixOf (c :: rest) || containsSub pat rest

def jsIncludes (s pat : String) : Bool := containsSub pat.data s.data

/-- C9 (amended): getTelegramCommand on "/start id=999999999" with no bot
username flags the message as suspicious, but through the /start-payload
check, so the reason is "Unsupported /start payload.", not the injection
message. -/
theorem getTelegramCommand_start_id_payload :
    getTelegramCommand (some "/start id=999999999") none =
      { command := none, argument := none, isSuspicious := true
        reason := some "Unsupported /start payload." } := by
  decide

/-- C9 counterexample: the verdict is suspicious as claimed, but its reason
string does not contain "injection". -/
theorem getTelegramCommand_reason_lacks_injection :
    (getTelegramCommand (some "/start id=999999999") none).isSuspicious = true ∧
    (getTelegramCommand (some "/start id=999999999") none).reason =
      some "Unsupported /start payload." ∧
    jsIncludes "Unsupported /start payload." "injection" = false := by
  decide

/-! ### Callback-data decoders (src/controllers/entities/telegram-callback) -/

def startsWithChars (p : String) (l : List Char) : Bool := p.data.isPrefixOf l

/-- Number.parseInt(s, 10): trim, optional sign, maximal leading digit run,
NaN (none) when no digit follows. -/
def jsParseInt (s : String) : Option Int :=
  let t := jsTrim s.data
  let signed : Int × List Char :=
    match t with
    | c :: rest =>
      if c.toNat = 45 then (-1, rest)
      else if c.toNat = 43 then (1, rest)
      else (1, t)
    | [] => (1, [])
  let digits := signed.2.takeWhile isDigitChar
  if digits.isEmpty then none
  else some (signed.1 * (valOfDigits (digits.map fun c => c.toNat - 48) : Int))

inductive TelegramMenuKey
  | subscription_status
  | how_to_use
  | faq
  | referals
  | gifts
  | settings
  | countries
deriving DecidableEq, Repr

def telegramMenuKeyOfChars (s : List Char) : Option TelegramMenuKey :=
  if s = "subscription_status".data then some .subscription_status
  else if s = "how_to_use".data then some .how_to_use
  else if s = "faq".data then some .faq
  else if s = "referals".data then some .referals
  else if s = "gifts".data then some .gifts
  else if s = "settings".data then some .settings
  else if s = "countries".data then some .countries
  else none

def getMenuKeyFromCallbackData (data : Option String) : Option TelegramMenuKey :=
  match data with
  | none => none
  | some d =>
    if startsWithChars "menu:" d.data then telegramMenuKeyOfChars (d.data.drop 5)
    else none

inductive PurchaseAction
  | openPay
  | method (m : String)
  | plan (months : Nat)
deriving DecidableEq, Repr

def purchaseMethodValid (s : List Char) : Bool :=
  s = "tg_stars".data || s = "tbd_1".data || s = "tbd_2".data

def getPurchaseActionFromCallbackData (data : Option String) : Option PurchaseAction :=
  match data with
  | none => none
  | some d =>
    if d = "buy:open" then some .openPay
    else if startsWithChars "buy:method:" d.data then
      let m := d.data.drop 11
      if purchaseMethodValid m then some (.method ⟨m⟩) else none
    else if startsWithChars "buy:plan:" d.data then
      match jsParseInt ⟨d.data.drop 9⟩ with
      | some v => if 0 < v then some (.plan v.toNat) else none
      | none => none
    else none

inductive FaqAction
  | email
  | rules
deriving DecidableEq, Repr

def getFaqActionFromCallbackData (data : Option String) : Option FaqAction :=
  match data with
  | none => none
  | some d =>
    if startsWithChars "faq:" d.data then
      let s := d.data.drop 4
      if s = "email".data then some .email
      else if s = "rules".data then some .rules
      else none
    else none

inductive ReferalsAction
  | prolong
  | balance_plan (months : Nat)
deriving DecidableEq, Repr

def getReferalsActionFromCallbackData (data : Option String) : Option ReferalsAction :=
  match data with
  | none => none
  | some d =>
    if startsWithChars "referals:" d.data ∧ d.data.drop 9 = "prolong".data then
      some .prolong
    else if startsWithChars "referals:balance_plan:" d.data then
      match jsParseInt ⟨d.data.drop 22⟩ with
      | some v => if 0 < v then some (.balance_plan v.toNat) else none
      | none => none
    else none

def isHexChar (c : Char) : Bool :=
  isDigitChar c || (97 ≤ c.toNat && c.toNat ≤ 102) || (65 ≤ c.toNat && c.toNat ≤ 70)

/-- z.uuid(): RFC 9562 shape — 8-4-4-4-12 hex groups with the version digit
1-8 and variant in [89abAB], or the all-zero nil / all-f max forms. -/
def isUuidChars (l : List Char) : Bool :=
  (l.length = 36 &&
    (l.enum.all fun p =>
      if p.1 = 8 ∨ p.1 = 13 ∨ p.1 = 18 ∨ p.1 = 23 then p.2.toNat = 45
      else isHexChar p.2) &&
    (match l.get? 14 with
     | some c => 49 ≤ c.toNat && c.toNat ≤ 56
     | none => false) &&
    (match l.get? 19 with
     | some c => c.toNat = 56 || c.toNat = 57 || c.toNat = 97 || c.toNat = 98 ||
         c.toNat = 65 || c.toNat = 66
     | none => false)) ||
  l = "00000000-0000-0000-0000-000000000000".data ||
  l = "ffffffff-ffff-ffff-ffff-ffffffffffff".data

/-- base64url alphabet value of a character. -/
def base64UrlVal (c : Char) : Option Nat :=
  if 65 ≤ c.toNat ∧ c.toNat ≤ 90 then some (c.toNat - 65)
  else if 97 ≤ c.toNat ∧ c.toNat ≤ 122 then some (c.toNat - 97 + 26)
  else if 48 ≤ c.toNat ∧ c.toNat ≤ 57 then some (c.toNat - 48 + 52)
  else if c.toNat = 45 then some 62
  else if c.toNat = 95 then some 63
  else none

/-- Bytes of a base64url group of 2 to 4 characters. -/
def base64Group (g : List Nat) : List Nat :=
  match g with
  | [a, b] => [a * 4 + b / 16]
  | [a, b, c] => [a * 4 + b / 16, b % 16 * 16 + c / 4]
  | [a, b, c, d] => [a * 4 + b / 16, b % 16 * 16 + c / 4, c % 4 * 64 + d]
  | _ => []

def base64Chunks : List Nat → List (List Nat)
  | a :: b :: c :: d :: rest => [a, b, c, d] :: base64Chunks rest
  | [] => []
  | rest => [rest]

/-- decodeBase64Url (src/shared/lib/base64url): Buffer.from(value, "base64url")
rendered back as text. The model decodes the strict base64url alphabet and
maps each byte to the code point of the same value; Node's lenient handling of
stray characters and its UTF-8 re-decoding are not modelled — no verified
claim exercises this decoder. -/
def decodeBase64Url (value : String) : Option String := do
  let vals ← value.data.mapM base64UrlVal
  if vals.length % 4 = 1 then none
  else some ⟨((base64Chunks vals).map base64Group).flatten.map Char.ofNat⟩

inductive CountriesAction
  | country (country : String)
  | vps (internalUuid : String)
deriving DecidableEq, Repr

def getCountriesActionFromCallbackData (data : Option String) : Option CountriesAction :=
  match data with
  | none => none
  | some d =>
    if startsWithChars "countries:country:" d.data then
      match decodeBase64Url ⟨d.data.drop 18⟩ with
      | none => none
      | some dec =>
        let c := jsTrim dec.data
        if c.length = 0 ∨ 64 < c.length then none else some (.country ⟨c⟩)
    else if startsWithChars "countries:vps:" d.data then
      let u := d.data.drop 14
      if isUuidChars u then some (.vps ⟨u⟩) else none
    else none

inductive HowToAction
  | platform (p : String)
deriving DecidableEq, Repr

def howToPlatformValid (s : List Char) : Bool :=
  s = "ios".data || s = "android".data || s = "macos".data || s = "windows".data ||
    s = "android_tv".data

def getHowToActionFromCallbackData (data : Option String) : Option HowToAction :=
  match data with
  | none => none
  | some d =>
    if startsWithChars "howto:" d.data then
      let s := d.data.drop 6
      if howToPlatformValid s then some (.platform ⟨s⟩) else none
    else none

/-! ### Webhook dispatcher (telegramWebhookController.ts)

The update is taken after telegramUpdateSchema has accepted it, with the
fields the handler reads. The environment carries the users table, the price
catalog and the VPS catalog, plus one failure flag per database (a raised
flag makes every call into that store throw, which is the Supabase error
path) and one shared ok flag for the Telegram send/edit/answer calls (the
TelegramApiResult.ok of telegramBotService; a rejected fetch, which that
service does not catch, is outside the model). The handler returns the HTTP
response, the ordered list of outbound Telegram calls, and the users table
after its writes; .error is an exception escaping the handler, in which case
Express sends no 200 response. Response bodies are modelled by the fields the
branches set; the sweep counters of the /clear body and the message texts are
not carried. A service call that throws after a partial write (the nickname
refresh inside a failing activation) leaves the table unchanged in the model;
no claim reads the field it could have touched. -/

structure TgUser where
  id : Nat
  username : Option String
deriving DecidableEq, Repr

structure SuccessfulPayment where
  currency : String
  total_amount : Nat
  invoice_payload : String
deriving DecidableEq, Repr

structure TgMessage where
  message_id : Option Nat
  chatId : Nat
  chatType : Option String
  fromUser : Option TgUser
  text : Option String
  successful_payment : Option SuccessfulPayment
deriving DecidableEq, Repr

structure CallbackQuery where
  id : String
  data : Option String
  fromId : Nat
  message : Option TgMessage
deriving DecidableEq, Repr

structure PreCheckoutQuery where
  id : String
  fromId : Nat
  currency : String
  total_amount : Nat
  invoice_payload : String
deriving DecidableEq, Repr

structure TelegramUpdate where
  message : Option TgMessage := none
  edited_message : Option TgMessage := none
  callback_query : Option CallbackQuery := none
  pre_checkout_query : Option PreCheckoutQuery := none
deriving DecidableEq, Repr

structure VpsCountryOption where
  country : String
  countryEmoji : String
deriving DecidableEq, Repr

structure VpsListItem where
  internalUuid : String
  nickname : Option String
deriving DecidableEq, Repr

structure VpsConfig where
  configList : List String
deriving DecidableEq, Repr

/-- The send/edit call sites of the controller, one tag per call. -/
inductive SendSite
  | paymentMethods
  | starsPlans
  | starsPlansEmpty
  | starsPlansLoadFailed
  | tbdMethod
  | planLoadFailed
  | planMissing
  | starsInvoice
  | faqMenu
  | faqAnswer
  | referralProfileMissing
  | referralProgram
  | prolongProfileMissing
  | prolongInsufficient
  | prolongOptions
  | prolongPlanMissing
  | prolongSuccess
  | prolongChargeInsufficient
  | prolongChargeFailed
  | howToMenu
  | howToGuide
  | subscriptionRequired
  | countriesEmpty
  | countriesList
  | vpsListEmpty
  | vpsList
  | vpsConfigNotFound
  | vpsConfigEmpty
  | vpsConfigIntro
  | vpsConfigUrl
  | subscriptionStatus
  | menuEdit
  | invalidPayment
  | paymentSuccess
  | mainMenu
deriving DecidableEq, Repr

inductive Effect
  | answerPreCheckout (queryId : String) (accept : Bool)
  | answerCallback (queryId : String)
  | send (chatId : Nat) (site : SendSite) (ok : Bool)
  | clearHistory (chatId : Nat) (upToMessageId : Nat)
deriving DecidableEq, Repr

structure HttpResponse where
  status : Nat
  ok : Bool
  processed : Bool
  reason : Option String := none
  preCheckoutValidated : Option Bool := none
  callbackHandled : Option Bool := none
  sent : Option Bool := none
  invoiceSent : Option Bool := none
  edited : Option Bool := none
  paymentApplied : Option Bool := none
  blocked : Option Bool := none
  command : Option String := none
  historyCleared : Option Bool := none
deriving DecidableEq, Repr

structure WebhookEnv where
  today : CivilDate
  store : Store
  prices : Catalog
  vpsCountries : List VpsCountryOption
  vpsByCountry : String → List VpsListItem
  vpsConfigs : String → Option VpsConfig
  usersDbFails : Bool
  pricesDbFails : Bool
  vpsDbFails : Bool
  sendOk : Bool
  botUsername : Option String

abbrev WebhookResult : Type := Except String (HttpResponse × List Effect × Store)

/-- The a ?? b nullish coalescing at any type. -/
def jsCoalesceT {α : Type} (a b : Option α) : Option α :=
  match a with
  | some x => some x
  | none => b

def resp200 : HttpResponse := { status := 200, ok := true, processed := true }

/-- The pre-checkout branch (controller lines 111-151). -/
def handlePreCheckout (env : WebhookEnv) (q : PreCheckoutQuery) : WebhookResult :=
  let invoicePayload := parseSubscriptionInvoicePayload q.invoice_payload
  let isValidPayload : Bool :=
    match invoicePayload with
    | none => false
    | some p =>
      if q.currency = "XTR" ∧ p.tgId = jsStringOfNat q.fromId then
        if env.pricesDbFails then false
        else
          match getSubscriptionPriceByMonths env.prices p.months with
          | .error _ => false
          | .ok none => false
          | .ok (some expectedPrice) => q.total_amount = expectedPrice.stars
      else false
  .ok ({ resp200 with preCheckoutValidated := some isValidPayload },
    [.answerPreCheckout q.id isValidPayload], env.store)

/-- The callback-query branch (controller lines 153-1158). -/
def handleCallbackQuery (env : WebhookEnv) (cq : CallbackQuery) : WebhookResult :=
  let menuKey := getMenuKeyFromCallbackData cq.data
  let purchaseAction := getPurchaseActionFromCallbackData cq.data
  let faqAction := getFaqActionFromCallbackData cq.data
  let referalsAction := getReferalsActionFromCallbackData cq.data
  let countriesAction := getCountriesActionFromCallbackData cq.data
  let howToAction := getHowToActionFromCallbackData cq.data
  let callbackChatId := cq.message.map fun m => m.chatId
  let callbackMessageId := cq.message.bind fun m => m.message_id
  let callbackChatType := cq.message.bind fun m => m.chatType
  let ownershipMismatch : Bool :=
    match callbackChatId with
    | some cid => callbackChatType = some "private" && cq.fromId ≠ cid
    | none => false
  if ownershipMismatch then
    .ok ({ resp200 with callbackHandled := some false
                        reason := some "Callback ownership mismatch." }, [], env.store)
  else
  let ans := Effect.answerCallback cq.id
  if menuKey = none ∧ purchaseAction = none ∧ faqAction = none ∧ referalsAction = none ∧
      countriesAction = none ∧ howToAction = none then
    .ok ({ resp200 with callbackHandled := some false }, [ans], env.store)
  else
  match callbackChatId with
  | none =>
    .ok ({ resp200 with callbackHandled := some false
                        reason := some "Callback chat is missing." }, [ans], env.store)
  | some chatId =>
  match purchaseAction with
  | some .openPay =>
    .ok ({ resp200 with callbackHandled := some true, sent := some env.sendOk },
      [ans, .send chatId .paymentMethods env.sendOk], env.store)
  | some (.method m) =>
    if m = "tg_stars" then
      if env.pricesDbFails then
        .ok ({ resp200 with callbackHandled := some true, sent := some env.sendOk },
          [ans, .send chatId .starsPlansLoadFailed env.sendOk], env.store)
      else if env.prices.isEmpty then
        .ok ({ resp200 with callbackHandled := some true, sent := some env.sendOk },
          [ans, .send chatId .starsPlansEmpty env.sendOk], env.store)
      else
        .ok ({ resp200 with callbackHandled := some true, sent := some env.sendOk },
          [ans, .send chatId .starsPlans env.sendOk], env.store)
    else
      .ok ({ resp200 with callbackHandled := some true, sent := some env.sendOk },
        [ans, .send chatId .tbdMethod env.sendOk], env.store)
  | some (.plan months) =>
    (match (if env.pricesDbFails then .error "PRICES_DB_FAILURE"
        else getSubscriptionPriceByMonths env.prices months) with
    | .error _ =>
      .ok ({ resp200 with callbackHandled := some true, invoiceSent := some false },
        [ans, .send chatId .planLoadFailed env.sendOk], env.store)
    | .ok none =>
      .ok ({ resp200 with callbackHandled := some true, invoiceSent := some false },
        [ans, .send chatId .planMissing env.sendOk], env.store)
    | .ok (some _) =>
      .ok ({ resp200 with callbackHandled := some true, invoiceSent := some env.sendOk },
        [ans, .send chatId .starsInvoice env.sendOk], env.store))
  | none =>
  if menuKey = some .faq then
    .ok ({ resp200 with callbackHandled := some true, sent := some env.sendOk },
      [ans, .send chatId .faqMenu env.sendOk], env.store)
  else
  match faqAction with
  | some _ =>
    .ok ({ resp200 with callbackHandled := some true, sent := some env.sendOk },
      [ans, .send chatId .faqAnswer env.sendOk], env.store)
  | none =>
  if menuKey = some .referals then
    if env.usersDbFails then
      .ok ({ resp200 with callbackHandled := some true, sent := some false },
        [ans], env.store)
    else
      match getTelegramUserByTgId env.store (jsStringOfNat cq.fromId) with
      | .error _ =>
        .ok ({ resp200 with callbackHandled := some true, sent := some false },
          [ans], env.store)
      | .ok none =>
        .ok ({ resp200 with callbackHandled := some true, sent := some env.sendOk },
          [ans, .send chatId .referralProfileMissing env.sendOk], env.store)
      | .ok (some _) =>
        .ok ({ resp200 with callbackHandled := some true, sent := some env.sendOk },
          [ans, .send chatId .referralProgram env.sendOk], env.store)
  else
  match referalsAction with
  | some .prolong =>
    if env.usersDbFails then
      .ok ({ resp200 with callbackHandled := some true, sent := some false },
        [ans], env.store)
    else
      (match getTelegramUserByTgId env.store (jsStringOfNat cq.fromId) with
      | .error _ =>
        .ok ({ resp200 with callbackHandled := some true, sent := some false },
          [ans], env.store)
      | .ok none =>
        .ok ({ resp200 with callbackHandled := some true, sent := some env.sendOk },
          [ans, .send chatId .prolongProfileMissing env.sendOk], env.store)
      | .ok (some telegramUser) =>
        if env.pricesDbFails then
          .ok ({ resp200 with callbackHandled := some true, sent := some false },
            [ans], env.store)
        else
          let affordablePrices := (listSubscriptionPrices env.prices).filter
            fun price => price.usdt ≤ telegramUser.earned_money
          if affordablePrices.isEmpty then
            .ok ({ resp200 with callbackHandled := some true, sent := some env.sendOk },
              [ans, .send chatId .prolongInsufficient env.sendOk], env.store)
          else
            .ok ({ resp200 with callbackHandled := some true, sent := some env.sendOk },
              [ans, .send chatId .prolongOptions env.sendOk], env.store))
  | some (.balance_plan months) =>
    (match (if env.pricesDbFails then .error "PRICES_DB_FAILURE"
        else getSubscriptionPriceByMonths env.prices months) with
    | .error _ =>
      .ok ({ resp200 with callbackHandled := some true, sent := some env.sendOk },
        [ans, .send chatId .prolongChargeFailed env.sendOk], env.store)
    | .ok none =>
      .ok ({ resp200 with callbackHandled := some true, sent := some env.sendOk },
        [ans, .send chatId .prolongPlanMissing env.sendOk], env.store)
    | .ok (some selectedPrice) =>
      match (if env.usersDbFails then .error "USERS_DB_FAILURE"
          else activateTelegramSubscriptionFromBalance env.today env.store
            (jsStringOfNat cq.fromId) none months selectedPrice.usdt) with
      | .error e =>
        if containsSub "INSUFFICIENT_REFERRAL_BALANCE".data e.data then
          .ok ({ resp200 with callbackHandled := some true, sent := some env.sendOk },
            [ans, .send chatId .prolongChargeInsufficient env.sendOk], env.store)
        else
          .ok ({ resp200 with callbackHandled := some true, sent := some env.sendOk },
            [ans, .send chatId .prolongChargeFailed env.sendOk], env.store)
      | .ok (updatedUser, st1) =>
        let st2 :=
          match (if env.usersDbFails then .error "USERS_DB_FAILURE"
              else applyReferralRewardForPurchase st1 (jsStringOfNat cq.fromId)
                updatedUser.tg_nickname selectedPrice.usdt) with
          | .ok p => p.2
          | .error _ => st1
        .ok ({ resp200 with callbackHandled := some true, sent := some env.sendOk },
          [ans, .send chatId .prolongSuccess env.sendOk], st2))
  | none =>
  if menuKey = some .how_to_use then
    .ok ({ resp200 with callbackHandled := some true, sent := some env.sendOk },
      [ans, .send chatId .howToMenu env.sendOk], env.store)
  else
  match howToAction with
  | some _ =>
    .ok ({ resp200 with callbackHandled := some true, sent := some env.sendOk },
      [ans, .send chatId .howToGuide env.sendOk], env.store)
  | none =>
  if menuKey = some .countries then
    if env.usersDbFails then
      .ok ({ resp200 with callbackHandled := some true, sent := some false },
        [ans], env.store)
    else
      (match getTelegramUserByTgId env.store (jsStringOfNat cq.fromId) with
      | .error _ =>
        .ok ({ resp200 with callbackHandled := some true, sent := some false },
          [ans], env.store)
      | .ok telegramUser =>
        let hasServersAccess : Bool :=
          match telegramUser with
          | some u => hasAccessToServers u.subscription_status u.subscription_active
          | none => false
        if !hasServersAccess then
          .ok ({ resp200 with callbackHandled := some true, sent := some env.sendOk },
            [ans, .send chatId .subscriptionRequired env.sendOk], env.store)
        else if env.vpsDbFails then
          .ok ({ resp200 with callbackHandled := some true, sent := some false },
            [ans], env.store)
        else if env.vpsCountries.isEmpty then
          .ok ({ resp200 with callbackHandled := some true, sent := some env.sendOk },
            [ans, .send chatId .countriesEmpty env.sendOk], env.store)
        else
          .ok ({ resp200 with callbackHandled := some true, sent := some env.sendOk },
            [ans, .send chatId .countriesList env.sendOk], env.store))
  else
  match countriesAction with
  | some ca => do
    -- the one store read of the callback section that no try/catch guards
    let telegramUser ← (if env.usersDbFails then .error "USERS_DB_FAILURE"
      else getTelegramUserByTgId env.store (jsStringOfNat cq.fromId))
    let hasServersAccess : Bool :=
      match telegramUser with
      | some u => hasAccessToServers u.subscription_status u.subscription_active
      | none => false
    if !hasServersAccess then
      .ok ({ resp200 with callbackHandled := some true, sent := some env.sendOk },
        [ans, .send chatId .subscriptionRequired env.sendOk], env.store)
    else
      match ca with
      | .country c =>
        if env.vpsDbFails then
          .ok ({ resp200 with callbackHandled := some true, sent := some false },
            [ans], env.store)
        else if (env.vpsByCountry c).isEmpty then
          .ok ({ resp200 with callbackHandled := some true, sent := some env.sendOk },
            [ans, .send chatId .vpsListEmpty env.sendOk], env.store)
        else
          .ok ({ resp200 with callbackHandled := some true, sent := some env.sendOk },
            [ans, .send chatId .vpsList env.sendOk], env.store)
      | .vps internalUuid =>
        if env.vpsDbFails then
          .ok ({ resp200 with callbackHandled := some true, sent := some false },
            [ans], env.store)
        else
          match env.vpsConfigs internalUuid with
          | none =>
            .ok ({ resp200 with callbackHandled := some true, sent := some env.sendOk },
              [ans, .send chatId .vpsConfigNotFound env.sendOk], env.store)
          | some vpsConfig =>
            if vpsConfig.configList.isEmpty then
              .ok ({ resp200 with callbackHandled := some true, sent := some env.sendOk },
                [ans, .send chatId .vpsConfigEmpty env.sendOk], env.store)
            else
              .ok ({ resp200 with callbackHandled := some true, sent := some env.sendOk },
                [ans, .send chatId .vpsConfigIntro env.sendOk] ++
                  vpsConfig.configList.map (fun _ => .send chatId .vpsConfigUrl env.sendOk),
                env.store)
  | none =>
  if menuKey = some .subscription_status then
    if env.usersDbFails then
      .ok ({ resp200 with callbackHandled := some true, sent := some false },
        [ans], env.store)
    else
      (match getTelegramUserByTgId env.store (jsStringOfNat cq.fromId) with
      | .error _ =>
        .ok ({ resp200 with callbackHandled := some true, sent := some false },
          [ans], env.store)
      | .ok _ =>
        .ok ({ resp200 with callbackHandled := some true, sent := some env.sendOk },
          [ans, .send chatId .subscriptionStatus env.sendOk], env.store))
  else
  match callbackMessageId with
  | none => .ok ({ resp200 with callbackHandled := some false }, [ans], env.store)
  | some _ =>
  if menuKey = none then
    .ok ({ resp200 with callbackHandled := some false }, [ans], env.store)
  else
    .ok ({ resp200 with callbackHandled := some true, edited := some env.sendOk },
      [ans, .send chatId .menuEdit env.sendOk], env.store)

/-- The message branch (controller lines 1157-1442). -/
def handleMessage (env : WebhookEnv) (message : TgMessage) : WebhookResult :=
  match message.successful_payment with
  | some successfulPayment =>
    (match message.fromUser with
    | none =>
      .ok ({ resp200 with processed := false
                          reason := some "Payment update is missing sender." }, [], env.store)
    | some frm =>
      match parseSubscriptionInvoicePayload successfulPayment.invoice_payload with
      | none =>
        .ok ({ resp200 with paymentApplied := some false },
          [.send message.chatId .invalidPayment env.sendOk], env.store)
      | some paymentPayload =>
        let validatedPrice : Option SubscriptionPrice :=
          if successfulPayment.currency = "XTR" ∧
              paymentPayload.tgId = jsStringOfNat frm.id then
            if env.pricesDbFails then none
            else
              match getSubscriptionPriceByMonths env.prices paymentPayload.months with
              | .error _ => none
              | .ok none => none
              | .ok (some expectedPrice) =>
                if successfulPayment.total_amount = expectedPrice.stars then
                  some expectedPrice
                else none
          else none
        match validatedPrice with
        | none =>
          .ok ({ resp200 with paymentApplied := some false },
            [.send message.chatId .invalidPayment env.sendOk], env.store)
        | some price =>
          match (if env.usersDbFails then .error "USERS_DB_FAILURE"
              else activateTelegramSubscription env.today env.store
                (jsStringOfNat frm.id) frm.username paymentPayload.months) with
          | .error _ =>
            .ok ({ resp200 with paymentApplied := some false }, [], env.store)
          | .ok (_, st1) =>
            let st2 :=
              match (if env.usersDbFails then .error "USERS_DB_FAILURE"
                  else applyReferralRewardForPurchase st1 (jsStringOfNat frm.id)
                    frm.username price.usdt) with
              | .ok p => p.2
              | .error _ => st1
            .ok ({ resp200 with paymentApplied := some true },
              [.send message.chatId .paymentSuccess env.sendOk], st2))
  | none =>
  if message.chatType ≠ none ∧ message.chatType ≠ some "private" then
    .ok ({ resp200 with processed := false
                        reason := some "Only private chat commands are handled." }, [], env.store)
  else
  let senderMismatch : Bool :=
    match message.fromUser with
    | some f => f.id ≠ message.chatId
    | none => false
  if senderMismatch then
    .ok ({ resp200 with processed := false
                        reason := some "Sender/chat mismatch detected." }, [], env.store)
  else
  let parsedCommand := getTelegramCommand message.text env.botUsername
  if parsedCommand.isSuspicious then
    .ok ({ resp200 with processed := false, blocked := some true
                        reason := some (parsedCommand.reason.getD "Blocked by security policy.") },
      [], env.store)
  else
  let command := parsedCommand.command
  let startReferralArgument :=
    if command = some "/start" then parsedCommand.argument else none
  if ¬(command = some "/start" ∨ command = some "/menu" ∨ command = some "/clear") then
    .ok ({ resp200 with processed := false
                        reason := some "Command is not handled." }, [], env.store)
  else
  if command = some "/clear" then
    .ok ({ resp200 with command := command, historyCleared := some true },
      [.clearHistory message.chatId (message.message_id.getD 1)], env.store)
  else
  match message.fromUser with
  | none =>
    .ok ({ resp200 with processed := false
                        reason := some "Telegram user context is missing." }, [], env.store)
  | some frm =>
    let referredBy : Option TelegramReferredBy :=
      match startReferralArgument with
      | none => none
      | some arg =>
        let referredByTgId : String :=
          ⟨if startsWithChars "ref_" arg.data then arg.data.drop 4 else arg.data⟩
        if referredByTgId ≠ jsStringOfNat frm.id then
          if env.usersDbFails then none
          else
            match getTelegramUserByTgId env.store referredByTgId with
            | .ok (some referrerUser) =>
              some { tgId := referrerUser.tg_id
                     tgNickname := referrerUser.tg_nickname
                     referDate := formatDateOnly env.today }
            | _ => none
        else none
    match (if env.usersDbFails then .error "USERS_DB_FAILURE"
        else ensureTelegramUser env.today env.store
          { tgId := jsStringOfNat frm.id, tgNickname := frm.username
            referredBy := referredBy }) with
    | .error _ =>
      .ok ({ resp200 with processed := false
                          reason := some "Failed to sync user profile." }, [], env.store)
    | .ok (_, st1) =>
      .ok ({ resp200 with command := command, sent := some env.sendOk },
        [.send message.chatId .mainMenu env.sendOk], st1)

/-- handleTelegramMenuWebhook: dispatch on the update shape in source order. -/
def handleTelegramMenuWebhook (env : WebhookEnv) (update : TelegramUpdate) :
    WebhookResult :=
  match update.pre_checkout_query with
  | some preCheckoutQuery => handlePreCheckout env preCheckoutQuery
  | none =>
  match update.callback_query with
  | some callbackQuery => handleCallbackQuery env callbackQuery
  | none =>
  match jsCoalesceT update.message update.edited_message with
  | none =>
    .ok ({ resp200 with processed := false
                        reason := some "No message in update." }, [], env.store)
  | some message => handleMessage env message

/-! ### Always-answer policy (C6) -/

/-- Whether a webhook run answered the HTTP request with 200 and ok:true. -/
def respondsOk200 (r : WebhookResult) : Bool :=
  match r with
  | .ok (resp, _, _) => resp.status = 200 && resp.ok
  | .error _ => false

/-- The uncaught exception of a webhook run, if it threw. -/
def webhookErrored : WebhookResult → Option String
  | .error e => some e
  | .ok _ => none

/-- A user with server access for exercising the countries branches. -/
def c6User : TelegramUserRecord :=
  { tg_nickname := some "n"
    tg_id := "77"
    subscription_active := true
    subscription_status := some .ending
    subscription_untill := none
    traffic_consumed_mb := 0
    number_of_connections := 0
    number_of_connections_last_month := 0
    number_of_referals := 0
    earned_money := 0
    refferals_data := []
    reffered_by := none
    gifts := [] }

def c6Message : TgMessage :=
  { message_id := some 5
    chatId := 77
    chatType := some "private"
    fromUser := none
    text := none
    successful_payment := none }

/-- callback_query asking for the configs of a server (countriesAction). -/
def c6VpsUpdate : TelegramUpdate :=
  { callback_query := some
      { id := "cb"
        data := some "countries:vps:123e4567-e89b-12d3-a456-426614174000"
        fromId := 77
        message := some c6Message } }

/-- callback_query opening the countries menu (the try-wrapped twin branch). -/
def c6MenuUpdate : TelegramUpdate :=
  { callback_query := some
      { id := "cb"
        data := some "menu:countries"
        fromId := 77
        message := some c6Message } }

/-- Environment whose users table read throws. -/
def c6Env : WebhookEnv :=
  { today := ⟨2024, 1, 10⟩
    store := [c6User]
    prices := []
    vpsCountries := []
    vpsByCountry := fun _ => []
    vpsConfigs := fun _ => some ⟨["u1"]⟩
    usersDbFails := true
    pricesDbFails := false
    vpsDbFails := false
    sendOk := true
    botUsername := none }

/-- C6: the always-answer policy is broken. On a countriesAction callback the
user lookup at controller line 888 is not wrapped in try/catch, so a users
table failure escapes the handler and no 200 response is sent — while the
same failure in the twin menu-countries branch, and the same callback with a
healthy table, are answered with 200 ok:true. -/
theorem countriesAction_unguarded_read_breaks_200 :
    webhookErrored (handleTelegramMenuWebhook c6Env c6VpsUpdate) =
      some "USERS_DB_FAILURE" ∧
    respondsOk200 (handleTelegramMenuWebhook c6Env c6MenuUpdate) = true ∧
    respondsOk200 (handleTelegramMenuWebhook
      { c6Env with usersDbFails := false } c6VpsUpdate) = true := by
  refine ⟨by decide, by decide, by decide⟩

/-! ### Pre-checkout validation (C3) -/

/-- C3: the pre-checkout answer accepts exactly when the payload parses, the
currency is XTR, the payload's payer equals the query sender, and the charged
star amount equals the star price currently stored in the catalog for the
payload's month count; any other constellation — including a price the
catalog no longer lists — is rejected. The client-embedded amount never
prices the purchase: acceptance is keyed on the catalog row alone. -/
theorem preCheckout_decision (env : WebhookEnv) (q : PreCheckoutQuery)
    (hdb : env.pricesDbFails = false) :
    ∃ accept,
      handleTelegramMenuWebhook env { pre_checkout_query := some q } =
        .ok ({ resp200 with preCheckoutValidated := some accept },
          [.answerPreCheckout q.id accept], env.store) ∧
      (accept = true ↔ ∃ p price,
        parseSubscriptionInvoicePayload q.invoice_payload = some p ∧
        q.currency = "XTR" ∧ p.tgId = jsStringOfNat q.fromId ∧
        env.prices.filter (fun pr => pr.months = p.months) = [price] ∧
        q.total_amount = price.stars) := by
  have hred : handleTelegramMenuWebhook env { pre_checkout_query := some q } =
      handlePreCheckout env q := rfl
  rw [hred]
  unfold handlePreCheckout
  refine ⟨_, rfl, ?_⟩
  constructor
  · intro h
    match hp : parseSubscriptionInvoicePayload q.invoice_payload with
    | none => rw [hp] at h; simp at h
    | some p =>
      simp only [hp] at h
      by_cases hc : q.currency = "XTR" ∧ p.tgId = jsStringOfNat q.fromId
      · rw [if_pos hc, hdb] at h
        rw [if_neg (by simp)] at h
        unfold getSubscriptionPriceByMonths at h
        match hfil : env.prices.filter (fun pr => pr.months = p.months) with
        | [] => rw [hfil] at h; simp [maybeSingle] at h
        | [price] =>
          rw [hfil] at h
          simp only [maybeSingle] at h
          exact ⟨p, price, rfl, hc.1, hc.2, hfil, of_decide_eq_true h⟩
        | a :: b :: t => rw [hfil] at h; simp [maybeSingle] at h
      · rw [if_neg hc] at h; simp at h
  · rintro ⟨p, price, hp, hcur, hid, hfil, htot⟩
    simp only [hp]
    rw [if_pos ⟨hcur, hid⟩, hdb]
    rw [if_neg (by simp)]
    unfold getSubscriptionPriceByMonths
    rw [hfil]
    simp [maybeSingle, htot]

def c3Env : WebhookEnv :=
  { today := ⟨2024, 1, 10⟩
    store := []
    prices := [{ months := 1, stars := 100, usdt := 157 / 100, rubles := 500 }]
    vpsCountries := []
    vpsByCountry := fun _ => []
    vpsConfigs := fun _ => none
    usersDbFails := false
    pricesDbFails := false
    vpsDbFails := false
    sendOk := true
    botUsername := none }

def c3Query : PreCheckoutQuery :=
  { id := "pcq"
    fromId := 5
    currency := "XTR"
    total_amount := 100
    invoice_payload := buildSubscriptionInvoicePayload 5 1 }

/-- Witness: the decision theorem evaluated on a one-row catalog. -/
theorem preCheckout_decision_witness :
    ∃ accept,
      handleTelegramMenuWebhook c3Env { pre_checkout_query := some c3Query } =
        .ok ({ resp200 with preCheckoutValidated := some accept },
          [.answerPreCheckout "pcq" accept], c3Env.store) ∧
      (accept = true ↔ ∃ p price,
        parseSubscriptionInvoicePayload c3Query.invoice_payload = some p ∧
        c3Query.currency = "XTR" ∧ p.tgId = jsStringOfNat c3Query.fromId ∧
        c3Env.prices.filter (fun pr => pr.months = p.months) = [price] ∧
        c3Query.total_amount = price.stars) :=
  preCheckout_decision c3Env c3Query rfl

/-! ### Server-access gate (C10) -/

/-- Whether the webhook's countries branches grant server access for the read
user row: the record exists and hasAccessToServers holds of it. -/

def serverAccessOf : Option TelegramUserRecord → Bool
  | some u => hasAccessToServers u.subscription_status u.subscription_active
  | none => false

def c10Message : TgMessage :=
  { message_id := some 5
    chatId := 77
    chatType := some "private"
    fromUser := none
    text := none
    successful_payment := none }

def c10MenuUpdate : TelegramUpdate :=
  { callback_query := some
      { id := "cb", data := some "menu:countries", fromId := 77, message := some c10Message } }

def c10VpsUpdate : TelegramUpdate :=
  { callback_query := some
      { id := "cb", data := some "countries:vps:123e4567-e89b-12d3-a456-426614174000"
        fromId := 77, message := some c10Message } }

/-- C10: with healthy users and VPS stores, the countries menu and the server
config callbacks are gated exactly by serverAccessOf: a stored record whose
active flag is set or whose phase is live or ending gets the countries list
and the config messages, while a missing record, or one with a cleared flag
and no phase, is sent the subscription-required message instead. -/
theorem serverAccess_gate (env : WebhookEnv) (userOpt : Option TelegramUserRecord)
    (husers : env.usersDbFails = false) (hvps : env.vpsDbFails = false)
    (hstore : dbFilterByTgId env.store "77" = userOpt.toList) :
    (handleTelegramMenuWebhook env c10MenuUpdate =
      .ok ({ resp200 with callbackHandled := some true, sent := some env.sendOk },
        [.answerCallback "cb",
         .send 77 (if serverAccessOf userOpt then
             (if env.vpsCountries.isEmpty then .countriesEmpty else .countriesList)
           else .subscriptionRequired) env.sendOk],
        env.store)) ∧
    (handleTelegramMenuWebhook env c10VpsUpdate =
      .ok ({ resp200 with callbackHandled := some true, sent := some env.sendOk },
        .answerCallback "cb" ::
          (if serverAccessOf userOpt then
            (match env.vpsConfigs "123e4567-e89b-12d3-a456-426614174000" with
             | none => [.send 77 .vpsConfigNotFound env.sendOk]
             | some cfg =>
               if cfg.configList.isEmpty then [.send 77 .vpsConfigEmpty env.sendOk]
               else .send 77 .vpsConfigIntro env.sendOk ::
                 cfg.configList.map fun _ => .send 77 .vpsConfigUrl env.sendOk)
           else [.send 77 .subscriptionRequired env.sendOk]),
        env.store)) := by
  have hget : getTelegramUserByTgId env.store "77" = .ok userOpt := by
    unfold getTelegramUserByTgId
    cases userOpt with
    | none => rw [hstore]; rfl
    | some u => rw [hstore]; rfl
  have h77 : jsStringOfNat 77 = "77" := by decide
  constructor
  · rw [show handleTelegramMenuWebhook env c10MenuUpdate = handleCallbackQuery env
      { id := "cb", data := some "menu:countries", fromId := 77,
        message := some c10Message } from rfl]
    unfold handleCallbackQuery
    simp only [show getMenuKeyFromCallbackData (some "menu:countries") =
        some TelegramMenuKey.countries from by decide,
      show getPurchaseActionFromCallbackData (some "menu:countries") = none from by decide,
      show getFaqActionFromCallbackData (some "menu:countries") = none from by decide,
      show getReferalsActionFromCallbackData (some "menu:countries") = none from by decide,
      show getCountriesActionFromCallbackData (some "menu:countries") = none from by decide,
      show getHowToActionFromCallbackData (some "menu:countries") = none from by decide,
      c10Message, h77, husers, hvps, hget]
    cases userOpt with
    | none => simp [serverAccessOf]
    | some u =>
      simp only [serverAccessOf]
      by_cases hacc : hasAccessToServers u.subscription_status u.subscription_active
      · simp [hacc]
        split <;> rfl
      · simp [hacc]
  · rw [show handleTelegramMenuWebhook env c10VpsUpdate = handleCallbackQuery env
      { id := "cb", data := some "countries:vps:123e4567-e89b-12d3-a456-426614174000",
        fromId := 77, message := some c10Message } from rfl]
    unfold handleCallbackQuery
    simp only [show getMenuKeyFromCallbackData
        (some "countries:vps:123e4567-e89b-12d3-a456-426614174000") = none from by decide,
      show getPurchaseActionFromCallbackData
        (some "countries:vps:123e4567-e89b-12d3-a456-426614174000") = none from by decide,
      show getFaqActionFromCallbackData
        (some "countries:vps:123e4567-e89b-12d3-a456-426614174000") = none from by decide,
      show getReferalsActionFromCallbackData
        (some "countries:vps:123e4567-e89b-12d3-a456-426614174000") = none from by decide,
      show getCountriesActionFromCallbackData
        (some "countries:vps:123e4567-e89b-12d3-a456-426614174000") =
        some (CountriesAction.vps "123e4567-e89b-12d3-a456-426614174000") from by decide,
      show getHowToActionFromCallbackData
        (some "countries:vps:123e4567-e89b-12d3-a456-426614174000") = none from by decide,
      c10Message, h77, husers, hvps, hget]
    cases userOpt with
    | none => simp [serverAccessOf, bind, Except.bind]
    | some u =>
      simp only [serverAccessOf, bind, Except.bind]
      by_cases hacc : hasAccessToServers u.subscription_status u.subscription_active
      · simp [hacc]
        cases env.vpsConfigs "123e4567-e89b-12d3-a456-426614174000" with
        | none => rfl
        | some cfg =>
          by_cases hc : cfg.configList = [] <;> simp [hc]
      · simp [hacc]


def c10TrialUser : TelegramUserRecord :=
  { tg_nickname := some "t"
    tg_id := "77"
    subscription_active := false
    subscription_status := some .ending
    subscription_untill := none
    traffic_consumed_mb := 0
    number_of_connections := 0
    number_of_connections_last_month := 0
    number_of_referals := 0
    earned_money := 0
    refferals_data := []
    reffered_by := none
    gifts := [] }

def c10Env : WebhookEnv :=
  { today := ⟨2024, 1, 10⟩
    store := [c10TrialUser]
    prices := []
    vpsCountries := [{ country := "NL", countryEmoji := "x" }]
    vpsByCountry := fun _ => []
    vpsConfigs := fun _ => some { configList := ["u1"] }
    usersDbFails := false
    pricesDbFails := false
    vpsDbFails := false
    sendOk := true
    botUsername := none }

/-- Witness: a trial-phase (ending) user with the active flag cleared still
passes the gate: the countries list and the config messages are sent. -/
theorem serverAccess_gate_witness :
    (handleTelegramMenuWebhook c10Env c10MenuUpdate =
      .ok ({ resp200 with callbackHandled := some true, sent := some c10Env.sendOk },
        [.answerCallback "cb",
         .send 77 (if serverAccessOf (some c10TrialUser) then
             (if c10Env.vpsCountries.isEmpty then .countriesEmpty else .countriesList)
           else .subscriptionRequired) c10Env.sendOk],
        c10Env.store)) ∧
    (handleTelegramMenuWebhook c10Env c10VpsUpdate =
      .ok ({ resp200 with callbackHandled := some true, sent := some c10Env.sendOk },
        .answerCallback "cb" ::
          (if serverAccessOf (some c10TrialUser) then
            (match c10Env.vpsConfigs "123e4567-e89b-12d3-a456-426614174000" with
             | none => [.send 77 .vpsConfigNotFound c10Env.sendOk]
             | some cfg =>
               if cfg.configList.isEmpty then [.send 77 .vpsConfigEmpty c10Env.sendOk]
               else .send 77 .vpsConfigIntro c10Env.sendOk ::
                 cfg.configList.map fun _ => .send 77 .vpsConfigUrl c10Env.sendOk)
           else [.send 77 .subscriptionRequired c10Env.sendOk]),
        c10Env.store)) :=
  serverAccess_gate c10Env (some c10TrialUser) rfl rfl (by decide)


/-- The webhook update Telegram delivers after a successful Stars payment. -/
def paymentUpdate (frm : TgUser) (chatId : Nat) (months stars : Nat) : TelegramUpdate :=
  { message := some
      { message_id := some 1
        chatId := chatId
        chatType := some "private"
        fromUser := some frm
        text := none
        successful_payment := some
          { currency := "XTR"
            total_amount := stars
            invoice_payload := buildSubscriptionInvoicePayload frm.id months } } }

/-- A valid successful payment runs the activation and then the referral
reward, swallowing a reward failure, and answers paymentApplied: true. -/
theorem payment_branch_ok {env : WebhookEnv} {frm : TgUser} {chatId months : Nat}
    {price : SubscriptionPrice} {uu : TelegramUserRecord} {st1 : Store}
    (hud : env.usersDbFails = false) (hpd : env.pricesDbFails = false)
    (hfrm1 : 0 < frm.id) (hfrm2 : frm.id < 10 ^ 20) (hm : 0 < months)
    (hfil : env.prices.filter (fun pr => pr.months = months) = [price])
    (hact : activateTelegramSubscription env.today env.store (jsStringOfNat frm.id)
      frm.username months = .ok (uu, st1)) :
    handleTelegramMenuWebhook env (paymentUpdate frm chatId months price.stars) =
      .ok ({ resp200 with paymentApplied := some true },
        [.send chatId .paymentSuccess env.sendOk],
        match applyReferralRewardForPurchase st1 (jsStringOfNat frm.id) frm.username
            price.usdt with
        | .ok p => p.2
        | .error _ => st1) := by
  have hid : jsStringOfInt (frm.id : Int) = jsStringOfNat frm.id := by
    unfold jsStringOfInt jsStringOfNat
    rw [intChars_of_pos (by exact_mod_cast hfrm1)]
    simp
  have hparse : parseSubscriptionInvoicePayload (buildSubscriptionInvoicePayload frm.id months) =
      some (.subscription months (jsStringOfNat frm.id)) := by
    rw [parse_build_subscription (frm.id : Int) months (by exact_mod_cast hfrm1)
      (by exact_mod_cast hfrm2) hm, hid]
  rw [show handleTelegramMenuWebhook env (paymentUpdate frm chatId months price.stars) =
    handleMessage env
      { message_id := some 1
        chatId := chatId
        chatType := some "private"
        fromUser := some frm
        text := none
        successful_payment := some
          { currency := "XTR"
            total_amount := price.stars
            invoice_payload := buildSubscriptionInvoicePayload frm.id months } } from rfl]
  unfold handleMessage
  simp only [hparse, SubscriptionInvoicePayload.months, SubscriptionInvoicePayload.tgId]
  rw [if_pos (show True ∧ True from ⟨trivial, trivial⟩)]
  simp only [hpd, Bool.false_eq_true, if_false]
  unfold getSubscriptionPriceByMonths
  rw [hfil]
  simp only [maybeSingle]
  rw [if_pos trivial]
  simp only [hud, Bool.false_eq_true, if_false, hact]
  try rfl

theorem refreshNickname_none (u : TelegramUserRecord) : refreshNickname u none = u := by
  simp [refreshNickname]

/-- The row activateTelegramSubscription writes: phase live, active, new expiry. -/
def activatedRow (u : TelegramUserRecord) (untill : String) : TelegramUserRecord :=
  { u with
    subscription_active := true
    subscription_status := some SubStatus.live
    subscription_untill := some untill }

theorem addMonths_year_ge (d : CivilDate) (n : Nat) : d.year ≤ (addMonths d n).year := by
  unfold addMonths nextMonth
  dsimp only
  split
  · show d.year ≤ d.year + (d.month - 1 + n) / 12
    omega
  · split
    · show d.year ≤ d.year + (d.month - 1 + n) / 12 + 1
      omega
    · show d.year ≤ d.year + (d.month - 1 + n) / 12
      omega

theorem addMonths_year_le (d : CivilDate) (hm2 : d.month ≤ 12) (n : Nat) :
    (addMonths d n).year ≤ d.year + (n + 23) / 12 := by
  have h1 : d.month - 1 + n ≤ 11 + n := by omega
  have h2 : (d.month - 1 + n) / 12 ≤ (11 + n) / 12 := Nat.div_le_div_right h1
  have h3 : (11 + n) / 12 + 1 = (n + 23) / 12 := by omega
  unfold addMonths nextMonth
  dsimp only
  split
  · show d.year + (d.month - 1 + n) / 12 ≤ _
    omega
  · split
    · show d.year + (d.month - 1 + n) / 12 + 1 ≤ _
      omega
    · show d.year + (d.month - 1 + n) / 12 ≤ _
      omega

/-- C2 (amended): redelivering the same successful-payment update is applied
again in full: the expiry is extended by another month block and the referral
reward is paid again (20% then 10%), so the state after two deliveries
differs from the state after one. -/
theorem paymentRedelivery_not_idempotent
    (env : WebhookEnv) (frm : TgUser) (chatId months : Nat)
    (price : SubscriptionPrice) (P R : TelegramUserRecord) (rb : TelegramReferredBy)
    (hud : env.usersDbFails = false) (hpd : env.pricesDbFails = false)
    (hfrm1 : 0 < frm.id) (hfrm2 : frm.id < 10 ^ 20) (hm : 0 < months)
    (hnick : frm.username = none)
    (hfil : env.prices.filter (fun pr => pr.months = months) = [price])
    (hwf : WfStore env.store)
    (hP : dbFilterByTgId env.store (jsStringOfNat frm.id) = [P])
    (hPuntill : P.subscription_untill = none)
    (hrb : P.reffered_by = some rb)
    (hne : ¬rb.tgId = P.tg_id)
    (hR : dbFilterByTgId env.store rb.tgId = [R])
    (hnew : ∀ e ∈ R.refferals_data, (decide (e.tgId = P.tg_id)) = false)
    (hcents : IsCents R.earned_money)
    (ha : ¬price.usdt ≤ 0)
    (h10 : roundUsd (price.usdt * (1 / 10)) ≠ 0)
    (hvd : ValidDate env.today)
    (hy1 : 1000 ≤ env.today.year)
    (hy2 : env.today.year + (months + 23) / 12 + (months + 23) / 12 ≤ 9999) :
    ∃ st1 st2,
      handleTelegramMenuWebhook env (paymentUpdate frm chatId months price.stars) =
        .ok ({ resp200 with paymentApplied := some true },
          [.send chatId .paymentSuccess env.sendOk], st1) ∧
      handleTelegramMenuWebhook { env with store := st1 }
          (paymentUpdate frm chatId months price.stars) =
        .ok ({ resp200 with paymentApplied := some true },
          [.send chatId .paymentSuccess env.sendOk], st2) ∧
      dbFilterByTgId st1 (jsStringOfNat frm.id) =
        [activatedRow P (formatDateOnly (addMonths env.today months))] ∧
      dbFilterByTgId st2 (jsStringOfNat frm.id) =
        [activatedRow (activatedRow P (formatDateOnly (addMonths env.today months)))
          (formatDateOnly (addMonths (addMonths env.today months) months))] ∧
      formatDateOnly (addMonths (addMonths env.today months) months) ≠
        formatDateOnly (addMonths env.today months) ∧
      dbFilterByTgId st1 rb.tgId = [rewardedReferrer R P none price.usdt 1] ∧
      dbFilterByTgId st2 rb.tgId = [rewardedReferrer R P none price.usdt 2] ∧
      (rewardedReferrer R P none price.usdt 2).earned_money ≠
        (rewardedReferrer R P none price.usdt 1).earned_money := by
  have hPid : P.tg_id = jsStringOfNat frm.id := tgId_of_filter_single hP
  have hnep : ¬rb.tgId = jsStringOfNat frm.id := by rw [← hPid]; exact hne
  have hv1 : ValidDate (addMonths env.today months) := addMonths_valid hvd months
  have hv2 : ValidDate (addMonths (addMonths env.today months) months) :=
    addMonths_valid hv1 months
  have hyA1 : 1000 ≤ (addMonths env.today months).year :=
    le_trans hy1 (addMonths_year_ge env.today months)
  have hyB1 : (addMonths env.today months).year ≤ 9999 := by
    have := addMonths_year_le env.today hvd.2.1 months
    omega
  have hyA2 : 1000 ≤ (addMonths (addMonths env.today months) months).year :=
    le_trans hyA1 (addMonths_year_ge _ months)
  have hyB2 : (addMonths (addMonths env.today months) months).year ≤ 9999 := by
    have hb := addMonths_year_le (addMonths env.today months) hv1.2.1 months
    have := addMonths_year_le env.today hvd.2.1 months
    omega
  have hparse1 : parseDateOnly (formatDateOnly (addMonths env.today months)) =
      some (addMonths env.today months) :=
    parseDateOnly_formatDateOnly hv1 hyA1 hyB1
  have hparse2 :
      parseDateOnly (formatDateOnly (addMonths (addMonths env.today months) months)) =
      some (addMonths (addMonths env.today months) months) :=
    parseDateOnly_formatDateOnly hv2 hyA2 hyB2
  obtain ⟨st1a, hact1, hwf1, hfil1, hother1⟩ :=
    @activateSubscription_ok env.today env.store (jsStringOfNat frm.id) frm.username
      months P hwf hP hm
  have hbase1 : subscriptionBaseDate env.today P = env.today :=
    subscriptionBaseDate_of_past (Or.inl (by
      unfold currentExpiryDate
      rw [hPuntill]))
  have hrefresh : refreshNickname P frm.username = P := by
    rw [hnick, refreshNickname_none]
  rw [hrefresh, hbase1] at hact1 hfil1
  have hR1 : dbFilterByTgId st1a rb.tgId = [R] := by
    rw [hother1 rb.tgId hnep]; exact hR
  have hstep1 := @applyReward_first st1a (jsStringOfNat frm.id) none price.usdt
    (activatedRow P (formatDateOnly (addMonths env.today months))) R rb
    ha hfil1 hrb hne hR1 hnew
  obtain ⟨hwfS1, hPS1, hRS1⟩ := reward_store_next
    (fun r =>
      { r with
        earned_money := roundUsd (R.earned_money + roundUsd (price.usdt * (1 / 5)))
        number_of_referals := R.refferals_data.length + 1
        refferals_data := R.refferals_data ++
          [rewardEntry (activatedRow P (formatDateOnly (addMonths env.today months)))
            none 1] })
    (fun r => rfl) hwf1 hfil1 hR1 hnep (rewardedReferrer_first hcents)
  have h0 := @payment_branch_ok env frm chatId months price _ _ hud hpd hfrm1 hfrm2 hm hfil hact1
  rw [hnick] at h0
  simp only [hstep1] at h0
  obtain ⟨st2a, hact2, hwf2, hfil2, hother2⟩ :=
    @activateSubscription_ok env.today _ (jsStringOfNat frm.id) frm.username months
      (activatedRow P (formatDateOnly (addMonths env.today months))) hwfS1 hPS1 hm
  have hrefresh2 : refreshNickname
      (activatedRow P (formatDateOnly (addMonths env.today months))) frm.username =
      activatedRow P (formatDateOnly (addMonths env.today months)) := by
    rw [hnick, refreshNickname_none]
  have hcur1 : currentExpiryDate
      (activatedRow P (formatDateOnly (addMonths env.today months))) =
      some (addMonths env.today months) := by
    unfold currentExpiryDate
    exact hparse1
  have hbase2 : subscriptionBaseDate env.today
      (activatedRow P (formatDateOnly (addMonths env.today months))) =
      addMonths env.today months :=
    subscriptionBaseDate_of_future hcur1 (dayNumber_lt_addMonths hvd hm)
  rw [hrefresh2, hbase2] at hact2 hfil2
  have hR2 : dbFilterByTgId st2a rb.tgId =
      [rewardedReferrer R (activatedRow P (formatDateOnly (addMonths env.today months)))
        none price.usdt 1] := by
    rw [hother2 rb.tgId hnep]; exact hRS1
  have hstep2 := @applyReward_repeat st2a (jsStringOfNat frm.id) none price.usdt
    (activatedRow (activatedRow P (formatDateOnly (addMonths env.today months)))
      (formatDateOnly (addMonths (addMonths env.today months) months)))
    (rewardedReferrer R (activatedRow P (formatDateOnly (addMonths env.today months)))
      none price.usdt 1) rb
    R.refferals_data 1
    ha hfil2 hrb hne hR2 one_ne_zero hnew rfl
  obtain ⟨hwfS2, hPS2, hRS2⟩ := reward_store_next
    (fun r =>
      { r with
        earned_money := roundUsd
          ((rewardedReferrer R
              (activatedRow P (formatDateOnly (addMonths env.today months)))
              none price.usdt 1).earned_money + roundUsd (price.usdt * (1 / 10)))
        number_of_referals := R.refferals_data.length + 1
        refferals_data := R.refferals_data ++
          [rewardEntry (activatedRow
              (activatedRow P (formatDateOnly (addMonths env.today months)))
              (formatDateOnly (addMonths (addMonths env.today months) months)))
            none (1 + 1)] })
    (fun r => rfl) hwf2 hfil2 hR2 hnep
    (@rewardedReferrer_next R
      (activatedRow (activatedRow P (formatDateOnly (addMonths env.today months)))
        (formatDateOnly (addMonths (addMonths env.today months) months)))
      none price.usdt hcents 0)
  have h1 := @payment_branch_ok { env with store :=
      (dbUpdateWhere st1a (fun r => r.tg_id =
        (rewardedReferrer R (activatedRow P (formatDateOnly (addMonths env.today months)))
          none price.usdt 1).tg_id)
        (fun r =>
          { r with
            earned_money := roundUsd (R.earned_money + roundUsd (price.usdt * (1 / 5)))
            number_of_referals := R.refferals_data.length + 1
            refferals_data := R.refferals_data ++
              [rewardEntry (activatedRow P (formatDateOnly (addMonths env.today months)))
                none 1] })).1 }
    frm chatId months price _ _ hud hpd hfrm1 hfrm2 hm hfil hact2
  rw [hnick] at h1
  simp only [hstep2] at h1
  refine ⟨_, _, h0, h1, hPS1, hPS2, ?_, hRS1, hRS2, ?_⟩
  · intro heq
    rw [heq, hparse1] at hparse2
    have hdates := Option.some.inj hparse2
    have hlt := dayNumber_lt_addMonths hv1 hm
    rw [← hdates] at hlt
    exact lt_irrefl _ hlt
  · intro heq
    apply h10
    unfold rewardedReferrer at heq
    simp at heq
    linarith

/-- A payer with no expiry set, referred by user 20. -/
def c2Payer : TelegramUserRecord :=
  { tg_nickname := none
    tg_id := "10"
    subscription_active := true
    subscription_status := some .ending
    subscription_untill := none
    traffic_consumed_mb := 0
    number_of_connections := 0
    number_of_connections_last_month := 0
    number_of_referals := 0
    earned_money := 0
    refferals_data := []
    reffered_by := some { tgId := "20", tgNickname := none, referDate := "2024-01-01" }
    gifts := [] }

/-- The payer's referrer, with no rewards recorded yet. -/
def c2Referrer : TelegramUserRecord :=
  { tg_nickname := some "ref"
    tg_id := "20"
    subscription_active := false
    subscription_status := none
    subscription_untill := none
    traffic_consumed_mb := 0
    number_of_connections := 0
    number_of_connections_last_month := 0
    number_of_referals := 0
    earned_money := 0
    refferals_data := []
    reffered_by := none
    gifts := [] }

/-- A healthy environment holding the payer and the referrer. -/
def c2Env : WebhookEnv :=
  { today := ⟨2024, 1, 10⟩
    store := [c2Payer, c2Referrer]
    prices := [{ months := 1, stars := 100, usdt := 157 / 100, rubles := 500 }]
    vpsCountries := []
    vpsByCountry := fun _ => []
    vpsConfigs := fun _ => none
    usersDbFails := false
    pricesDbFails := false
    vpsDbFails := false
    sendOk := true
    botUsername := none }

/-- The successful-payment update for the payer's one-month purchase. -/
def c2Update : TelegramUpdate :=
  paymentUpdate { id := 10, username := none } 10 1 100

/-- The store after the first delivery of the payment update. -/
def c2Store1 : Store :=
  match handleTelegramMenuWebhook c2Env c2Update with
  | .ok (_, _, st) => st
  | .error _ => []

/-- The store after the second delivery of the same payment update. -/
def c2Store2 : Store :=
  match handleTelegramMenuWebhook { c2Env with store := c2Store1 } c2Update with
  | .ok (_, _, st) => st
  | .error _ => []

set_option maxRecDepth 1000000 in
/-- Processing the same payment update twice is observably different from
processing it once: the expiry moves a second month ahead, the referrer is
paid again and the purchase counter reaches 2. -/
theorem paymentRedelivery_counterexample :
    respondsOk200 (handleTelegramMenuWebhook c2Env c2Update) = true ∧
    respondsOk200 (handleTelegramMenuWebhook { c2Env with store := c2Store1 } c2Update) = true ∧
    (dbFilterByTgId c2Store1 "10").map (fun r => r.subscription_untill) =
      [some "2024-02-10"] ∧
    (dbFilterByTgId c2Store2 "10").map (fun r => r.subscription_untill) =
      [some "2024-03-10"] ∧
    (dbFilterByTgId c2Store1 "20").map (fun r => r.earned_money) = [31 / 100] ∧
    (dbFilterByTgId c2Store2 "20").map (fun r => r.earned_money) = [47 / 100] ∧
    (dbFilterByTgId c2Store1 "20").map
      (fun r => r.refferals_data.map fun e => e.numberOfPurchase) = [[1]] ∧
    (dbFilterByTgId c2Store2 "20").map
      (fun r => r.refferals_data.map fun e => e.numberOfPurchase) = [[2]] := by
  with_unfolding_all decide

/-- The amended C2 statement holds at the concrete two-user store. -/
theorem paymentRedelivery_not_idempotent_witness :
    ∃ st1 st2,
      handleTelegramMenuWebhook c2Env
          (paymentUpdate { id := 10, username := none } 10 1 100) =
        .ok ({ resp200 with paymentApplied := some true },
          [.send 10 .paymentSuccess true], st1) ∧
      handleTelegramMenuWebhook { c2Env with store := st1 }
          (paymentUpdate { id := 10, username := none } 10 1 100) =
        .ok ({ resp200 with paymentApplied := some true },
          [.send 10 .paymentSuccess true], st2) ∧
      dbFilterByTgId st1 (jsStringOfNat 10) =
        [activatedRow c2Payer (formatDateOnly (addMonths ⟨2024, 1, 10⟩ 1))] ∧
      dbFilterByTgId st2 (jsStringOfNat 10) =
        [activatedRow (activatedRow c2Payer (formatDateOnly (addMonths ⟨2024, 1, 10⟩ 1)))
          (formatDateOnly (addMonths (addMonths ⟨2024, 1, 10⟩ 1) 1))] ∧
      formatDateOnly (addMonths (addMonths ⟨2024, 1, 10⟩ 1) 1) ≠
        formatDateOnly (addMonths ⟨2024, 1, 10⟩ 1) ∧
      dbFilterByTgId st1 "20" = [rewardedReferrer c2Referrer c2Payer none (157 / 100) 1] ∧
      dbFilterByTgId st2 "20" = [rewardedReferrer c2Referrer c2Payer none (157 / 100) 2] ∧
      (rewardedReferrer c2Referrer c2Payer none (157 / 100) 2).earned_money ≠
        (rewardedReferrer c2Referrer c2Payer none (157 / 100) 1).earned_money :=
  paymentRedelivery_not_idempotent c2Env { id := 10, username := none } 10 1
    { months := 1, stars := 100, usdt := 157 / 100, rubles := 500 }
    c2Payer c2Referrer { tgId := "20", tgNickname := none, referDate := "2024-01-01" }
    rfl rfl (by decide) (by decide) (by decide) rfl rfl (by decide) rfl rfl rfl
    (by decide) rfl (by decide) ⟨0, by norm_num [c2Referrer]⟩ (by norm_num)
    (by norm_num [roundUsd, round_eq]) (by decide) (by decide) (by decide)


/-- The row the balance activation writes: activated, new expiry, debited. -/
def debitedRow (u : TelegramUserRecord) (untill : String) (newEarned : ℚ) :
    TelegramUserRecord :=
  { u with
    subscription_active := true
    subscription_status := some SubStatus.live
    subscription_untill := some untill
    earned_money := newEarned }

/-- C1 (amended): a single sequential call of
activateTelegramSubscriptionFromBalance on a stored user either succeeds,
debiting exactly the amount and extending the subscription in one store write,
or fails with INSUFFICIENT_REFERRAL_BALANCE leaving the caller with no
updated store; success happens exactly when the amount is covered by the
balance the call read. -/
theorem activateFromBalance_spec
    (today : CivilDate) (st : Store) (tgId : String) (nick : Option String)
    (months : Nat) (a : ℚ) (u : TelegramUserRecord)
    (hwf : WfStore st) (hu : dbFilterByTgId st tgId = [u]) (hm : 0 < months)
    (ha : 0 < a) (hcu : IsCents u.earned_money) (hca : IsCents a) :
    (a ≤ u.earned_money →
      ∃ st1, activateTelegramSubscriptionFromBalance today st tgId nick months a =
          .ok (debitedRow (refreshNickname u nick)
            (formatDateOnly (addMonths (subscriptionBaseDate today u) months))
            (u.earned_money - a), st1) ∧
        WfStore st1 ∧
        dbFilterByTgId st1 tgId = [debitedRow (refreshNickname u nick)
          (formatDateOnly (addMonths (subscriptionBaseDate today u) months))
          (u.earned_money - a)] ∧
        (∀ id2, id2 ≠ tgId → dbFilterByTgId st1 id2 = dbFilterByTgId st id2)) ∧
    (¬a ≤ u.earned_money →
      activateTelegramSubscriptionFromBalance today st tgId nick months a =
        .error "INSUFFICIENT_REFERRAL_BALANCE") := by
  obtain ⟨st1, hens, hwf1, hfil1, hother⟩ :=
    @ensure_existing today st tgId nick none u hwf hu
  have hid := tgId_of_filter_single hu
  have hE : (refreshNickname u nick).earned_money = u.earned_money :=
    (refreshNickname_fields u nick).2.2.2.2.1
  have hround : roundUsd (u.earned_money - a) = u.earned_money - a :=
    roundUsd_of_isCents (isCents_sub hcu hca)
  have hrid : (refreshNickname u nick).tg_id = tgId := by
    rw [(refreshNickname_fields u nick).1, hid]
  constructor
  · intro hle
    have hnn : ¬(u.earned_money - a < 0) := by
      apply not_lt.mpr
      linarith
    unfold activateTelegramSubscriptionFromBalance
    rw [if_neg (by omega), if_neg (not_le.mpr ha), hens]
    simp only [bind, Except.bind]
    rw [hE, hround, if_neg hnn, subscriptionBaseDate_refresh]
    have hrows : (dbUpdateWhere st1
        (fun r => r.tg_id = tgId ∧ a ≤ r.earned_money) fun r =>
        { r with
          subscription_active := true
          subscription_status := some SubStatus.live
          subscription_untill :=
            some (formatDateOnly (addMonths (subscriptionBaseDate today u) months))
          earned_money := u.earned_money - a }).2 =
        [debitedRow (refreshNickname u nick)
          (formatDateOnly (addMonths (subscriptionBaseDate today u) months))
          (u.earned_money - a)] := by
      show ((st1.filter fun r => decide (r.tg_id = tgId ∧ a ≤ r.earned_money)).map _) = _
      rw [filterByTgId_and st1 tgId (fun r => a ≤ r.earned_money), hfil1]
      simp only [List.filter_cons, List.filter_nil]
      rw [if_pos (by rw [hE]; exact decide_eq_true hle)]
      rfl
    rw [hrows]
    simp only [maybeSingle]
    have hf : ∀ r : TelegramUserRecord,
        (({ r with
            subscription_active := true
            subscription_status := some SubStatus.live
            subscription_untill :=
              some (formatDateOnly (addMonths (subscriptionBaseDate today u) months))
            earned_money := u.earned_money - a } : TelegramUserRecord)).tg_id = r.tg_id :=
      fun r => rfl
    have hp : ∀ r : TelegramUserRecord,
        (decide (r.tg_id = tgId ∧ a ≤ r.earned_money)) = true → r.tg_id = tgId :=
      fun r h => (of_decide_eq_true h).1
    refine ⟨_, rfl, wfStore_update hf hwf1, ?_, ?_⟩
    · rw [dbFilterByTgId_update hf, hfil1]
      simp only [List.map_cons, List.map_nil]
      rw [if_pos (by rw [hE]; exact decide_eq_true ⟨hrid, hle⟩)]
      rfl
    · intro id2 hne
      rw [dbFilterByTgId_update_other hf hp hne]
      exact hother id2 hne
  · intro hgt
    have hneg : u.earned_money - a < 0 := by
      have := not_le.mp hgt
      linarith
    unfold activateTelegramSubscriptionFromBalance
    rw [if_neg (by omega), if_neg (not_le.mpr ha), hens]
    simp only [bind, Except.bind]
    rw [hE, hround, if_pos hneg]

/-- One balance prolongation as issued over the wire: who pays, the nickname
it reports, how many months, and the amount to debit. -/
structure BalanceOp where
  tgId : String
  tgNickname : Option String
  months : Nat
  amountUsd : ℚ

/-- The first half of activateTelegramSubscriptionFromBalance, up to its first
store write: validation, the ensure read and the balance pre-check on the row
it read. Returns that row, cached, and the store after the ensure. -/
def balanceRead (today : CivilDate) (st : Store) (op : BalanceOp) :
    Except String (TelegramUserRecord × Store) := do
  if op.months = 0 then .error "Invalid subscription months value." else
  if op.amountUsd ≤ 0 then .error "Invalid amountUsd value." else
  let ensured ← ensureTelegramUser today st
    { tgId := op.tgId, tgNickname := op.tgNickname }
  let currentUser := ensured.1.1
  if roundUsd (currentUser.earned_money - op.amountUsd) < 0 then
    .error "INSUFFICIENT_REFERRAL_BALANCE"
  else .ok (currentUser, ensured.2)

/-- The second half of activateTelegramSubscriptionFromBalance: the
conditional update. The row filter re-checks the balance on the current row,
but the value written is computed from the cached row of the read phase. -/
def balanceWrite (today : CivilDate) (st : Store) (op : BalanceOp)
    (currentUser : TelegramUserRecord) :
    Except String (TelegramUserRecord × Store) :=
  let nextEarnedMoney := roundUsd (currentUser.earned_money - op.amountUsd)
  let newUntil := formatDateOnly
    (addMonths (subscriptionBaseDate today currentUser) op.months)
  let updated := dbUpdateWhere st
    (fun r => r.tg_id = op.tgId ∧ op.amountUsd ≤ r.earned_money) fun r =>
    { r with
      subscription_active := true
      subscription_status := some SubStatus.live
      subscription_untill := some newUntil
      earned_money := nextEarnedMoney }
  match maybeSingle updated.2 with
  | .error e => .error e
  | .ok none => .error "INSUFFICIENT_REFERRAL_BALANCE"
  | .ok (some row) => .ok (row, updated.1)

/-- Run back-to-back, the two phases are exactly
activateTelegramSubscriptionFromBalance. -/
theorem balance_phases_compose (today : CivilDate) (st : Store) (op : BalanceOp) :
    (match balanceRead today st op with
      | .error e => .error e
      | .ok p => balanceWrite today p.2 op p.1) =
    activateTelegramSubscriptionFromBalance today st op.tgId op.tgNickname
      op.months op.amountUsd := by
  unfold balanceRead balanceWrite activateTelegramSubscriptionFromBalance
  by_cases h0 : op.months = 0
  · simp [h0]
  · by_cases h1 : op.amountUsd ≤ 0
    · simp [h0, h1]
    · simp only [h0, h1, if_false, bind, Except.bind]
      cases hens : ensureTelegramUser today st
          { tgId := op.tgId, tgNickname := op.tgNickname } with
      | error e => rfl
      | ok p =>
        by_cases h2 : roundUsd (p.1.1.earned_money - op.amountUsd) < 0
        · simp [h2]
        · simp only [h2, if_false]
          cases maybeSingle (dbUpdateWhere p.2
              (fun r => r.tg_id = op.tgId ∧ op.amountUsd ≤ r.earned_money) fun r =>
              { r with
                subscription_active := true
                subscription_status := some SubStatus.live
                subscription_untill := some (formatDateOnly
                  (addMonths (subscriptionBaseDate today p.1.1) op.months))
                earned_money :=
                  roundUsd (p.1.1.earned_money - op.amountUsd) }).2 with
          | error e => rfl
          | ok o => cases o <;> rfl

/-- What one in-flight prolongation has done so far: not yet started, holding
the row its read phase cached, finished with an error, or finished with the
row its update returned. -/
inductive OpPhase where
  | start
  | ready (cached : TelegramUserRecord)
  | failed (e : String)
  | done (row : TelegramUserRecord)

/-- A scheduler action: run the read or the write phase of op A or op B. -/
inductive OpAct where
  | readA
  | writeA
  | readB
  | writeB

/-- The shared store together with the progress of two in-flight calls. -/
structure TwoOpState where
  store : Store
  phA : OpPhase
  phB : OpPhase

/-- Advance the read phase of one op against the shared store. -/
def opReadStep (today : CivilDate) (op : BalanceOp) (st : Store) : OpPhase × Store :=
  match balanceRead today st op with
  | .error e => (.failed e, st)
  | .ok p => (.ready p.1, p.2)

/-- Advance the write phase of one op against the shared store, using the row
cached by its read phase. -/
def opWriteStep (today : CivilDate) (op : BalanceOp) (st : Store)
    (cached : TelegramUserRecord) : OpPhase × Store :=
  match balanceWrite today st op cached with
  | .error e => (.failed e, st)
  | .ok p => (.done p.1, p.2)

/-- One scheduler step of two interleaved balance prolongations; an action on
an op that is not at the matching phase changes nothing. -/
def twoOpStep (today : CivilDate) (opA opB : BalanceOp) (s : TwoOpState) :
    OpAct → TwoOpState
  | .readA =>
    match s.phA with
    | .start =>
      let p := opReadStep today opA s.store
      { s with phA := p.1, store := p.2 }
    | _ => s
  | .writeA =>
    match s.phA with
    | .ready cached =>
      let p := opWriteStep today opA s.store cached
      { s with phA := p.1, store := p.2 }
    | _ => s
  | .readB =>
    match s.phB with
    | .start =>
      let p := opReadStep today opB s.store
      { s with phB := p.1, store := p.2 }
    | _ => s
  | .writeB =>
    match s.phB with
    | .ready cached =>
      let p := opWriteStep today opB s.store cached
      { s with phB := p.1, store := p.2 }
    | _ => s

/-- Run a schedule of two interleaved balance prolongations on a store. -/
def twoOpRun (today : CivilDate) (opA opB : BalanceOp) (st : Store)
    (acts : List OpAct) : TwoOpState :=
  acts.foldl (twoOpStep today opA opB) { store := st, phA := .start, phB := .start }

/-- The balance an op reports on success, none while unfinished or failed. -/
def phaseEarned : OpPhase → Option ℚ
  | .done row => some row.earned_money
  | _ => none

/-- A user with a two-dollar referral balance. -/
def c1User : TelegramUserRecord :=
  { tg_nickname := none
    tg_id := "10"
    subscription_active := false
    subscription_status := none
    subscription_untill := none
    traffic_consumed_mb := 0
    number_of_connections := 0
    number_of_connections_last_month := 0
    number_of_referals := 0
    earned_money := 2
    refferals_data := []
    reffered_by := none
    gifts := [] }

/-- A one-dollar one-month prolongation from balance for that user. -/
def c1Op : BalanceOp :=
  { tgId := "10", tgNickname := none, months := 1, amountUsd := 1 }

set_option maxRecDepth 1000000 in
/-- Two interleaved one-dollar prolongations from a two-dollar balance both
pass the conditional update and both report the balance of the same stale
read: run sequentially they leave 0, interleaved read-read-write-write they
both succeed yet leave 1 — the second write debits against the first op's
stale balance read and one debit is lost. -/
theorem balanceRace_counterexample :
    phaseEarned (twoOpRun ⟨2024, 1, 10⟩ c1Op c1Op [c1User]
      [.readA, .writeA, .readB, .writeB]).phA = some 1 ∧
    phaseEarned (twoOpRun ⟨2024, 1, 10⟩ c1Op c1Op [c1User]
      [.readA, .writeA, .readB, .writeB]).phB = some 0 ∧
    (dbFilterByTgId (twoOpRun ⟨2024, 1, 10⟩ c1Op c1Op [c1User]
      [.readA, .writeA, .readB, .writeB]).store "10").map
      (fun r => r.earned_money) = [0] ∧
    phaseEarned (twoOpRun ⟨2024, 1, 10⟩ c1Op c1Op [c1User]
      [.readA, .readB, .writeA, .writeB]).phA = some 1 ∧
    phaseEarned (twoOpRun ⟨2024, 1, 10⟩ c1Op c1Op [c1User]
      [.readA, .readB, .writeA, .writeB]).phB = some 1 ∧
    (dbFilterByTgId (twoOpRun ⟨2024, 1, 10⟩ c1Op c1Op [c1User]
      [.readA, .readB, .writeA, .writeB]).store "10").map
      (fun r => r.earned_money) = [1] := by
  with_unfolding_all decide

/-- The amended C1 statement holds at a concrete one-user store. -/
theorem activateFromBalance_spec_witness :
    ((1 : ℚ) ≤ c1User.earned_money →
      ∃ st1, activateTelegramSubscriptionFromBalance ⟨2024, 1, 10⟩ [c1User] "10"
          none 1 1 =
          .ok (debitedRow (refreshNickname c1User none)
            (formatDateOnly (addMonths (subscriptionBaseDate ⟨2024, 1, 10⟩ c1User) 1))
            (c1User.earned_money - 1), st1) ∧
        WfStore st1 ∧
        dbFilterByTgId st1 "10" = [debitedRow (refreshNickname c1User none)
          (formatDateOnly (addMonths (subscriptionBaseDate ⟨2024, 1, 10⟩ c1User) 1))
          (c1User.earned_money - 1)] ∧
        (∀ id2, id2 ≠ "10" → dbFilterByTgId st1 id2 = dbFilterByTgId [c1User] id2)) ∧
    (¬(1 : ℚ) ≤ c1User.earned_money →
      activateTelegramSubscriptionFromBalance ⟨2024, 1, 10⟩ [c1User] "10" none 1 1 =
        .error "INSUFFICIENT_REFERRAL_BALANCE") :=
  activateFromBalance_spec ⟨2024, 1, 10⟩ [c1User] "10" none 1 1 c1User
    (by decide) rfl (by decide) (by norm_num)
    ⟨200, by norm_num [c1User]⟩ ⟨100, by norm_num⟩

end Uskoritel
